import Mathlib

/-!
# Streaming chat relay of aichat-go

A shallow embedding of the streaming relay found in
`internal/service/ai_service.go` (`AIService.StreamChat`, the reader goroutine)
and `internal/handler/ai_handler.go` (`AIHandler.processStreamResponse`, the
consumer with its `select` loop), followed by theorems about it.

Modelling conventions.

* Go strings are Lean strings, read as sequences of code points.
* `bufio.Reader.ReadString`, `json.Unmarshal` and the HTTP client are library
  code: what they return is an input of the model (`Body`, `Upstream`, and the
  `Unmarshal` argument of the reader).
* The reader goroutine is deterministic once the upstream is fixed, so it is
  embedded as the list of channel operations it performs, in program order.
* The two goroutines and the request context are composed by an explicit
  scheduler: a run is a list of `Choice`s, each of which either lets the reader
  perform its next channel operation, cancels the request context, or lets the
  consumer's `select` take one of its three cases.  A case can only be taken
  when Go would consider it ready.
-/

namespace AIChat

/-! ## Go string helpers (package `strings`, `unicode`) -/

/-- White space in the sense of `unicode.IsSpace`. -/
def isSpace (c : Char) : Bool :=
  let n := c.toNat
  n == 0x09 || n == 0x0A || n == 0x0B || n == 0x0C || n == 0x0D || n == 0x20 ||
  n == 0x85 || n == 0xA0 || n == 0x1680 || (0x2000 ≤ n && n ≤ 0x200A) ||
  n == 0x2028 || n == 0x2029 || n == 0x202F || n == 0x205F || n == 0x3000

/-- Go `strings.TrimSpace`: drops leading and trailing white space. -/
def TrimSpace (s : String) : String :=
  ⟨((s.data.dropWhile isSpace).reverse.dropWhile isSpace).reverse⟩

/-- Go `strings.HasPrefix`. -/
def HasPrefix (s p : String) : Bool :=
  p.data.isPrefixOf s.data

/-- Go `strings.TrimPrefix`: removes `p` from the front of `s` when present. -/
def TrimPrefix (s p : String) : String :=
  if HasPrefix s p then ⟨s.data.drop p.data.length⟩ else s

/-! ## The reader goroutine of `AIService.StreamChat` -/

/-- The Go struct `StreamResponse`, one token handed to the consumer. -/
structure StreamResponse where
  Content : String
  Type_ : String
deriving DecidableEq, Repr

/-- The field `Delta` of a decoded chunk choice. -/
structure Delta where
  Content : String
  ReasoningContent : String
deriving DecidableEq, Repr

/-- The error returned by the `ReadString` call that ends the body. -/
inductive ReadErr where
  | EOF
  | other (msg : String)
deriving DecidableEq, Repr

/-- The response body as seen through `reader.ReadString`: the strings returned
with a nil error (each one line, delimiter included), then the data returned
together with the first non-nil error. -/
structure Body where
  lines : List String
  last : String
  err : ReadErr
deriving DecidableEq, Repr

/-- What `io.ReadAll` yields on the body (its error is discarded by the code). -/
def Body.ReadAll (b : Body) : String :=
  b.lines.foldr (fun l acc => l ++ acc) b.last

/-- The behaviour of the environment towards one run of the reader. -/
inductive Upstream where
  | marshalFails (msg : String)
  | newRequestFails (msg : String)
  | doFails (msg : String)
  | response (StatusCode : Nat) (body : Body)
deriving DecidableEq, Repr

/-- A channel operation of the reader goroutine. -/
inductive ChanOp where
  | sendResponse (r : StreamResponse)
  | sendError (e : String)
  | closeErrors
  | closeResponses
deriving DecidableEq, Repr

/-- The sends made for one decoded chunk (`len(chunk.Choices) > 0` and the two
tests on `delta`). -/
def chunkSends : List Delta → List ChanOp
  | [] => []
  | delta :: _ =>
    (if delta.ReasoningContent ≠ "" then
        [ChanOp.sendResponse ⟨delta.ReasoningContent, "reasoning"⟩] else []) ++
    (if delta.Content ≠ "" then
        [ChanOp.sendResponse ⟨delta.Content, "content"⟩] else [])

/-- The `for` loop of the reader over the lines of the body.  `Unmarshal data`
is `none` when `json.Unmarshal` returns an error and otherwise the decoded
`chunk.Choices`. -/
def readLoop (Unmarshal : String → Option (List Delta)) (err : ReadErr) :
    List String → List ChanOp
  | [] =>
    match err with
    | ReadErr.EOF => []
    | ReadErr.other msg => [ChanOp.sendError ("读取流式响应错误: " ++ msg)]
  | raw :: rest =>
    let line := TrimSpace raw
    if line = "" then readLoop Unmarshal err rest
    else if !HasPrefix line "data:" then readLoop Unmarshal err rest
    else
      let data := TrimSpace (TrimPrefix line "data:")
      if data = "[DONE]" then []
      else
        match Unmarshal data with
        | none => readLoop Unmarshal err rest
        | some Choices => chunkSends Choices ++ readLoop Unmarshal err rest

/-- The body of the goroutine, up to the deferred calls. -/
def readerBody (Unmarshal : String → Option (List Delta)) : Upstream → List ChanOp
  | Upstream.marshalFails msg => [ChanOp.sendError ("序列化流式请求失败: " ++ msg)]
  | Upstream.newRequestFails msg => [ChanOp.sendError ("创建流式请求失败: " ++ msg)]
  | Upstream.doFails msg => [ChanOp.sendError ("发送流式请求失败: " ++ msg)]
  | Upstream.response StatusCode body =>
    if StatusCode ≠ 200 then [ChanOp.sendError ("AI流式API错误: " ++ body.ReadAll)]
    else readLoop Unmarshal body.err body.lines

/-- The whole goroutine: its body, then the deferred `close(errors)` and
`close(responses)` (deferred calls run last-registered first). -/
def readerScript (Unmarshal : String → Option (List Delta)) (u : Upstream) : List ChanOp :=
  readerBody Unmarshal u ++ [ChanOp.closeErrors, ChanOp.closeResponses]

/-- The tokens sent by a list of channel operations, in order. -/
def sentTokens : List ChanOp → List StreamResponse
  | [] => []
  | ChanOp.sendResponse r :: ops => r :: sentTokens ops
  | _ :: ops => sentTokens ops

/-- The errors sent by a list of channel operations, in order. -/
def sentErrors : List ChanOp → List String
  | [] => []
  | ChanOp.sendError e :: ops => e :: sentErrors ops
  | _ :: ops => sentErrors ops

/-! ## The consumer `AIHandler.processStreamResponse` -/

/-- The Go struct `service.CreateMessageRequest`; `saveMessage` leaves `ParentID`
nil. -/
structure CreateMessageRequest where
  ConversationID : Nat
  Content : String
  ReasoningContent : String
  Type_ : String
  Model : Option String
  ParentID : Option Nat := none
deriving DecidableEq, Repr

/-- One call `h.messageService.Create(userID, msgReq)`. -/
structure CreateCall where
  userID : Nat
  msgReq : CreateMessageRequest
deriving DecidableEq, Repr

/-- An event frame written to the client (the JSON object after `data: `). -/
inductive SSEvent where
  | opened (conversationId : Nat)
  | token (type : String) (content : String) (done : Bool) (conversationId : Nat)
  | error (message : String) (details : String)
  | finish (conversationId : Nat) (content : String) (chunkCount : Nat)
deriving DecidableEq, Repr

/-- The `return` through which `processStreamResponse` left. -/
inductive Exit where
  | disconnect
  | error
  | finish
deriving DecidableEq, Repr

/-- The arguments of `processStreamResponse`.  `Model` is `chatReq.Model` as
`saveMessage` reads it, that is after `StreamChat` has run on the request. -/
structure Session where
  userID : Nat
  conversationID : Nat
  Model : Option String
  messageType : String
deriving DecidableEq, Repr

/-- The joint state of reader, channels, request context and consumer. -/
structure Sys where
  /-- Channel operations the reader has still to perform. -/
  pending : List ChanOp
  /-- Buffer of `responses` (capacity 100). -/
  tokBuf : List StreamResponse
  tokClosed : Bool
  /-- Buffer of `errors` (capacity 1). -/
  errBuf : List String
  errClosed : Bool
  /-- Whether `c.Request.Context()` is done. -/
  ctxDone : Bool
  /-- Consumer local: `tokens == nil`. -/
  tokensNil : Bool
  /-- Consumer local: `errors == nil`. -/
  errorsNil : Bool
  fullContent : String
  fullReasoningContent : String
  chunkCount : Nat
  /-- Event frames written to `c.Writer`, oldest first. -/
  written : List SSEvent
  /-- Calls of `messageService.Create`, oldest first. -/
  creates : List CreateCall
  exit : Option Exit
deriving DecidableEq, Repr

/-- Capacity of the channel `responses`. -/
def responsesCap : Nat := 100

/-- Capacity of the channel `errors`. -/
def errorsCap : Nat := 1

/-- State right after `h.aiService.StreamChat(chatReq)` returned the channels:
the connection-opened frame is written, the goroutine has its whole script.
The assertion `c.Writer.(http.Flusher)` before it cannot fail, the interface
`gin.ResponseWriter` embedding `http.Flusher`, so its `return` is not modelled. -/
def init (ss : Session) (script : List ChanOp) : Sys :=
  { pending := script, tokBuf := [], tokClosed := false, errBuf := [], errClosed := false,
    ctxDone := false, tokensNil := false, errorsNil := false,
    fullContent := "", fullReasoningContent := "", chunkCount := 0,
    written := [SSEvent.opened ss.conversationID], creates := [], exit := none }

/-- The closure `saveMessage`. -/
def saveMessage (ss : Session) (s : Sys) : Sys :=
  if s.fullContent = "" then s
  else
    { s with creates := s.creates ++
        [{ userID := ss.userID,
           msgReq := { ConversationID := ss.conversationID, Content := s.fullContent,
                       ReasoningContent := s.fullReasoningContent, Type_ := "assistant",
                       Model := ss.Model } }] }

/-- The code after the loop: the finish frame, `saveMessage`, return. -/
def sendFinish (ss : Session) (s : Sys) : Sys :=
  let s1 := { s with written := s.written ++
    [SSEvent.finish ss.conversationID s.fullContent s.chunkCount] }
  { saveMessage ss s1 with exit := some Exit.finish }

/-- The body of `case response, ok := <-tokens` when `ok`. -/
def onToken (ss : Session) (s : Sys) (response : StreamResponse) : Sys :=
  let fullContent :=
    if response.Type_ = "content" then s.fullContent ++ response.Content else s.fullContent
  let type := if response.Type_ = "reasoning" then "reasoning" else ss.messageType
  let fullReasoningContent :=
    if response.Type_ = "reasoning" then s.fullReasoningContent ++ response.Content
    else s.fullReasoningContent
  { s with fullContent := fullContent, chunkCount := s.chunkCount + 1,
           fullReasoningContent := fullReasoningContent,
           written := s.written ++
             [SSEvent.token type response.Content false ss.conversationID] }

/-- The body of `case err, ok := <-errors` when `ok`. -/
def onError (ss : Session) (s : Sys) (err : String) : Sys :=
  let s1 := { s with written := s.written ++ [SSEvent.error "AI服务调用失败" err] }
  { saveMessage ss s1 with exit := some Exit.error }

/-- What the scheduler may pick next. -/
inductive Choice where
  /-- The reader goroutine performs its next channel operation. -/
  | reader
  /-- The client goes away: the request context becomes done. -/
  | cancel
  /-- The `select` takes `<-c.Request.Context().Done()`. -/
  | caseDone
  /-- The `select` takes `<-tokens`. -/
  | caseTokens
  /-- The `select` takes `<-errors`. -/
  | caseErrors
deriving DecidableEq, Repr

/-- One channel operation of the reader; `none` when it cannot proceed (a send
on a full buffer blocks). -/
def readerStep (s : Sys) : Option Sys :=
  match s.pending with
  | [] => none
  | ChanOp.sendResponse r :: rest =>
    if s.tokClosed then none
    else if s.tokBuf.length < responsesCap then
      some { s with pending := rest, tokBuf := s.tokBuf ++ [r] }
    else none
  | ChanOp.sendError e :: rest =>
    if s.errClosed then none
    else if s.errBuf.length < errorsCap then
      some { s with pending := rest, errBuf := s.errBuf ++ [e] }
    else none
  | ChanOp.closeErrors :: rest =>
    if s.errClosed then none else some { s with pending := rest, errClosed := true }
  | ChanOp.closeResponses :: rest =>
    if s.tokClosed then none else some { s with pending := rest, tokClosed := true }

/-- One iteration of the `select` loop taking the given case; `none` when the
consumer has returned or the case is not ready (a receive from a nil channel,
or from an open empty one, blocks). -/
def consumerStep (ss : Session) (s : Sys) : Choice → Option Sys
  | Choice.caseDone =>
    if s.exit.isSome then none
    else if s.ctxDone then some { saveMessage ss s with exit := some Exit.disconnect }
    else none
  | Choice.caseTokens =>
    if s.exit.isSome || s.tokensNil then none
    else
      match s.tokBuf with
      | response :: rest => some (onToken ss { s with tokBuf := rest } response)
      | [] =>
        if s.tokClosed then
          let s1 := { s with tokensNil := true }
          if s1.errorsNil then some (sendFinish ss s1) else some s1
        else none
  | Choice.caseErrors =>
    if s.exit.isSome || s.errorsNil then none
    else
      match s.errBuf with
      | err :: rest => some (onError ss { s with errBuf := rest } err)
      | [] =>
        if s.errClosed then
          let s1 := { s with errorsNil := true }
          if s1.tokensNil then some (sendFinish ss s1) else some s1
        else none
  | _ => none

/-- One scheduled step of the whole system. -/
def step (ss : Session) (s : Sys) : Choice → Option Sys
  | Choice.reader => readerStep s
  | Choice.cancel => if s.ctxDone then none else some { s with ctxDone := true }
  | c => consumerStep ss s c

/-- A run under a schedule; `none` when the schedule asks for a step that is
not enabled. -/
def run (ss : Session) (s : Sys) : List Choice → Option Sys
  | [] => some s
  | c :: cs =>
    match step ss s c with
    | none => none
    | some s1 => run ss s1 cs

/-- The state the session reaches under a schedule, for a given upstream. -/
def session (Unmarshal : String → Option (List Delta)) (ss : Session) (u : Upstream)
    (sched : List Choice) : Option Sys :=
  run ss (init ss (readerScript Unmarshal u)) sched

/-! ## Requests, entry points, the opened frame and the outcome of `Create` -/

/-- The two handlers that call `processStreamResponse`. -/
inductive EntryPoint where
  /-- Handler `AIHandler.StreamChat`, route `POST /stream`. -/
  | StreamChat
  /-- Handler `AIHandler.StreamChatByConversationID`, route `GET /stream/:conversationId`. -/
  | StreamChatByConversationID
deriving DecidableEq, Repr

/-- The argument `messageType` each handler passes to `processStreamResponse`. -/
def entryMessageType : EntryPoint → String
  | EntryPoint.StreamChat => "message"
  | EntryPoint.StreamChatByConversationID => "token"

/-- The Go struct `service.Message`. -/
structure Message where
  Role : String
  Content : String
deriving DecidableEq, Repr

/-- The Go struct `service.ChatRequest`.  A nil pointer is `none`; `Thinking`
holds the field `Type` of the anonymous struct; a temperature is the number the
float denotes. -/
structure ChatRequest where
  Messages : List Message
  Model : Option String
  Temperature : Option Rat
  Stream : Bool
  Thinking : Option String
deriving DecidableEq, Repr

/-- The caller's request after `AIService.StreamChat` has returned: the three
assignments made through the pointer `req` before the goroutine is started.
`cfgModel` is `s.cfg.Model`. -/
def fillDefaults (cfgModel : String) (req : ChatRequest) : ChatRequest :=
  let req1 := if req.Model = none then { req with Model := some cfgModel } else req
  let req2 := if req1.Temperature = none then { req1 with Temperature := some 0.7 } else req1
  if req2.Thinking = none then { req2 with Thinking := some "enabled" } else req2

/-- The request the goroutine marshals: `streamReq := *req` followed by
`streamReq.Stream = true`. -/
def streamReq (cfgModel : String) (req : ChatRequest) : ChatRequest :=
  { fillDefaults cfgModel req with Stream := true }

/-- The session `processStreamResponse` runs for its arguments: `saveMessage`
reads `chatReq.Model` after `h.aiService.StreamChat(chatReq)` has run on the
same request. -/
def processSession (cfgModel : String) (userID conversationID : Nat) (chatReq : ChatRequest)
    (messageType : String) : Session :=
  { userID := userID, conversationID := conversationID,
    Model := (fillDefaults cfgModel chatReq).Model, messageType := messageType }

/-- The Go conversion `int(x)` of a `uint` of `w` bits: the value is read in
two's complement. -/
def uintToInt (w : Nat) (x : Nat) : Int :=
  if x % 2 ^ w < 2 ^ (w - 1) then ((x % 2 ^ w : Nat) : Int)
  else ((x % 2 ^ w : Nat) : Int) - ((2 ^ w : Nat) : Int)

/-- Go `strconv.Itoa`. -/
def Itoa (i : Int) : String :=
  match i with
  | Int.ofNat n => Nat.repr n
  | Int.negSucc n => "-" ++ Nat.repr (n + 1)

/-- The bytes of the connection-opened frame, first write of
`processStreamResponse`, on a platform whose `uint` has `w` bits. -/
def openedFrame (w : Nat) (conversationID : Nat) : String :=
  "data: \x7b\"conversationId\":" ++ Itoa (uintToInt w conversationID) ++ "\x7d\n\n"

/-- The closure `saveMessage` with the result of `Create` made explicit:
`Create userID msgReq` is the error the call returns, `none` for nil; the second
component lists the lines the closure logs. -/
def saveMessageLogged (Create : Nat → CreateMessageRequest → Option String) (ss : Session)
    (s : Sys) : Sys × List String :=
  if s.fullContent = "" then (s, [])
  else
    let msgReq : CreateMessageRequest :=
      { ConversationID := ss.conversationID, Content := s.fullContent,
        ReasoningContent := s.fullReasoningContent, Type_ := "assistant", Model := ss.Model }
    let s1 := { s with creates := s.creates ++ [{ userID := ss.userID, msgReq := msgReq }] }
    match Create ss.userID msgReq with
    | some err => (s1, ["保存AI回答失败: " ++ err])
    | none => (s1, [])

/-- The code after the loop, with the result of `Create` explicit. -/
def sendFinishLogged (Create : Nat → CreateMessageRequest → Option String) (ss : Session)
    (s : Sys) : Sys × List String :=
  let s1 := { s with written := s.written ++
    [SSEvent.finish ss.conversationID s.fullContent s.chunkCount] }
  let r := saveMessageLogged Create ss s1
  ({ r.1 with exit := some Exit.finish }, r.2)

/-- The body of `case err, ok := <-errors` when `ok`, with the result of
`Create` explicit. -/
def onErrorLogged (Create : Nat → CreateMessageRequest → Option String) (ss : Session)
    (s : Sys) (err : String) : Sys × List String :=
  let s1 := { s with written := s.written ++ [SSEvent.error "AI服务调用失败" err] }
  let r := saveMessageLogged Create ss s1
  ({ r.1 with exit := some Exit.error }, ("Stream error: " ++ err) :: r.2)

/-- One iteration of the `select` loop with the result of `Create` explicit: the
new state and the lines the consumer logs in this iteration. -/
def consumerStepLogged (Create : Nat → CreateMessageRequest → Option String) (ss : Session)
    (s : Sys) : Choice → Option (Sys × List String)
  | Choice.caseDone =>
    if s.exit.isSome then none
    else if s.ctxDone then
      let r := saveMessageLogged Create ss s
      some ({ r.1 with exit := some Exit.disconnect }, "客户端断开连接，保存已生成内容" :: r.2)
    else none
  | Choice.caseTokens =>
    if s.exit.isSome || s.tokensNil then none
    else
      match s.tokBuf with
      | response :: rest => some (onToken ss { s with tokBuf := rest } response, [])
      | [] =>
        if s.tokClosed then
          let s1 := { s with tokensNil := true }
          if s1.errorsNil then some (sendFinishLogged Create ss s1) else some (s1, [])
        else none
  | Choice.caseErrors =>
    if s.exit.isSome || s.errorsNil then none
    else
      match s.errBuf with
      | err :: rest => some (onErrorLogged Create ss { s with errBuf := rest } err)
      | [] =>
        if s.errClosed then
          let s1 := { s with errorsNil := true }
          if s1.tokensNil then some (sendFinishLogged Create ss s1) else some (s1, [])
        else none
  | _ => none

/-- One scheduled step of the whole system with the result of `Create`
explicit. -/
def stepLogged (Create : Nat → CreateMessageRequest → Option String) (ss : Session)
    (s : Sys) : Choice → Option (Sys × List String)
  | Choice.reader => (readerStep s).map (fun s1 => (s1, []))
  | Choice.cancel => if s.ctxDone then none else some ({ s with ctxDone := true }, [])
  | c => consumerStepLogged Create ss s c

/-- A run under a schedule with the result of `Create` explicit: the state
reached and all the lines the consumer logged. -/
def runLogged (Create : Nat → CreateMessageRequest → Option String) (ss : Session) :
    Sys → List Choice → Option (Sys × List String)
  | s, [] => some (s, [])
  | s, c :: cs =>
    match stepLogged Create ss s c with
    | none => none
    | some r1 =>
      match runLogged Create ss r1.1 cs with
      | none => none
      | some r2 => some (r2.1, r1.2 ++ r2.2)

/-- The state a session reaches and the lines its consumer logged, for a given
upstream and a given behaviour of `Create`. -/
def sessionLogged (Create : Nat → CreateMessageRequest → Option String)
    (Unmarshal : String → Option (List Delta)) (ss : Session) (u : Upstream)
    (sched : List Choice) : Option (Sys × List String) :=
  runLogged Create ss (init ss (readerScript Unmarshal u)) sched

/-! ## The handlers, the message service, the bytes of the body and the tokens of `AuthService` -/

/-- The Go struct `handler.StreamChatRequest` (with the embedded
`handler.ChatRequest`), as bound from the JSON body of `POST /stream`. -/
structure StreamChatRequest where
  ConversationID : Option Nat
  Model : Option String
  Temperature : Option Rat
  Message : String
  FixedPromptID : Option Nat
  Thinking : Option String
  UseFixedPrompt : Bool
deriving DecidableEq, Repr

/-- The request `AIHandler.StreamChat` hands to `processStreamResponse`. -/
def postChatReq (chatMessages : List Message) (req : StreamChatRequest) : ChatRequest :=
  { Messages := chatMessages, Model := req.Model, Temperature := req.Temperature,
    Stream := true, Thinking := req.Thinking }

/-- The request `AIHandler.StreamChatByConversationID` hands to
`processStreamResponse`; `thinkingType` is `c.Query("thinking")`. -/
def getChatReq (chatMessages : List Message) (thinkingType : String) : ChatRequest :=
  let chatReq : ChatRequest :=
    { Messages := chatMessages, Model := none, Temperature := none, Stream := true,
      Thinking := none }
  if thinkingType ≠ "" then { chatReq with Thinking := some thinkingType } else chatReq

/-- Modelled from the spec: the Go struct `repository.Conversation`, whose
declaration is missing from the sources; it is given the two fields that
`MessageService` uses in its queries, which `model.Conversation` has too. -/
structure Conversation where
  ID : Nat
  UserID : Nat
deriving DecidableEq, Repr

/-- The Go struct `repository.Message`, a row of the table of messages.  `Tokens`
and `Metadata`, which no path here sets, and the two time stamps are left out. -/
structure RepoMessage where
  ID : Nat
  ConversationID : Nat
  Content : String
  ReasoningContent : String
  Sort_ : Int
  Type_ : String
  Model : Option String
  ParentID : Option Nat
deriving DecidableEq, Repr

/-- The Go struct `service.MessageResponse`, with the fields of `RepoMessage`. -/
structure MessageResponse where
  ID : Nat
  ConversationID : Nat
  Content : String
  ReasoningContent : String
  Sort_ : Int
  Type_ : String
  Model : Option String
  ParentID : Option Nat
deriving DecidableEq, Repr

/-- The method `MessageService.toResponse`. -/
def toResponse (msg : RepoMessage) : MessageResponse :=
  { ID := msg.ID, ConversationID := msg.ConversationID, Content := msg.Content,
    ReasoningContent := msg.ReasoningContent, Sort_ := msg.Sort_, Type_ := msg.Type_,
    Model := msg.Model, ParentID := msg.ParentID }

/-- The database as the message service sees it: the live rows of the two
tables, the messages in the order of their insertion, and the next value of
the key sequence of the messages. -/
structure DB where
  conversations : List Conversation
  messages : List RepoMessage
  seq : Nat
deriving DecidableEq, Repr

/-- The errors the database returns to the queries of one service call, `none`
for a query that succeeds. -/
structure Faults where
  count : Option String
  pluck : Option String
  create : Option String
  find : Option String
deriving DecidableEq, Repr

/-- No query fails. -/
def noFaults : Faults := { count := none, pluck := none, create := none, find := none }

/-- The query `Where(&repository.Conversation{ID: id, UserID: userID}).Count`.
gorm builds the condition of a struct from its non-zero fields only: a field
that is 0 puts no condition on its column, so with identifier 0 the count is
that of the conversations of the user, with user 0 that of the conversations
with this identifier, and with both 0 that of all conversations. -/
def countOwned (db : DB) (conversationID userID : Nat) : Nat :=
  (db.conversations.filter
    (fun c => (decide (conversationID = 0) || decide (c.ID = conversationID)) &&
      (decide (userID = 0) || decide (c.UserID = userID)))).length

/-- The rows of one conversation, in the order of their insertion. -/
def rowsOf (db : DB) (conversationID : Nat) : List RepoMessage :=
  db.messages.filter (fun m => decide (m.ConversationID = conversationID))

/-- `MAX(sort)` over a list of rows, `none` for no row. -/
def maxSort : List RepoMessage → Option Int
  | [] => none
  | m :: ms =>
    match maxSort ms with
    | none => some m.Sort_
    | some x => some (max m.Sort_ x)

/-- The value a Go `int` of `w` bits holds for the integer `x`: sums wrap
around in two's complement. -/
def wrapInt (w : Nat) (x : Int) : Int :=
  (x + 2 ^ (w - 1)) % 2 ^ w - 2 ^ (w - 1)

/-- The method `MessageService.NextSort` on a platform whose `int` has `w` bits:
`maxSort + 1` is a sum of that type. -/
def NextSort (w : Nat) (faults : Faults) (db : DB) (conversationID : Nat) :
    Except String Int :=
  match faults.pluck with
  | some err => Except.error ("查询最大排序值失败: " ++ err)
  | none => Except.ok (wrapInt w ((maxSort (rowsOf db conversationID)).getD 0 + 1))

/-- The method `MessageService.Create`, on a platform whose `int` has `w` bits:
its result and the database after the call. -/
def MessageService.Create (w : Nat) (faults : Faults) (db : DB) (userID : Nat)
    (req : CreateMessageRequest) : Except String MessageResponse × DB :=
  match faults.count with
  | some err => (Except.error ("验证会话归属权失败: " ++ err), db)
  | none =>
    if countOwned db req.ConversationID userID = 0 then
      (Except.error "无权向该会话发送消息", db)
    else
      match NextSort w faults db req.ConversationID with
      | Except.error err => (Except.error ("获取消息排序失败: " ++ err), db)
      | Except.ok nextSort =>
        let message : RepoMessage :=
          { ID := 0, ConversationID := req.ConversationID, Content := req.Content,
            ReasoningContent := req.ReasoningContent, Sort_ := nextSort, Type_ := req.Type_,
            Model := req.Model, ParentID := req.ParentID }
        match faults.create with
        | some err => (Except.error ("创建消息失败: " ++ err), db)
        | none =>
          let row := { message with ID := db.seq }
          (Except.ok (toResponse row),
            { db with messages := db.messages ++ [row], seq := db.seq + 1 })

/-- The method `MessageService.FindByConversationID`; `Order("sort asc")` is a
stable sort on the column `sort`. -/
def MessageService.FindByConversationID (faults : Faults) (db : DB)
    (userID conversationID : Nat) : Except String (List MessageResponse) :=
  match faults.count with
  | some err => Except.error ("验证会话归属权失败: " ++ err)
  | none =>
    if countOwned db conversationID userID = 0 then Except.error "无权查看该会话消息"
    else
      match faults.find with
      | some err => Except.error ("查询消息列表失败: " ++ err)
      | none =>
        Except.ok (((rowsOf db conversationID).insertionSort
          (fun a b => a.Sort_ ≤ b.Sort_)).map toResponse)

/-- The method `AIHandler.buildChatMessages`; `history` is what
`h.messageService.FindByConversationID(userID, conversationID)` returns. -/
def buildChatMessages (history : Except String (List MessageResponse))
    (systemPrompt : String) (currentMessage : String) : Except String (List Message) :=
  match history with
  | Except.error err => Except.error err
  | Except.ok messages =>
    let chatMessages : List Message :=
      if systemPrompt ≠ "" then [{ Role := "system", Content := systemPrompt }] else []
    let chatMessages := chatMessages ++
      messages.map (fun msg => { Role := msg.Type_, Content := msg.Content })
    let chatMessages :=
      if currentMessage ≠ "" then chatMessages ++ [{ Role := "user", Content := currentMessage }]
      else chatMessages
    Except.ok chatMessages

/-- The Go struct `dto.FixedPromptResponse`, with the two fields the handler
reads. -/
structure FixedPromptResponse where
  IsActive : Bool
  Content : String
deriving DecidableEq, Repr

/-- The system prompt `AIHandler.StreamChat` settles on; `FindByID` is
`h.fixedPromptService.FindByID`. -/
def resolveSystemPrompt (FindByID : Nat → Nat → Except String FixedPromptResponse)
    (userID : Nat) (req : StreamChatRequest) : String :=
  if req.UseFixedPrompt then
    match req.FixedPromptID with
    | some id =>
      match FindByID userID id with
      | Except.ok fixedPrompt => if fixedPrompt.IsActive then fixedPrompt.Content else ""
      | Except.error _ => ""
    | none => ""
  else ""

/-- How far `AIHandler.StreamChat` gets: either it answers with a JSON error, or
it reaches the call of `processStreamResponse`. -/
inductive Prepared where
  | rejected (status : Nat) (error : String) (details : String) (db : DB)
  | ready (db : DB) (conversationID : Nat) (chatReq : ChatRequest)
deriving DecidableEq, Repr

/-- The handler `AIHandler.StreamChat` from the saving of the user message up to
the call of `processStreamResponse`, on a platform whose `int` has `w` bits;
`conversationID` is the identifier settled before, that of the body or that of
the conversation just created. -/
def StreamChatFrom (w : Nat) (createFaults findFaults : Faults)
    (FindByID : Nat → Nat → Except String FixedPromptResponse) (db : DB)
    (userID conversationID : Nat) (req : StreamChatRequest) : Prepared :=
  let userMessage : CreateMessageRequest :=
    { ConversationID := conversationID, Content := req.Message, ReasoningContent := "",
      Type_ := "user", Model := none }
  match MessageService.Create w createFaults db userID userMessage with
  | (Except.error err, db1) => Prepared.rejected 500 "保存用户消息失败" err db1
  | (Except.ok _, db1) =>
    let systemPrompt := resolveSystemPrompt FindByID userID req
    match buildChatMessages
        (MessageService.FindByConversationID findFaults db1 userID conversationID)
        systemPrompt req.Message with
    | Except.error err => Prepared.rejected 500 "获取消息历史失败" err db1
    | Except.ok chatMessages => Prepared.ready db1 conversationID (postChatReq chatMessages req)

/-- What successive calls of `reader.ReadString` cut out of the bytes received:
the lines ended by a newline, the newline included, and the bytes after the last
newline, which come back together with the error that ends the reading. -/
def readStrings : List Char → List String × String
  | [] => ([], "")
  | c :: cs =>
    if c = '\n' then ("\n" :: (readStrings cs).1, (readStrings cs).2)
    else
      match (readStrings cs).1 with
      | [] => ([], ⟨c :: (readStrings cs).2.data⟩)
      | l :: ls => (⟨c :: l.data⟩ :: ls, (readStrings cs).2)

/-- The body `reader.ReadString` delivers when `data` is received and the
reading then ends with `err`. -/
def bodyOf (data : String) (err : ReadErr) : Body :=
  { lines := (readStrings data.data).1, last := (readStrings data.data).2, err := err }

/-- One element of `Choices` in the Go struct `service.ChatResponse`. -/
structure CompletionChoice where
  Message : Message
  Finish : String
deriving DecidableEq, Repr

/-- The field `Usage` of the Go struct `service.ChatResponse`. -/
structure Usage where
  PromptTokens : Int
  CompletionTokens : Int
  TotalTokens : Int
deriving DecidableEq, Repr

/-- The Go struct `service.ChatResponse`. -/
structure CompletionResult where
  Choices : List CompletionChoice
  Usage : Usage
deriving DecidableEq, Repr

/-- The request `AIHandler.SendMessage` builds for `ChatCompletion`. -/
def sendChatReq (chatMessages : List Message) (Model : Option String)
    (Temperature : Option Rat) : ChatRequest :=
  { Messages := chatMessages, Model := Model, Temperature := Temperature, Stream := false,
    Thinking := none }

/-- The request of `ChatCompletion` after its two assignments of defaults, made
to the fields of the struct `chatReq` of the service, which is the handler's own
copy of the pointers. -/
def ChatCompletionDefaults (cfgModel : String) (req : ChatRequest) : ChatRequest :=
  let req1 := if req.Model = none then { req with Model := some cfgModel } else req
  if req1.Temperature = none then { req1 with Temperature := some 0.7 } else req1

/-- What `AIHandler.SendMessage` answers.  The fields `ID` and `Created` of the
success response, taken from the clock, are left out. -/
inductive Answer where
  | failure (status : Nat) (error : String) (details : String)
  | success (Object : String) (Model : String) (Choices : List CompletionChoice)
      (Usage : Usage)
  /-- The run-time panic of `*req.Model` on a nil pointer. -/
  | nilDereference
deriving DecidableEq, Repr

/-- The construction of the success response, `Model: *req.Model`. -/
def successResponse (Model : Option String) (result : CompletionResult) : Answer :=
  match Model with
  | some m => Answer.success "chat.completion" m result.Choices result.Usage
  | none => Answer.nilDereference

/-- The handler `AIHandler.SendMessage` from the call of `ChatCompletion` on:
the calls of `Create` it makes and its answer.  `completion` is what
`ChatCompletion` returns, `createUser` and `createAssistant` the errors of the two
calls of `Create`, if any; `Model` is `req.Model` of the handler's request. -/
def SendMessageFrom (completion : Except String CompletionResult)
    (createUser createAssistant : Option String) (userID conversationID : Nat)
    (Model : Option String) (message : String) : List CreateCall × Answer :=
  match completion with
  | Except.error err => ([], Answer.failure 500 "AI服务调用失败" err)
  | Except.ok result =>
    let userMessage : CreateMessageRequest :=
      { ConversationID := conversationID, Content := message, ReasoningContent := "",
        Type_ := "user", Model := none }
    match createUser with
    | some _ => ([⟨userID, userMessage⟩], successResponse Model result)
    | none =>
      match result.Choices with
      | first :: _ =>
        let assistantMessage : CreateMessageRequest :=
          { ConversationID := conversationID, Content := first.Message.Content,
            ReasoningContent := "", Type_ := "assistant", Model := Model }
        match createAssistant with
        | some _ =>
          ([⟨userID, userMessage⟩, ⟨userID, assistantMessage⟩], successResponse Model result)
        | none =>
          ([⟨userID, userMessage⟩, ⟨userID, assistantMessage⟩], successResponse Model result)
      | [] => ([⟨userID, userMessage⟩], successResponse Model result)

/-- Go `time.Hour`, a `time.Duration` in nanoseconds. -/
def Hour : Int := 3600 * 1000000000

/-- Go `Time.Unix` on a time given in nanoseconds since the epoch: the whole
seconds since the epoch. -/
def Unix (t : Int) : Int := t / 1000000000

/-- The fields of `repository.User` that `GenerateJWT` reads. -/
structure User where
  ID : Nat
  Email : String
deriving DecidableEq, Repr

/-- The `jwt.MapClaims` built by `GenerateJWT`. -/
structure Claims where
  userId : Nat
  email : String
  exp : Int
  iat : Int
deriving DecidableEq, Repr

/-- The Go struct `service.TokenResponse`; `ExpiresAt` is in nanoseconds since
the epoch. -/
structure TokenResponse where
  AccessToken : String
  RefreshToken : String
  ExpiresAt : Int
  TokenType : String
deriving DecidableEq, Repr

/-- The method `AuthService.GenerateJWT`.  `sign claims` is what
`jwt.NewWithClaims(jwt.SigningMethodHS256, claims).SignedString(secret)` returns;
`now1`, `now2` and `now3` are the three readings of `time.Now()`, in order. -/
def GenerateJWT (sign : Claims → Except String String) (now1 now2 now3 : Int)
    (user : User) : Except String TokenResponse :=
  let expireTime := now1 + 24 * Hour
  let claims : Claims :=
    { userId := user.ID, email := user.Email, exp := Unix expireTime, iat := Unix now2 }
  match sign claims with
  | Except.error err => Except.error err
  | Except.ok accessToken =>
    let expireTime := now3 + 7 * 24 * Hour
    let claims := { claims with exp := Unix expireTime }
    match sign claims with
    | Except.error err => Except.error err
    | Except.ok refreshTokenString =>
      Except.ok { AccessToken := accessToken, RefreshToken := refreshTokenString,
                  ExpiresAt := expireTime, TokenType := "Bearer" }

/-! ## Vocabulary of the statements -/

/-- Whether a line, once trimmed, is a data frame. -/
def isFrame (raw : String) : Bool := HasPrefix (TrimSpace raw) "data:"

/-- The payload of a data frame. -/
def payload (raw : String) : String := TrimSpace (TrimPrefix (TrimSpace raw) "data:")

/-- The tokens of type "content" among a list of tokens. -/
def contentTokens (toks : List StreamResponse) : List StreamResponse :=
  toks.filter (fun r => r.Type_ = "content")

/-- The tokens of type "reasoning" among a list of tokens. -/
def reasoningTokens (toks : List StreamResponse) : List StreamResponse :=
  toks.filter (fun r => r.Type_ = "reasoning")

/-- Concatenation, in order, of the contents of a list of tokens. -/
def concatContents (toks : List StreamResponse) : String :=
  (toks.map (fun r => r.Content)).foldl (fun acc c => acc ++ c) ""

/-- The client event for one token. -/
def tokenEvent (ss : Session) (r : StreamResponse) : SSEvent :=
  SSEvent.token (if r.Type_ = "reasoning" then "reasoning" else ss.messageType)
    r.Content false ss.conversationID

/-- The call `saveMessage` makes in state `s`, if any. -/
def savedCalls (ss : Session) (s : Sys) : List CreateCall :=
  if s.fullContent = "" then []
  else [{ userID := ss.userID,
          msgReq := { ConversationID := ss.conversationID, Content := s.fullContent,
                      ReasoningContent := s.fullReasoningContent, Type_ := "assistant",
                      Model := ss.Model } }]

/-- The terminal events a state must have written, given its exit. -/
def terminalEvents (ss : Session) (errs : List String) (s : Sys) : List SSEvent :=
  match s.exit with
  | some Exit.finish => [SSEvent.finish ss.conversationID s.fullContent s.chunkCount]
  | some Exit.error => errs.map (SSEvent.error "AI服务调用失败")
  | _ => []

/-- The canonical shape of a reader script. -/
def canon (ps : List StreamResponse) (es : List String) : List ChanOp :=
  ps.map ChanOp.sendResponse ++ (es.map ChanOp.sendError ++
    [ChanOp.closeErrors, ChanOp.closeResponses])

/-- Shape of the operations the reader has left, against the closed flags. -/
def Shape (s : Sys) : Prop :=
  (∃ ps es, s.pending = canon ps es ∧ s.errClosed = false ∧ s.tokClosed = false) ∨
  (s.pending = [ChanOp.closeResponses] ∧ s.errClosed = true ∧ s.tokClosed = false) ∨
  (s.pending = [] ∧ s.errClosed = true ∧ s.tokClosed = true)

/-- The invariant of the relay: `toks` and `errs` are what the reader sends in
total, `recv` what the consumer has received so far. -/
structure Inv (ss : Session) (toks : List StreamResponse) (errs : List String) (s : Sys)
    (recv : List StreamResponse) : Prop where
  content : s.fullContent = concatContents (contentTokens recv)
  reasoning : s.fullReasoningContent = concatContents (reasoningTokens recv)
  count : s.chunkCount = recv.length
  written : s.written =
    SSEvent.opened ss.conversationID :: (recv.map (tokenEvent ss) ++ terminalEvents ss errs s)
  creates : s.creates = if s.exit.isSome then savedCalls ss s else []
  conserve : toks = recv ++ (s.tokBuf ++ sentTokens s.pending)
  errSt : (s.exit = some Exit.error ∧ errs ≠ [] ∧ sentErrors s.pending = [] ∧ s.errBuf = []) ∨
    (s.exit ≠ some Exit.error ∧ sentErrors s.pending ++ s.errBuf = errs)
  shape : Shape s
  nilTok : s.tokensNil = true → s.tokClosed = true ∧ s.tokBuf = []
  nilErr : s.errorsNil = true → s.errClosed = true ∧ s.errBuf = []
  exitFin : s.exit = some Exit.finish ↔ (s.tokensNil = true ∧ s.errorsNil = true)
  errsLen : errs.length ≤ 1
  doneOnly : s.exit = some Exit.disconnect → s.ctxDone = true

/-- A reader body is well formed when it is a run of token sends followed by at
most one error send. -/
def WellFormed (ops : List ChanOp) : Prop :=
  ops = (sentTokens ops).map ChanOp.sendResponse ++ (sentErrors ops).map ChanOp.sendError ∧
    (sentErrors ops).length ≤ 1

/-- The tokens the reader emits for an upstream, in order. -/
def readerTokens (U : String → Option (List Delta)) (u : Upstream) : List StreamResponse :=
  sentTokens (readerBody U u)

/-- The errors the reader puts on the error queue for an upstream. -/
def readerErrors (U : String → Option (List Delta)) (u : Upstream) : List String :=
  sentErrors (readerBody U u)

/-- A bound on the number of steps the system can still take. -/
def fuel (s : Sys) : Nat :=
  2 * s.pending.length + s.tokBuf.length + s.errBuf.length +
    (if s.ctxDone then 0 else 1) + (if s.tokensNil then 0 else 1) +
    (if s.errorsNil then 0 else 1) + (if s.exit.isSome then 0 else 1)

/-- Whether a line is a data frame carrying the sentinel. -/
def isDoneFrame (raw : String) : Bool := isFrame raw && decide (payload raw = "[DONE]")

/-- The tokens of one decoded delta as the specification lists them: the
reasoning token, if any, then the content token, if any. -/
def deltaTokens (d : Delta) : List StreamResponse :=
  (if d.ReasoningContent ≠ "" then [⟨d.ReasoningContent, "reasoning"⟩] else []) ++
  (if d.Content ≠ "" then [⟨d.Content, "content"⟩] else [])

/-- The delta a line carries: the first choice of a data frame that decodes. -/
def frameDelta (U : String → Option (List Delta)) (raw : String) : Option Delta :=
  if isFrame raw then
    match U (payload raw) with
    | some (d :: _) => some d
    | _ => none
  else none

/-- The tokens of one line taken alone. -/
def frameTokens (U : String → Option (List Delta)) (raw : String) : List StreamResponse :=
  match frameDelta U raw with
  | some d => deltaTokens d
  | none => []

/-- The token sequence the specification expects for a body: the lines in the
order read, up to the first sentinel frame, each contributing its tokens. -/
def expectedTokens (U : String → Option (List Delta)) : List String → List StreamResponse
  | [] => []
  | raw :: rest => if isDoneFrame raw then [] else frameTokens U raw ++ expectedTokens U rest

/-- Whether a client event is a token event. -/
def isTokenEvent : SSEvent → Bool
  | SSEvent.token _ _ _ _ => true
  | _ => false

/-- Whether the upstream call fails before the frame stream starts: the request
cannot be built or sent, or the status is not the success status. -/
def failsBeforeStream : Upstream → Bool
  | Upstream.response StatusCode _ => decide (StatusCode ≠ 200)
  | _ => true

/-- Whether a client event is a terminal event. -/
def isTerminalEvent : SSEvent → Bool
  | SSEvent.error _ _ => true
  | SSEvent.finish _ _ _ => true
  | _ => false

/-- A line is a data frame that is not the sentinel and decodes to the single
choice with delta `d`. -/
def carries (U : String → Option (List Delta)) (raw : String) (d : Delta) : Prop :=
  isFrame raw = true ∧ payload raw ≠ "[DONE]" ∧ U (payload raw) = some [d]

/-- Whether a request conforms to the data model of the specification. -/
def conforms (req : ChatRequest) : Prop :=
  (∀ t, req.Temperature = some t → 0 ≤ t ∧ t ≤ 2) ∧
  (∀ m, req.Thinking = some m → m = "enabled" ∨ m = "disabled")

/-- The integer `x` is a value of the Go type `int` of `w` bits. -/
def fitsInt (w : Nat) (x : Int) : Prop :=
  -(2 : Int) ^ (w - 1) ≤ x ∧ x < 2 ^ (w - 1)

/-- The bytes up to the last newline, included. -/
def upToLastNewline : List Char → List Char
  | [] => []
  | c :: cs => if '\n' ∈ c :: cs then c :: upToLastNewline cs else []

/-! ## Sample data for the examples -/

/-- A decoder used to instantiate the theorems, which hold for every decoder:
it returns what `json.Unmarshal` yields on the payloads listed and reports an
error on every other string, among them strings that are not JSON. -/
def sampleUnmarshal (data : String) : Option (List Delta) :=
  if data = "\x7b\"choices\":[\x7b\"delta\":\x7b\"content\":\"Hel\"\x7d\x7d]\x7d" then
    some [⟨"Hel", ""⟩]
  else if data = "\x7b\"choices\":[\x7b\"delta\":\x7b\"content\":\"lo\"\x7d\x7d]\x7d" then
    some [⟨"lo", ""⟩]
  else if data = "\x7b\"choices\":[\x7b\"delta\":\x7b\"reasoning_content\":\"hm\"\x7d\x7d]\x7d" then
    some [⟨"", "hm"⟩]
  else if data = "\x7b\"choices\":[]\x7d" then
    some []
  else none

/-- A session used in the examples. -/
def sampleSession : Session :=
  { userID := 7, conversationID := 42, Model := some "deepseek-chat", messageType := "message" }

/-- The body with frames "Hel", "lo" and the sentinel, each followed by a blank line. -/
def helloBody : Body :=
  { lines := ["data: \x7b\"choices\":[\x7b\"delta\":\x7b\"content\":\"Hel\"\x7d\x7d]\x7d\n", "\n",
              "data: \x7b\"choices\":[\x7b\"delta\":\x7b\"content\":\"lo\"\x7d\x7d]\x7d\n", "\n",
              "data: [DONE]\n", "\n"],
    last := "", err := ReadErr.EOF }

/-- A schedule in which the reader runs to its end before the consumer starts. -/
def helloSched : List Choice :=
  [Choice.reader, Choice.reader, Choice.reader, Choice.reader,
   Choice.caseTokens, Choice.caseTokens, Choice.caseErrors, Choice.caseTokens]

/-- The state the hello session ends in under `helloSched`. -/
def helloFinal : Sys :=
  { pending := [], tokBuf := [], tokClosed := true, errBuf := [], errClosed := true,
    ctxDone := false, tokensNil := true, errorsNil := true,
    fullContent := "Hello", fullReasoningContent := "", chunkCount := 2,
    written := [SSEvent.opened 42, SSEvent.token "message" "Hel" false 42,
                SSEvent.token "message" "lo" false 42, SSEvent.finish 42 "Hello" 2],
    creates := [{ userID := 7,
                  msgReq := { ConversationID := 42, Content := "Hello", ReasoningContent := "",
                              Type_ := "assistant", Model := some "deepseek-chat" } }],
    exit := some Exit.finish }

/-- A body whose first frame carries reasoning only and whose second frame
carries content. -/
def thinkingBody : Body :=
  { lines := ["data: \x7b\"choices\":[\x7b\"delta\":\x7b\"reasoning_content\":\"hm\"\x7d\x7d]\x7d\n",
              "data: \x7b\"choices\":[\x7b\"delta\":\x7b\"content\":\"Hel\"\x7d\x7d]\x7d\n"],
    last := "", err := ReadErr.EOF }

/-- The client goes away after the reasoning token has been delivered. -/
def thinkingSched : List Choice :=
  [Choice.reader, Choice.caseTokens, Choice.cancel, Choice.caseDone]

/-- The state reached by `thinkingSched`. -/
def thinkingFinal : Sys :=
  { pending := [ChanOp.sendResponse ⟨"Hel", "content"⟩, ChanOp.closeErrors,
                ChanOp.closeResponses],
    tokBuf := [], tokClosed := false, errBuf := [], errClosed := false,
    ctxDone := true, tokensNil := false, errorsNil := false,
    fullContent := "", fullReasoningContent := "hm", chunkCount := 1,
    written := [SSEvent.opened 42, SSEvent.token "reasoning" "hm" false 42],
    creates := [], exit := some Exit.disconnect }

/-- A body with one content frame after which the read fails. -/
def brokenBody : Body :=
  { lines := ["data: \x7b\"choices\":[\x7b\"delta\":\x7b\"content\":\"Hel\"\x7d\x7d]\x7d\n"],
    last := "", err := ReadErr.other "unexpected EOF" }

/-- The state reached when the transport fails and the consumer handles the error. -/
def refusedFinal : Sys :=
  { pending := [], tokBuf := [], tokClosed := true, errBuf := [], errClosed := true,
    ctxDone := false, tokensNil := true, errorsNil := false,
    fullContent := "", fullReasoningContent := "", chunkCount := 0,
    written := [SSEvent.opened 42,
                SSEvent.error "AI服务调用失败" "发送流式请求失败: connection refused"],
    creates := [], exit := some Exit.error }

/-- A body with frames "Hel" and "lo" that ends without a sentinel frame. -/
def plainBody : Body :=
  { lines := ["data: \x7b\"choices\":[\x7b\"delta\":\x7b\"content\":\"Hel\"\x7d\x7d]\x7d\n", "\n",
              "data: \x7b\"choices\":[\x7b\"delta\":\x7b\"content\":\"lo\"\x7d\x7d]\x7d\n", "\n"],
    last := "", err := ReadErr.EOF }

/-- The state of the thinking session once the reader has sent its first token. -/
def thinkingBuffered : Sys :=
  { pending := [ChanOp.sendResponse ⟨"Hel", "content"⟩, ChanOp.closeErrors,
                ChanOp.closeResponses],
    tokBuf := [⟨"hm", "reasoning"⟩], tokClosed := false, errBuf := [], errClosed := false,
    ctxDone := false, tokensNil := false, errorsNil := false,
    fullContent := "", fullReasoningContent := "", chunkCount := 0,
    written := [SSEvent.opened 42], creates := [], exit := none }

/-- The request of the examples: one user message, nothing else set. -/
def sampleRequest : ChatRequest :=
  { Messages := [⟨"user", "hi"⟩], Model := none, Temperature := none, Stream := true,
    Thinking := none }

/-- A message store whose `Create` always fails. -/
def failingCreate : Nat → CreateMessageRequest → Option String :=
  fun _ _ => some "db down"

/-- A message store whose `Create` always succeeds. -/
def workingCreate : Nat → CreateMessageRequest → Option String :=
  fun _ _ => none

/-- The call of `Create` made at the end of the hello session. -/
def helloCall : CreateCall :=
  { userID := 7,
    msgReq := { ConversationID := 42, Content := "Hello", ReasoningContent := "",
                Type_ := "assistant", Model := some "deepseek-chat" } }

/-- A database with one conversation, owned by user 7, holding one exchange. -/
def sampleDB : DB :=
  { conversations := [⟨42, 7⟩],
    messages :=
      [{ ID := 1, ConversationID := 42, Content := "hi", ReasoningContent := "", Sort_ := 1,
         Type_ := "user", Model := none, ParentID := none },
       { ID := 2, ConversationID := 42, Content := "Hello", ReasoningContent := "",
         Sort_ := 2, Type_ := "assistant", Model := some "deepseek-chat", ParentID := none }],
    seq := 3 }

/-- A database whose only conversation, owned by user 7, holds one message with
the largest value of `sort` an `int` of 64 bits has. -/
def fullSortDB : DB :=
  { conversations := [⟨42, 7⟩],
    messages :=
      [{ ID := 1, ConversationID := 42, Content := "hi", ReasoningContent := "",
         Sort_ := 9223372036854775807, Type_ := "user", Model := none, ParentID := none }],
    seq := 2 }

/-- A body of 101 content frames. -/
def floodBody : Body :=
  { lines := List.replicate 101
      "data: \x7b\"choices\":[\x7b\"delta\":\x7b\"content\":\"Hel\"\x7d\x7d]\x7d\n",
    last := "", err := ReadErr.EOF }

/-- The client goes away at once, the consumer returns, and the reader sends
until the queue is full. -/
def floodSched : List Choice :=
  Choice.cancel :: Choice.caseDone :: List.replicate 100 Choice.reader

/-- The state reached by `floodSched`. -/
def floodFinal : Sys :=
  { pending := [ChanOp.sendResponse ⟨"Hel", "content"⟩, ChanOp.closeErrors,
                ChanOp.closeResponses],
    tokBuf := List.replicate 100 ⟨"Hel", "content"⟩, tokClosed := false, errBuf := [],
    errClosed := false, ctxDone := true, tokensNil := false, errorsNil := false,
    fullContent := "", fullReasoningContent := "", chunkCount := 0,
    written := [SSEvent.opened 42], creates := [], exit := some Exit.disconnect }

/-- A signing function for the examples: it renders the expiry of the claims. -/
def sampleSign (claims : Claims) : Except String String :=
  Except.ok ("signed:" ++ Itoa claims.exp)

/-! ## Lemmas on the reader loop and on the relay invariant -/

theorem readLoop_cons_skip (U : String → Option (List Delta)) (err : ReadErr) (raw : String)
    (rest : List String) (h : isFrame raw = false) :
    readLoop U err (raw :: rest) = readLoop U err rest := by
  unfold isFrame at h
  simp [readLoop, h]

theorem trimmed_frame_ne_empty (raw : String) (h : isFrame raw = true) : TrimSpace raw ≠ "" := by
  intro h0
  unfold isFrame at h
  rw [h0] at h
  exact absurd h (by decide)

theorem readLoop_cons_done (U : String → Option (List Delta)) (err : ReadErr) (raw : String)
    (rest : List String) (h : isFrame raw = true) (hd : payload raw = "[DONE]") :
    readLoop U err (raw :: rest) = [] := by
  have hne := trimmed_frame_ne_empty raw h
  unfold isFrame at h
  unfold payload at hd
  simp [readLoop, h, hne, hd]

theorem readLoop_cons_malformed (U : String → Option (List Delta)) (err : ReadErr) (raw : String)
    (rest : List String) (h : isFrame raw = true) (hd : payload raw ≠ "[DONE]")
    (hU : U (payload raw) = none) :
    readLoop U err (raw :: rest) = readLoop U err rest := by
  have hne := trimmed_frame_ne_empty raw h
  unfold isFrame at h
  unfold payload at hd hU
  simp [readLoop, h, hne, hd, hU]

theorem readLoop_cons_chunk (U : String → Option (List Delta)) (err : ReadErr) (raw : String)
    (rest : List String) (Choices : List Delta) (h : isFrame raw = true)
    (hd : payload raw ≠ "[DONE]") (hU : U (payload raw) = some Choices) :
    readLoop U err (raw :: rest) = chunkSends Choices ++ readLoop U err rest := by
  have hne := trimmed_frame_ne_empty raw h
  unfold isFrame at h
  unfold payload at hd hU
  simp [readLoop, h, hne, hd, hU]

/-- Either the loop stops inside `pre` at a sentinel, whatever follows, or it
runs through `pre` and continues with what follows. -/
theorem readLoop_append (U : String → Option (List Delta)) (err : ReadErr) (pre : List String) :
    (∀ post, readLoop U err (pre ++ post) = readLoop U ReadErr.EOF pre) ∨
    (∀ post, readLoop U err (pre ++ post) = readLoop U ReadErr.EOF pre ++ readLoop U err post) := by
  induction pre with
  | nil => right; intro post; simp [readLoop]
  | cons raw pre ih =>
    by_cases hf : isFrame raw = true
    · by_cases hd : payload raw = "[DONE]"
      · left; intro post
        simp [readLoop_cons_done U _ raw _ hf hd]
      · cases hU : U (payload raw) with
        | none =>
          rcases ih with ih | ih
          · left; intro post
            simp [readLoop_cons_malformed U _ raw _ hf hd hU, ih]
          · right; intro post
            simp [readLoop_cons_malformed U _ raw _ hf hd hU, ih]
        | some Choices =>
          rcases ih with ih | ih
          · left; intro post
            simp [readLoop_cons_chunk U _ raw _ Choices hf hd hU, ih]
          · right; intro post
            simp [readLoop_cons_chunk U _ raw _ Choices hf hd hU, ih]
    · have hf2 : isFrame raw = false := by simpa using hf
      rcases ih with ih | ih
      · left; intro post
        simp [readLoop_cons_skip U _ raw _ hf2, ih]
      · right; intro post
        simp [readLoop_cons_skip U _ raw _ hf2, ih]

theorem saveMessage_eq (ss : Session) (s : Sys) :
    saveMessage ss s = { s with creates := s.creates ++ savedCalls ss s } := by
  unfold saveMessage savedCalls
  split <;> simp

theorem concatContents_append (xs : List StreamResponse) (r : StreamResponse) :
    concatContents (xs ++ [r]) = concatContents xs ++ r.Content := by
  simp [concatContents, List.foldl_append]

theorem sentTokens_canon (ps : List StreamResponse) (es : List String) :
    sentTokens (canon ps es) = ps := by
  induction ps with
  | nil =>
    induction es with
    | nil => simp [canon, sentTokens]
    | cons e es ih => simpa [canon, sentTokens] using ih
  | cons p ps ih => simpa [canon, sentTokens] using ih

theorem sentErrors_canon (ps : List StreamResponse) (es : List String) :
    sentErrors (canon ps es) = es := by
  induction ps with
  | nil =>
    induction es with
    | nil => simp [canon, sentErrors]
    | cons e es ih => simpa [canon, sentErrors] using ih
  | cons p ps ih => simpa [canon, sentErrors] using ih

theorem inv_init (ss : Session) (ps : List StreamResponse) (es : List String)
    (hes : es.length ≤ 1) : Inv ss ps es (init ss (canon ps es)) [] := by
  refine ⟨?_, ?_, ?_, ?_, ?_, ?_, ?_, ?_, ?_, ?_, ?_, hes, by simp [init]⟩
  · simp [init, concatContents, contentTokens]
  · simp [init, concatContents, reasoningTokens]
  · simp [init]
  · simp [init, terminalEvents]
  · simp [init]
  · simp [init, sentTokens_canon]
  · right; simp [init, sentErrors_canon]
  · left; exact ⟨ps, es, rfl, rfl, rfl⟩
  · simp [init]
  · simp [init]
  · simp [init]

theorem inv_readerStep {ss : Session} {toks : List StreamResponse} {errs : List String}
    {s s1 : Sys} {recv : List StreamResponse} (h : Inv ss toks errs s recv)
    (hs : readerStep s = some s1) : Inv ss toks errs s1 recv := by
  obtain ⟨h1, h2, h3, h4, h5, h6, h7, h8, h9, h10, h11, h12, h13⟩ := h
  rcases h8 with ⟨ps, es, hp, hec, htc⟩ | ⟨hp, hec, htc⟩ | ⟨hp, hec, htc⟩
  · cases ps with
    | cons r ps =>
      have hp2 : s.pending = ChanOp.sendResponse r :: canon ps es := by simpa [canon] using hp
      simp [readerStep, hp2, htc] at hs
      obtain ⟨_, rfl⟩ := hs
      refine ⟨h1, h2, h3, ?_, h5, ?_, ?_, ?_, ?_, ?_, h11, h12, h13⟩
      · simpa [terminalEvents] using h4
      · simpa [hp2, sentTokens] using h6
      · simpa [hp2, sentErrors] using h7
      · left; exact ⟨ps, es, rfl, hec, rfl⟩
      · intro ht; have := h9 ht; simp [htc] at this
      · simpa using h10
    | nil =>
      cases es with
      | cons e es =>
        have hp2 : s.pending = ChanOp.sendError e :: canon [] es := by simpa [canon] using hp
        simp [readerStep, hp2, hec] at hs
        obtain ⟨_, rfl⟩ := hs
        refine ⟨h1, h2, h3, ?_, h5, ?_, ?_, ?_, ?_, ?_, h11, h12, h13⟩
        · simpa [terminalEvents] using h4
        · simpa [hp2, sentTokens] using h6
        · rcases h7 with ⟨_, _, h7, _⟩ | ⟨h7a, h7b⟩
          · simp [hp2, sentErrors] at h7
          · right
            refine ⟨h7a, ?_⟩
            have h7c : e :: (es ++ s.errBuf) = errs := by
              simpa [hp2, sentErrors, sentErrors_canon] using h7b
            have hl : es.length + s.errBuf.length + 1 ≤ 1 := by
              have hlen := congrArg List.length h7c
              simp at hlen
              omega
            have hes : es = [] := List.eq_nil_of_length_eq_zero (by omega)
            have heb : s.errBuf = [] := List.eq_nil_of_length_eq_zero (by omega)
            subst hes
            rw [heb] at h7c
            simpa [sentErrors_canon, heb] using h7c
        · left; exact ⟨[], es, rfl, rfl, htc⟩
        · simpa using h9
        · intro ht; have := h10 ht; simp [hec] at this
      | nil =>
        have hp2 : s.pending = [ChanOp.closeErrors, ChanOp.closeResponses] := by
          simpa [canon] using hp
        simp [readerStep, hp2, hec] at hs
        subst hs
        refine ⟨h1, h2, h3, ?_, h5, ?_, ?_, ?_, ?_, ?_, h11, h12, h13⟩
        · simpa [terminalEvents] using h4
        · simpa [hp2, sentTokens] using h6
        · simpa [hp2, sentErrors] using h7
        · right; left; exact ⟨rfl, rfl, htc⟩
        · simpa using h9
        · intro ht; have := h10 ht; simp [hec] at this
  · simp [readerStep, hp, htc] at hs
    subst hs
    refine ⟨h1, h2, h3, ?_, h5, ?_, ?_, ?_, ?_, ?_, h11, h12, h13⟩
    · simpa [terminalEvents] using h4
    · simpa [hp, sentTokens] using h6
    · simpa [hp, sentErrors] using h7
    · right; right; exact ⟨rfl, hec, rfl⟩
    · intro ht; have := h9 ht; simp [htc] at this
    · simpa using h10
  · simp [readerStep, hp] at hs

theorem savedCalls_congr (ss : Session) (s t : Sys) (h1 : t.fullContent = s.fullContent)
    (h2 : t.fullReasoningContent = s.fullReasoningContent) :
    savedCalls ss t = savedCalls ss s := by
  simp [savedCalls, h1, h2]

theorem contentTokens_snoc (recv : List StreamResponse) (r : StreamResponse) :
    concatContents (contentTokens (recv ++ [r])) =
      if r.Type_ = "content" then concatContents (contentTokens recv) ++ r.Content
      else concatContents (contentTokens recv) := by
  unfold contentTokens
  rw [List.filter_append]
  by_cases h : r.Type_ = "content"
  · simp [h, concatContents_append]
  · simp [h]

theorem reasoningTokens_snoc (recv : List StreamResponse) (r : StreamResponse) :
    concatContents (reasoningTokens (recv ++ [r])) =
      if r.Type_ = "reasoning" then concatContents (reasoningTokens recv) ++ r.Content
      else concatContents (reasoningTokens recv) := by
  unfold reasoningTokens
  rw [List.filter_append]
  by_cases h : r.Type_ = "reasoning"
  · simp [h, concatContents_append]
  · simp [h]

theorem inv_caseDone {ss : Session} {toks : List StreamResponse} {errs : List String}
    {s s1 : Sys} {recv : List StreamResponse} (h : Inv ss toks errs s recv)
    (hs : consumerStep ss s Choice.caseDone = some s1) : Inv ss toks errs s1 recv := by
  obtain ⟨h1, h2, h3, h4, h5, h6, h7, h8, h9, h10, h11, h12, h13⟩ := h
  simp [consumerStep, saveMessage_eq] at hs
  obtain ⟨hex, _, rfl⟩ := hs
  have hex2 : s.exit = none := by simpa using hex
  refine ⟨h1, h2, h3, ?_, ?_, h6, ?_, ?_, h9, h10, ?_, h12, by simp; assumption⟩
  · simpa [terminalEvents, hex2] using h4
  · simp [hex2] at h5
    simp [h5, savedCalls]
  · rcases h7 with ⟨h7, _⟩ | ⟨_, h7⟩
    · simp [hex2] at h7
    · right; exact ⟨by simp, h7⟩
  · rcases h8 with ⟨ps, es, hp, hec, htc⟩ | ⟨hp, hec, htc⟩ | ⟨hp, hec, htc⟩
    · left; exact ⟨ps, es, hp, hec, htc⟩
    · right; left; exact ⟨hp, hec, htc⟩
    · right; right; exact ⟨hp, hec, htc⟩
  · simp [hex2] at h11
    simp
    exact h11

theorem shape_congr {s t : Sys} (hp : t.pending = s.pending) (he : t.errClosed = s.errClosed)
    (ht : t.tokClosed = s.tokClosed) (h : Shape s) : Shape t := by
  unfold Shape at *
  rw [hp, he, ht]
  exact h

theorem inv_caseTokens {ss : Session} {toks : List StreamResponse} {errs : List String}
    {s s1 : Sys} {recv : List StreamResponse} (h : Inv ss toks errs s recv)
    (hs : consumerStep ss s Choice.caseTokens = some s1) :
    ∃ recv1, Inv ss toks errs s1 recv1 := by
  obtain ⟨h1, h2, h3, h4, h5, h6, h7, h8, h9, h10, h11, h12, h13⟩ := h
  simp only [consumerStep] at hs
  split at hs
  · simp at hs
  · rename_i hcond
    simp at hcond
    obtain ⟨hex, hnil⟩ := hcond
    have hex2 : s.exit = none := by
      cases hx : s.exit with
      | none => rfl
      | some x => simp [hx] at hex
    split at hs
    · rename_i response rest hbuf
      simp [onToken] at hs
      subst hs
      refine ⟨recv ++ [response], ?_, ?_, ?_, ?_, ?_, ?_, ?_, ?_, ?_, ?_, ?_, h12, by simp [hex2]⟩
      · simp only []
        rw [contentTokens_snoc, h1]
      · simp only []
        rw [reasoningTokens_snoc, h2]
      · simp [h3]
      · simp [h4, terminalEvents, hex2, tokenEvent]
      · simpa [hex2] using h5
      · simpa [hbuf] using h6
      · simpa [hbuf] using h7
      · exact shape_congr rfl rfl rfl h8
      · simp [hnil]
      · simpa using h10
      · simp [hex2, hnil]
    · rename_i hbuf
      split at hs
      · rename_i hclosed
        split at hs
        · rename_i hen
          simp [sendFinish, saveMessage_eq] at hs
          subst hs
          replace hen : s.errorsNil = true := by simpa using hen
          refine ⟨recv, h1, h2, h3, ?_, ?_, h6, ?_, ?_, ?_, ?_, ?_, h12, by simp [hex2]⟩
          · simp [h4, terminalEvents, hex2]
          · simp [hex2] at h5
            simp [h5, savedCalls]
          · rcases h7 with ⟨h7, _⟩ | ⟨_, h7⟩
            · simp [hex2] at h7
            · right; exact ⟨by simp, h7⟩
          · exact shape_congr rfl rfl rfl h8
          · intro _; exact ⟨hclosed, hbuf⟩
          · simpa using h10
          · simp [hen]
        · rename_i hen
          simp at hs
          subst hs
          replace hen : s.errorsNil = false := by simpa using hen
          refine ⟨recv, h1, h2, h3, ?_, h5, h6, h7, ?_, ?_, ?_, ?_, h12, by simp [hex2]⟩
          · simpa [terminalEvents] using h4
          · exact shape_congr rfl rfl rfl h8
          · intro _; exact ⟨hclosed, hbuf⟩
          · simpa using h10
          · simp [hex2, hen]
      · simp at hs

theorem inv_caseErrors {ss : Session} {toks : List StreamResponse} {errs : List String}
    {s s1 : Sys} {recv : List StreamResponse} (h : Inv ss toks errs s recv)
    (hs : consumerStep ss s Choice.caseErrors = some s1) : Inv ss toks errs s1 recv := by
  obtain ⟨h1, h2, h3, h4, h5, h6, h7, h8, h9, h10, h11, h12, h13⟩ := h
  simp only [consumerStep] at hs
  split at hs
  · simp at hs
  · rename_i hcond
    simp at hcond
    obtain ⟨hex, hnil⟩ := hcond
    have hex2 : s.exit = none := by
      cases hx : s.exit with
      | none => rfl
      | some x => simp [hx] at hex
    split at hs
    · rename_i err rest hbuf
      simp [onError, saveMessage_eq] at hs
      subst hs
      have h7b : sentErrors s.pending ++ s.errBuf = errs := by
        rcases h7 with ⟨h7, _⟩ | ⟨_, h7⟩
        · simp [hex2] at h7
        · exact h7
      have hl : (sentErrors s.pending).length + (rest.length + 1) ≤ 1 := by
        have hlen := congrArg List.length h7b
        simp [hbuf] at hlen
        omega
      have hpe : sentErrors s.pending = [] := List.eq_nil_of_length_eq_zero (by omega)
      have hrest : rest = [] := List.eq_nil_of_length_eq_zero (by omega)
      have herrs : errs = [err] := by
        rw [← h7b, hpe, hbuf, hrest]; rfl
      refine ⟨h1, h2, h3, ?_, ?_, h6, ?_, ?_, h9, ?_, ?_, h12, by simp [hex2]⟩
      · simp [h4, terminalEvents, hex2, herrs]
      · simp [hex2] at h5
        simp [h5, savedCalls]
      · left
        exact ⟨rfl, by simp [herrs], hpe, hrest⟩
      · exact shape_congr rfl rfl rfl h8
      · simp [hnil]
      · simp [hnil]
    · rename_i hbuf
      split at hs
      · rename_i hclosed
        split at hs
        · rename_i hen
          simp [sendFinish, saveMessage_eq] at hs
          subst hs
          replace hen : s.tokensNil = true := by simpa using hen
          refine ⟨h1, h2, h3, ?_, ?_, h6, ?_, ?_, ?_, ?_, ?_, h12, by simp [hex2]⟩
          · simp [h4, terminalEvents, hex2]
          · simp [hex2] at h5
            simp [h5, savedCalls]
          · rcases h7 with ⟨h7, _⟩ | ⟨_, h7⟩
            · simp [hex2] at h7
            · right; exact ⟨by simp, h7⟩
          · exact shape_congr rfl rfl rfl h8
          · simpa using h9
          · intro _; exact ⟨hclosed, hbuf⟩
          · simp [hen]
        · rename_i hen
          simp at hs
          subst hs
          replace hen : s.tokensNil = false := by simpa using hen
          refine ⟨h1, h2, h3, ?_, h5, h6, h7, ?_, ?_, ?_, ?_, h12, by simp [hex2]⟩
          · simpa [terminalEvents] using h4
          · exact shape_congr rfl rfl rfl h8
          · simpa using h9
          · intro _; exact ⟨hclosed, hbuf⟩
          · simp [hex2, hen]
      · simp at hs

theorem inv_step {ss : Session} {toks : List StreamResponse} {errs : List String}
    {s s1 : Sys} {recv : List StreamResponse} {c : Choice} (h : Inv ss toks errs s recv)
    (hs : step ss s c = some s1) : ∃ recv1, Inv ss toks errs s1 recv1 := by
  cases c with
  | reader => exact ⟨recv, inv_readerStep h hs⟩
  | cancel =>
    obtain ⟨h1, h2, h3, h4, h5, h6, h7, h8, h9, h10, h11, h12, h13⟩ := h
    simp [step] at hs
    obtain ⟨_, rfl⟩ := hs
    exact ⟨recv, h1, h2, h3, by simpa [terminalEvents] using h4, h5, h6, h7,
      shape_congr rfl rfl rfl h8, h9, h10, h11, h12, by simp⟩
  | caseDone => exact ⟨recv, inv_caseDone h hs⟩
  | caseTokens => exact inv_caseTokens h hs
  | caseErrors => exact ⟨recv, inv_caseErrors h hs⟩

theorem inv_run {ss : Session} {toks : List StreamResponse} {errs : List String}
    (sched : List Choice) : ∀ {s s1 : Sys} {recv : List StreamResponse},
    Inv ss toks errs s recv → run ss s sched = some s1 → ∃ recv1, Inv ss toks errs s1 recv1 := by
  induction sched with
  | nil =>
    intro s s1 recv h hr
    simp [run] at hr
    subst hr
    exact ⟨recv, h⟩
  | cons c cs ih =>
    intro s s1 recv h hr
    simp only [run] at hr
    cases hst : step ss s c with
    | none => simp [hst] at hr
    | some s2 =>
      simp only [hst] at hr
      obtain ⟨recv2, h2⟩ := inv_step h hst
      exact ih h2 hr

theorem wellFormed_nil : WellFormed [] := by
  simp [WellFormed, sentTokens, sentErrors]

theorem wellFormed_error (e : String) : WellFormed [ChanOp.sendError e] := by
  simp [WellFormed, sentTokens, sentErrors]

theorem wellFormed_cons (r : StreamResponse) (ops : List ChanOp) (h : WellFormed ops) :
    WellFormed (ChanOp.sendResponse r :: ops) := by
  obtain ⟨h1, h2⟩ := h
  refine ⟨?_, ?_⟩
  · simp only [sentTokens, sentErrors, List.map_cons, List.cons_append]
    rw [← h1]
  · simpa [sentErrors] using h2

theorem wellFormed_chunkSends (Choices : List Delta) (ops : List ChanOp) (h : WellFormed ops) :
    WellFormed (chunkSends Choices ++ ops) := by
  cases Choices with
  | nil => simpa [chunkSends] using h
  | cons delta rest =>
    simp only [chunkSends]
    split <;> split <;> simp <;> first
      | exact h
      | exact wellFormed_cons _ _ h
      | exact wellFormed_cons _ _ (wellFormed_cons _ _ h)

theorem wellFormed_readLoop (U : String → Option (List Delta)) (err : ReadErr)
    (lines : List String) : WellFormed (readLoop U err lines) := by
  induction lines with
  | nil =>
    cases err with
    | EOF => simpa [readLoop] using wellFormed_nil
    | other msg => simpa [readLoop] using wellFormed_error _
  | cons raw rest ih =>
    simp only [readLoop]
    split
    · exact ih
    · split
      · exact ih
      · split
        · exact wellFormed_nil
        · split
          · exact ih
          · exact wellFormed_chunkSends _ _ ih

theorem wellFormed_readerBody (U : String → Option (List Delta)) (u : Upstream) :
    WellFormed (readerBody U u) := by
  cases u with
  | marshalFails msg => exact wellFormed_error _
  | newRequestFails msg => exact wellFormed_error _
  | doFails msg => exact wellFormed_error _
  | response code body =>
    simp only [readerBody]
    split
    · exact wellFormed_error _
    · exact wellFormed_readLoop U _ _

theorem readerScript_canon (U : String → Option (List Delta)) (u : Upstream) :
    readerScript U u = canon (readerTokens U u) (readerErrors U u) := by
  have h := (wellFormed_readerBody U u).1
  unfold readerScript canon readerTokens readerErrors
  conv_lhs => rw [h]
  simp

theorem session_inv {U : String → Option (List Delta)} {ss : Session} {u : Upstream}
    {sched : List Choice} {s : Sys} (h : session U ss u sched = some s) :
    ∃ recv, Inv ss (readerTokens U u) (readerErrors U u) s recv := by
  unfold session at h
  rw [readerScript_canon] at h
  exact inv_run sched (inv_init ss _ _ (wellFormed_readerBody U u).2) h

theorem fuel_readerStep {s s1 : Sys} (hs : readerStep s = some s1) : fuel s1 < fuel s := by
  unfold readerStep at hs
  split at hs
  · simp at hs
  · rename_i r rest hp
    split at hs
    · simp at hs
    · split at hs
      · simp at hs; subst hs; simp [fuel, hp]; omega
      · simp at hs
  · rename_i e rest hp
    split at hs
    · simp at hs
    · split at hs
      · simp at hs; subst hs; simp [fuel, hp]; omega
      · simp at hs
  · rename_i rest hp
    split at hs
    · simp at hs
    · simp at hs; subst hs; simp [fuel, hp]
  · rename_i rest hp
    split at hs
    · simp at hs
    · simp at hs; subst hs; simp [fuel, hp]

theorem fuel_consumerStep {ss : Session} {s s1 : Sys} {c : Choice}
    (hs : consumerStep ss s c = some s1) : fuel s1 < fuel s := by
  cases c with
  | reader => simp [consumerStep] at hs
  | cancel => simp [consumerStep] at hs
  | caseDone =>
    simp [consumerStep, saveMessage_eq] at hs
    obtain ⟨hex, _, rfl⟩ := hs
    simp [fuel, hex]
  | caseTokens =>
    simp only [consumerStep] at hs
    split at hs
    · simp at hs
    · rename_i hcond
      simp at hcond
      obtain ⟨hex, hnil⟩ := hcond
      split at hs
      · rename_i response rest hbuf
        simp [onToken] at hs
        subst hs
        simp [fuel, hbuf]
      · split at hs
        · split at hs
          · simp [sendFinish, saveMessage_eq] at hs
            subst hs
            simp [fuel, hex, hnil]
            omega
          · simp at hs
            subst hs
            simp [fuel, hnil]
        · simp at hs
  | caseErrors =>
    simp only [consumerStep] at hs
    split at hs
    · simp at hs
    · rename_i hcond
      simp at hcond
      obtain ⟨hex, hnil⟩ := hcond
      split at hs
      · rename_i err rest hbuf
        simp [onError, saveMessage_eq] at hs
        subst hs
        simp [fuel, hbuf, hex]
        omega
      · split at hs
        · split at hs
          · simp [sendFinish, saveMessage_eq] at hs
            subst hs
            simp [fuel, hex, hnil]
            omega
          · simp at hs
            subst hs
            simp [fuel, hnil]
        · simp at hs

theorem fuel_step {ss : Session} {s s1 : Sys} {c : Choice}
    (hs : step ss s c = some s1) : fuel s1 < fuel s := by
  cases c with
  | reader => exact fuel_readerStep hs
  | cancel =>
    simp [step] at hs
    obtain ⟨hc, rfl⟩ := hs
    simp [fuel, hc]
  | caseDone => exact @fuel_consumerStep ss s s1 Choice.caseDone hs
  | caseTokens => exact @fuel_consumerStep ss s s1 Choice.caseTokens hs
  | caseErrors => exact @fuel_consumerStep ss s s1 Choice.caseErrors hs

theorem fuel_run {ss : Session} (sched : List Choice) : ∀ {s s1 : Sys},
    run ss s sched = some s1 → sched.length + fuel s1 ≤ fuel s := by
  induction sched with
  | nil =>
    intro s s1 hr
    simp [run] at hr
    subst hr
    simp
  | cons c cs ih =>
    intro s s1 hr
    simp only [run] at hr
    cases hst : step ss s c with
    | none => simp [hst] at hr
    | some s2 =>
      simp only [hst] at hr
      have h1 := fuel_step hst
      have h2 := ih hr
      simp only [List.length_cons]
      omega

theorem session_length_le {U : String → Option (List Delta)} {ss : Session} {u : Upstream}
    {sched : List Choice} {s : Sys} (h : session U ss u sched = some s) :
    sched.length ≤ 2 * (readerScript U u).length + 4 := by
  have := fuel_run sched h
  simp [fuel, init] at this
  omega

theorem inv_progress {ss : Session} {toks : List StreamResponse} {errs : List String}
    {s : Sys} {recv : List StreamResponse} (h : Inv ss toks errs s recv) (hex : s.exit = none) :
    ∃ c, c ≠ Choice.cancel ∧ c ≠ Choice.caseDone ∧ (step ss s c).isSome = true := by
  obtain ⟨h1, h2, h3, h4, h5, h6, h7, h8, h9, h10, h11, h12, h13⟩ := h
  have hnt : s.tokClosed = false → s.tokensNil = false := by
    intro hc
    cases hn : s.tokensNil with
    | false => rfl
    | true => have := (h9 hn).1; simp [hc] at this
  rcases h8 with ⟨ps, es, hp, hec, htc⟩ | ⟨hp, hec, htc⟩ | ⟨hp, hec, htc⟩
  · cases ps with
    | cons r ps =>
      have hp2 : s.pending = ChanOp.sendResponse r :: canon ps es := by simpa [canon] using hp
      by_cases hlen : s.tokBuf.length < responsesCap
      · exact ⟨Choice.reader, by simp, by simp, by simp [step, readerStep, hp2, htc, hlen]⟩
      · refine ⟨Choice.caseTokens, by simp, by simp, ?_⟩
        cases hb : s.tokBuf with
        | nil => simp [hb, responsesCap] at hlen
        | cons t rest => simp [step, consumerStep, hex, hnt htc, hb]
    | nil =>
      cases es with
      | cons e es =>
        have hp2 : s.pending = ChanOp.sendError e :: canon [] es := by simpa [canon] using hp
        have heb : s.errBuf = [] := by
          rcases h7 with ⟨h7, _⟩ | ⟨_, h7b⟩
          · simp [hex] at h7
          · have hlen := congrArg List.length h7b
            simp [hp2, sentErrors, sentErrors_canon] at hlen
            exact List.eq_nil_of_length_eq_zero (by omega)
        exact ⟨Choice.reader, by simp, by simp,
          by simp [step, readerStep, hp2, hec, heb, errorsCap]⟩
      | nil =>
        have hp2 : s.pending = [ChanOp.closeErrors, ChanOp.closeResponses] := by
          simpa [canon] using hp
        exact ⟨Choice.reader, by simp, by simp, by simp [step, readerStep, hp2, hec]⟩
  · exact ⟨Choice.reader, by simp, by simp, by simp [step, readerStep, hp, htc]⟩
  · cases hn : s.tokensNil with
    | false =>
      refine ⟨Choice.caseTokens, by simp, by simp, ?_⟩
      cases hb : s.tokBuf with
      | nil => cases he : s.errorsNil <;> simp [step, consumerStep, hex, hn, hb, htc, he]
      | cons t rest => simp [step, consumerStep, hex, hn, hb]
    | true =>
      have hen : s.errorsNil = false := by
        cases he : s.errorsNil with
        | false => rfl
        | true => have := h11.2 ⟨hn, he⟩; simp [hex] at this
      refine ⟨Choice.caseErrors, by simp, by simp, ?_⟩
      cases hb : s.errBuf with
      | nil => simp [step, consumerStep, hex, hen, hb, hec, hn]
      | cons t rest => simp [step, consumerStep, hex, hen, hb]

theorem step_after_exit {ss : Session} {s s1 : Sys} {c : Choice} (hex : s.exit.isSome = true)
    (hs : step ss s c = some s1) :
    s1.written = s.written ∧ s1.creates = s.creates ∧ s1.exit = s.exit ∧
      s1.fullContent = s.fullContent ∧ s1.chunkCount = s.chunkCount := by
  cases c with
  | reader =>
    simp only [step, readerStep] at hs
    split at hs
    · simp at hs
    all_goals
      split at hs
      · simp at hs
      · first
          | (simp at hs; subst hs; simp)
          | (split at hs
             · simp at hs; subst hs; simp
             · simp at hs)
  | cancel =>
    simp [step] at hs
    obtain ⟨_, rfl⟩ := hs
    simp
  | caseDone => simp [step, consumerStep, hex] at hs
  | caseTokens => simp [step, consumerStep, hex] at hs
  | caseErrors => simp [step, consumerStep, hex] at hs

/-! ## The relay: theorems -/

theorem sentErrors_append (xs ys : List ChanOp) :
    sentErrors (xs ++ ys) = sentErrors xs ++ sentErrors ys := by
  induction xs with
  | nil => simp [sentErrors]
  | cons x xs ih => cases x <;> simp [sentErrors, ih]

theorem sentTokens_append (xs ys : List ChanOp) :
    sentTokens (xs ++ ys) = sentTokens xs ++ sentTokens ys := by
  induction xs with
  | nil => simp [sentTokens]
  | cons x xs ih => cases x <;> simp [sentTokens, ih]

theorem sentErrors_chunkSends (Choices : List Delta) : sentErrors (chunkSends Choices) = [] := by
  cases Choices with
  | nil => simp [chunkSends, sentErrors]
  | cons d rest =>
    simp only [chunkSends]
    split <;> split <;> simp [sentErrors]

theorem sentErrors_readLoop_EOF (U : String → Option (List Delta)) (lines : List String) :
    sentErrors (readLoop U ReadErr.EOF lines) = [] := by
  induction lines with
  | nil => simp [readLoop, sentErrors]
  | cons raw rest ih =>
    simp only [readLoop]
    split
    · exact ih
    · split
      · exact ih
      · split
        · simp [sentErrors]
        · split
          · exact ih
          · simp [sentErrors_append, sentErrors_chunkSends, ih]

theorem readLoop_done_inside (U : String → Option (List Delta)) (err : ReadErr)
    (pre post : List String) (l : String) (hl : isDoneFrame l = true) :
    readLoop U err (pre ++ l :: post) = readLoop U ReadErr.EOF pre := by
  simp [isDoneFrame] at hl
  rcases readLoop_append U err pre with h | h
  · exact h _
  · rw [h, readLoop_cons_done U err l post hl.1 hl.2]
    simp

theorem readerErrors_normal (U : String → Option (List Delta)) (lines : List String)
    (last : String) (err : ReadErr)
    (hnormal : err = ReadErr.EOF ∨ ∃ l ∈ lines, isDoneFrame l = true) :
    readerErrors U (Upstream.response 200 ⟨lines, last, err⟩) = [] := by
  simp only [readerErrors, readerBody]
  simp only [ne_eq, not_true_eq_false, if_false]
  rcases hnormal with h | ⟨l, hmem, hl⟩
  · subst h
    exact sentErrors_readLoop_EOF U lines
  · obtain ⟨pre, post, rfl⟩ := List.append_of_mem hmem
    rw [readLoop_done_inside U err pre post l hl]
    exact sentErrors_readLoop_EOF U pre

/-- What has been written and saved when the consumer left through the finish
path. -/
theorem inv_finish {ss : Session} {toks : List StreamResponse} {errs : List String}
    {s : Sys} {recv : List StreamResponse} (h : Inv ss toks errs s recv)
    (hex : s.exit = some Exit.finish) :
    recv = toks ∧
    s.written = SSEvent.opened ss.conversationID :: (toks.map (tokenEvent ss) ++
      [SSEvent.finish ss.conversationID (concatContents (contentTokens toks)) toks.length]) := by
  obtain ⟨h1, h2, h3, h4, h5, h6, h7, h8, h9, h10, h11, h12, h13⟩ := h
  obtain ⟨hn1, hn2⟩ := h11.1 hex
  obtain ⟨hc, hb⟩ := h9 hn1
  have hp : s.pending = [] := by
    rcases h8 with ⟨ps, es, hp, hec, htc⟩ | ⟨hp, hec, htc⟩ | ⟨hp, hec, htc⟩
    · simp [hc] at htc
    · simp [hc] at htc
    · exact hp
  have hr : recv = toks := by simp [h6, hb, hp, sentTokens]
  subst hr
  refine ⟨rfl, ?_⟩
  rw [h4]
  simp [terminalEvents, hex, h1, h3]

theorem inv_exit_error {ss : Session} {toks : List StreamResponse} {errs : List String}
    {s : Sys} {recv : List StreamResponse} (h : Inv ss toks errs s recv)
    (hex : s.exit = some Exit.error) : errs ≠ [] := by
  rcases h.errSt with ⟨_, h, _⟩ | ⟨h, _⟩
  · exact h
  · exact absurd hex h

/-- C1: when the upstream stream ends normally (end of body or a [DONE] frame)
and the client stays connected, the session keeps making progress until the
consumer returns, it returns through the finish path, and the finish event,
the last one written, carries the concatenation in order of the contents of all
content tokens the reader emitted and the number of all tokens it emitted. -/
theorem C1_finish_content_and_count (U : String → Option (List Delta)) (ss : Session)
    (lines : List String) (last : String) (err : ReadErr) (sched : List Choice) (s : Sys)
    (hnormal : err = ReadErr.EOF ∨ ∃ l ∈ lines, isDoneFrame l = true)
    (hrun : session U ss (Upstream.response 200 ⟨lines, last, err⟩) sched = some s)
    (hconn : s.ctxDone = false) :
    (s.exit = none → ∃ c, c ≠ Choice.cancel ∧ c ≠ Choice.caseDone ∧ (step ss s c).isSome = true) ∧
    sched.length ≤ 2 * (readerScript U (Upstream.response 200 ⟨lines, last, err⟩)).length + 4 ∧
    (s.exit.isSome = true →
      s.exit = some Exit.finish ∧
      s.written.getLast? = some (SSEvent.finish ss.conversationID
        (concatContents (contentTokens
          (readerTokens U (Upstream.response 200 ⟨lines, last, err⟩))))
        (readerTokens U (Upstream.response 200 ⟨lines, last, err⟩)).length)) := by
  obtain ⟨recv, hinv⟩ := session_inv hrun
  refine ⟨fun hex => inv_progress hinv hex, session_length_le hrun, ?_⟩
  intro hsome
  have hfin : s.exit = some Exit.finish := by
    cases hx : s.exit with
    | none => simp [hx] at hsome
    | some x =>
      cases x with
      | disconnect => have := hinv.doneOnly hx; simp [hconn] at this
      | error =>
        have := inv_exit_error hinv hx
        rw [readerErrors_normal U lines last err hnormal] at this
        exact absurd rfl this
      | finish => rfl
  refine ⟨hfin, ?_⟩
  rw [(inv_finish hinv hfin).2]
  simp [List.getLast?_cons, List.getLast?_append]

theorem sentTokens_chunkSends (Choices : List Delta) :
    sentTokens (chunkSends Choices) =
      match Choices with
      | d :: _ => deltaTokens d
      | [] => [] := by
  cases Choices with
  | nil => simp [chunkSends, sentTokens]
  | cons d rest =>
    simp only [chunkSends, deltaTokens]
    split <;> split <;> simp [sentTokens]

theorem sentTokens_readLoop (U : String → Option (List Delta)) (err : ReadErr)
    (lines : List String) : sentTokens (readLoop U err lines) = expectedTokens U lines := by
  induction lines with
  | nil => cases err <;> simp [readLoop, sentTokens, expectedTokens]
  | cons raw rest ih =>
    by_cases hf : isFrame raw = true
    · by_cases hd : payload raw = "[DONE]"
      · simp [readLoop_cons_done U err raw rest hf hd, expectedTokens, isDoneFrame, hf, hd,
          sentTokens]
      · cases hU : U (payload raw) with
        | none =>
          simp [readLoop_cons_malformed U err raw rest hf hd hU, expectedTokens, isDoneFrame,
            hf, hd, frameTokens, frameDelta, hU, ih]
        | some Choices =>
          rw [readLoop_cons_chunk U err raw rest Choices hf hd hU, sentTokens_append, ih,
            sentTokens_chunkSends]
          cases Choices <;>
            simp [expectedTokens, isDoneFrame, hf, hd, frameTokens, frameDelta, hU]
    · have hf2 : isFrame raw = false := by simpa using hf
      simp [readLoop_cons_skip U err raw rest hf2, expectedTokens, isDoneFrame, hf2,
        frameTokens, frameDelta, ih]

theorem readerTokens_response (U : String → Option (List Delta)) (lines : List String)
    (last : String) (err : ReadErr) :
    readerTokens U (Upstream.response 200 ⟨lines, last, err⟩) = expectedTokens U lines := by
  simp [readerTokens, readerBody, sentTokens_readLoop]

theorem filter_tokenEvents (ss : Session) (recv : List StreamResponse) :
    (recv.map (tokenEvent ss)).filter isTokenEvent = recv.map (tokenEvent ss) := by
  induction recv with
  | nil => simp
  | cons r rs ih => simp [tokenEvent, isTokenEvent, ih]

theorem filter_terminalEvents (ss : Session) (errs : List String) (s : Sys) :
    (terminalEvents ss errs s).filter isTokenEvent = [] := by
  unfold terminalEvents
  split
  · simp [isTokenEvent]
  · induction errs with
    | nil => simp
    | cons e es ih => simp [isTokenEvent, ih]
  · simp

/-- The token events written are those of the tokens received, which are the
first `chunkCount` tokens of the reader. -/
theorem inv_tokenEvents {ss : Session} {toks : List StreamResponse} {errs : List String}
    {s : Sys} {recv : List StreamResponse} (h : Inv ss toks errs s recv) :
    recv = toks.take s.chunkCount ∧
    s.written.filter isTokenEvent = (toks.take s.chunkCount).map (tokenEvent ss) ∧
    toks.drop s.chunkCount = s.tokBuf ++ sentTokens s.pending := by
  have hr : recv = toks.take s.chunkCount := by
    rw [h.conserve, h.count]; simp
  refine ⟨hr, ?_, ?_⟩
  · rw [← hr, h.written]
    simp [List.filter_cons, isTokenEvent, filter_tokenEvents, filter_terminalEvents]
  · rw [h.count]
    conv_lhs => rw [h.conserve]
    simp

theorem helloRun :
    session sampleUnmarshal sampleSession (Upstream.response 200 helloBody) helloSched =
      some helloFinal := by
  decide

theorem C1_witness :
    helloFinal.exit = some Exit.finish ∧
    helloFinal.written.getLast? = some (SSEvent.finish 42
      (concatContents (contentTokens
        (readerTokens sampleUnmarshal (Upstream.response 200 helloBody))))
      (readerTokens sampleUnmarshal (Upstream.response 200 helloBody)).length) :=
  (C1_finish_content_and_count sampleUnmarshal sampleSession helloBody.lines helloBody.last
    helloBody.err helloSched helloFinal (Or.inl rfl) helloRun rfl).2.2 rfl

/-- C2: for every body and every schedule, the reader emits the tokens of the
frames in the order read, reasoning before content within a frame, and the
token events written to the client are, in order, the events of the first
`chunkCount` of these tokens; the remaining ones are exactly those still
buffered or still to be sent, and none remains once the finish path is taken. -/
theorem C2_token_events_in_frame_order (U : String → Option (List Delta)) (ss : Session)
    (lines : List String) (last : String) (err : ReadErr) (sched : List Choice) (s : Sys)
    (hrun : session U ss (Upstream.response 200 ⟨lines, last, err⟩) sched = some s) :
    readerTokens U (Upstream.response 200 ⟨lines, last, err⟩) = expectedTokens U lines ∧
    s.written.filter isTokenEvent =
      ((expectedTokens U lines).take s.chunkCount).map (tokenEvent ss) ∧
    (expectedTokens U lines).drop s.chunkCount = s.tokBuf ++ sentTokens s.pending ∧
    (s.exit = some Exit.finish → s.chunkCount = (expectedTokens U lines).length) := by
  obtain ⟨recv, hinv⟩ := session_inv hrun
  have hrt := readerTokens_response U lines last err
  rw [hrt] at hinv
  obtain ⟨h1, h2, h3⟩ := inv_tokenEvents hinv
  refine ⟨hrt, h2, h3, ?_⟩
  intro hex
  have := (inv_finish hinv hex).1
  rw [hinv.count, this]

theorem C2_witness :
    helloFinal.written.filter isTokenEvent =
      ((expectedTokens sampleUnmarshal helloBody.lines).take helloFinal.chunkCount).map
        (tokenEvent sampleSession) :=
  (C2_token_events_in_frame_order sampleUnmarshal sampleSession helloBody.lines helloBody.last
    helloBody.err helloSched helloFinal helloRun).2.1

/-- A step through which the consumer returns leaves its accumulators as they
were when the step began. -/
theorem step_exit_frozen {ss : Session} {s s1 : Sys} {c : Choice} (hex : s.exit = none)
    (hs : step ss s c = some s1) (hex1 : s1.exit.isSome = true) :
    s1.fullContent = s.fullContent ∧ s1.fullReasoningContent = s.fullReasoningContent ∧
      s1.chunkCount = s.chunkCount := by
  cases c with
  | reader =>
    simp only [step, readerStep] at hs
    split at hs
    · simp at hs
    all_goals
      split at hs
      · simp at hs
      · first
          | (simp at hs; subst hs; simp)
          | (split at hs
             · simp at hs; subst hs; simp
             · simp at hs)
  | cancel =>
    simp [step] at hs
    obtain ⟨_, rfl⟩ := hs
    simp
  | caseDone =>
    simp [step, consumerStep, saveMessage_eq] at hs
    obtain ⟨_, _, rfl⟩ := hs
    simp
  | caseTokens =>
    simp only [step, consumerStep] at hs
    split at hs
    · simp at hs
    · split at hs
      · simp [onToken] at hs
        subst hs
        simp [hex] at hex1
      · split at hs
        · split at hs
          · simp [sendFinish, saveMessage_eq] at hs
            subst hs
            simp
          · simp at hs
            subst hs
            simp
        · simp at hs
  | caseErrors =>
    simp only [step, consumerStep] at hs
    split at hs
    · simp at hs
    · split at hs
      · simp [onError, saveMessage_eq] at hs
        subst hs
        simp
      · split at hs
        · split at hs
          · simp [sendFinish, saveMessage_eq] at hs
            subst hs
            simp
          · simp at hs
            subst hs
            simp
        · simp at hs

/-- The calls of `Create` in a state satisfying the invariant. -/
theorem inv_creates {ss : Session} {toks : List StreamResponse} {errs : List String}
    {s : Sys} {recv : List StreamResponse} (h : Inv ss toks errs s recv) :
    s.creates.length ≤ 1 ∧
    (∀ call ∈ s.creates, s.fullContent ≠ "" ∧ call.msgReq.Content = s.fullContent ∧
      s.exit.isSome = true) ∧
    (s.exit = none → s.creates = []) := by
  have hc := h.creates
  cases hx : s.exit with
  | none => simp [hx] at hc; simp [hc]
  | some x =>
    simp [hx] at hc
    rw [hc]
    unfold savedCalls
    split <;> simp_all

/-- C3: in every run of `processStreamResponse`, whatever the schedule and the
exit path, `Create` has been called at most once; a call is made only by the
step through which the consumer returns, only when `fullContent` is non-empty at
that step, and it carries that `fullContent`. -/
theorem C3_create_at_most_once (U : String → Option (List Delta)) (ss : Session)
    (u : Upstream) (sched : List Choice) (s : Sys)
    (hrun : session U ss u sched = some s) :
    s.creates.length ≤ 1 ∧
    (∀ call ∈ s.creates, s.fullContent ≠ "" ∧ call.msgReq.Content = s.fullContent ∧
      s.exit.isSome = true) ∧
    (s.exit = none → s.creates = []) ∧
    (∀ c s1, step ss s c = some s1 → s1.creates = s.creates ∨
      (s.creates = [] ∧ s.exit = none ∧ s1.exit.isSome = true ∧ s.fullContent ≠ "" ∧
        ∃ call, s1.creates = [call] ∧ call.msgReq.Content = s.fullContent)) := by
  obtain ⟨recv, hinv⟩ := session_inv hrun
  obtain ⟨h1, h2, h3⟩ := inv_creates hinv
  refine ⟨h1, h2, h3, ?_⟩
  intro c s1 hs
  cases hx : s.exit with
  | some x => left; exact (step_after_exit (by simp [hx]) hs).2.1
  | none =>
    obtain ⟨recv1, hinv1⟩ := inv_step hinv hs
    obtain ⟨g1, g2, g3⟩ := inv_creates hinv1
    cases hc1 : s1.creates with
    | nil => left; rw [h3 hx]
    | cons call rest =>
      right
      have hrest : rest = [] := by
        rw [hc1] at g1
        simp at g1
        exact g1
      obtain ⟨k1, k2, k3⟩ := g2 call (by simp [hc1])
      have hfro := (step_exit_frozen hx hs k3).1
      refine ⟨h3 hx, rfl, k3, ?_, call, by rw [hrest], ?_⟩
      · rw [← hfro]; exact k1
      · rw [← hfro]; exact k2

theorem C3_witness :
    helloFinal.creates.length ≤ 1 ∧
    ∀ call ∈ helloFinal.creates, helloFinal.fullContent ≠ "" ∧
      call.msgReq.Content = helloFinal.fullContent ∧ helloFinal.exit.isSome = true :=
  ⟨(C3_create_at_most_once sampleUnmarshal sampleSession (Upstream.response 200 helloBody)
      helloSched helloFinal helloRun).1,
   (C3_create_at_most_once sampleUnmarshal sampleSession (Upstream.response 200 helloBody)
      helloSched helloFinal helloRun).2.1⟩

theorem string_append_eq_empty {a b : String} (h : a ++ b = "") : a = "" ∧ b = "" := by
  have hd := congrArg String.data h
  simp at hd
  exact ⟨String.ext hd.1, String.ext hd.2⟩

theorem concatContents_cons (r : StreamResponse) (rs : List StreamResponse) :
    concatContents (r :: rs) = r.Content ++ concatContents rs := by
  induction rs using List.reverseRecOn with
  | nil => simp [concatContents]
  | append_singleton xs x ih =>
    rw [← List.cons_append, concatContents_append, concatContents_append, ih,
      String.append_assoc]

theorem concatContents_ne_empty (rs : List StreamResponse) (hne : rs ≠ [])
    (hall : ∀ r ∈ rs, r.Content ≠ "") : concatContents rs ≠ "" := by
  cases rs with
  | nil => exact absurd rfl hne
  | cons r rs =>
    intro h
    rw [concatContents_cons] at h
    exact hall r (by simp) (string_append_eq_empty h).1

theorem deltaTokens_content_ne (d : Delta) : ∀ r ∈ deltaTokens d, r.Content ≠ "" := by
  intro r hr
  unfold deltaTokens at hr
  split at hr <;> split at hr <;> simp at hr
  · rcases hr with rfl | rfl <;> assumption
  · subst hr; assumption
  · subst hr; assumption

theorem expectedTokens_content_ne (U : String → Option (List Delta)) (lines : List String) :
    ∀ r ∈ expectedTokens U lines, r.Content ≠ "" := by
  induction lines with
  | nil => simp [expectedTokens]
  | cons raw rest ih =>
    intro r hr
    simp only [expectedTokens] at hr
    split at hr
    · simp at hr
    · rw [List.mem_append] at hr
      rcases hr with hr | hr
      · unfold frameTokens at hr
        split at hr
        · exact deltaTokens_content_ne _ r hr
        · simp at hr
      · exact ih r hr

theorem readerTokens_content_ne (U : String → Option (List Delta)) (u : Upstream) :
    ∀ r ∈ readerTokens U u, r.Content ≠ "" := by
  cases u with
  | marshalFails msg => simp [readerTokens, readerBody, sentTokens]
  | newRequestFails msg => simp [readerTokens, readerBody, sentTokens]
  | doFails msg => simp [readerTokens, readerBody, sentTokens]
  | response code body =>
    by_cases hc : code = 200
    · subst hc
      rw [readerTokens_response]
      exact expectedTokens_content_ne U _
    · simp [readerTokens, readerBody, hc, sentTokens]

/-- What has been written and saved when the consumer left on disconnect. -/
theorem inv_disconnect {ss : Session} {toks : List StreamResponse} {errs : List String}
    {s : Sys} {recv : List StreamResponse} (h : Inv ss toks errs s recv)
    (hex : s.exit = some Exit.disconnect) :
    s.written = SSEvent.opened ss.conversationID ::
      (toks.take s.chunkCount).map (tokenEvent ss) ∧
    s.fullContent = concatContents (contentTokens (toks.take s.chunkCount)) ∧
    s.creates = savedCalls ss s := by
  obtain ⟨hr, _, _⟩ := inv_tokenEvents h
  refine ⟨?_, ?_, ?_⟩
  · rw [h.written, ← hr]
    simp [terminalEvents, hex]
  · rw [h.content, ← hr]
  · rw [h.creates]
    simp [hex]

/-- C4, as amended: when the consumer returns on client disconnect after
delivering k tokens, it has written the connection-opened frame and the k token
events and nothing else (no finish, no error); `Create` is called exactly once,
with the concatenation in order of the content tokens among these k tokens,
when at least one of them is a content token, and not at all otherwise, in
particular when k = 0. -/
theorem C4_disconnect_saves_delivered_content (U : String → Option (List Delta))
    (ss : Session) (u : Upstream) (sched : List Choice) (s : Sys)
    (hrun : session U ss u sched = some s) (hex : s.exit = some Exit.disconnect) :
    s.written = SSEvent.opened ss.conversationID ::
      ((readerTokens U u).take s.chunkCount).map (tokenEvent ss) ∧
    (contentTokens ((readerTokens U u).take s.chunkCount) ≠ [] →
      ∃ call, s.creates = [call] ∧ call.msgReq.Content =
        concatContents (contentTokens ((readerTokens U u).take s.chunkCount))) ∧
    (contentTokens ((readerTokens U u).take s.chunkCount) = [] → s.creates = []) ∧
    (s.chunkCount = 0 → s.creates = []) := by
  obtain ⟨recv, hinv⟩ := session_inv hrun
  obtain ⟨h1, h2, h3⟩ := inv_disconnect hinv hex
  have hnil : contentTokens ((readerTokens U u).take s.chunkCount) = [] → s.creates = [] := by
    intro h0
    rw [h3, savedCalls, h2, h0]
    simp [concatContents]
  refine ⟨h1, ?_, hnil, ?_⟩
  · intro hne
    have hc : s.fullContent ≠ "" := by
      rw [h2]
      apply concatContents_ne_empty _ hne
      intro r hr
      have hr1 : r ∈ (readerTokens U u).take s.chunkCount := by
        unfold contentTokens at hr
        exact List.mem_of_mem_filter hr
      exact readerTokens_content_ne U u r (List.mem_of_mem_take hr1)
    rw [h3, savedCalls, if_neg hc]
    exact ⟨_, rfl, h2⟩
  · intro hk
    apply hnil
    rw [hk]
    simp [contentTokens]

theorem thinkingRun :
    session sampleUnmarshal sampleSession (Upstream.response 200 thinkingBody) thinkingSched =
      some thinkingFinal := by
  decide

/-- The claim C4 as stated fails: here the consumer returns on disconnect after
delivering one token (k = 1) and before any terminal event, and `Create` has not
been called. -/
theorem C4_counterexample :
    session sampleUnmarshal sampleSession (Upstream.response 200 thinkingBody) thinkingSched =
      some thinkingFinal ∧
    thinkingFinal.exit = some Exit.disconnect ∧ thinkingFinal.chunkCount = 1 ∧
    thinkingFinal.creates.length ≠ 1 := by
  decide

theorem C4_witness :
    thinkingFinal.written = SSEvent.opened 42 ::
      ((readerTokens sampleUnmarshal (Upstream.response 200 thinkingBody)).take 1).map
        (tokenEvent sampleSession) ∧
    thinkingFinal.creates = [] :=
  ⟨(C4_disconnect_saves_delivered_content sampleUnmarshal sampleSession
      (Upstream.response 200 thinkingBody) thinkingSched thinkingFinal thinkingRun rfl).1,
   (C4_disconnect_saves_delivered_content sampleUnmarshal sampleSession
      (Upstream.response 200 thinkingBody) thinkingSched thinkingFinal thinkingRun rfl).2.2.1
      (by decide)⟩

/-- C5 fails on the code: the reader sends the token "Hel", then the read
error; the `select` takes the error case while the token is still in the buffer
of `responses`, so the consumer returns with the token undelivered, and since
`fullContent` is still empty nothing is saved. -/
theorem C5_error_overtakes_buffered_token :
    readerTokens sampleUnmarshal (Upstream.response 200 brokenBody) = [⟨"Hel", "content"⟩] ∧
    (session sampleUnmarshal sampleSession (Upstream.response 200 brokenBody)
        [Choice.reader, Choice.reader, Choice.caseErrors]).map
      (fun s => (s.exit, s.tokBuf, s.written, s.creates)) =
    some (some Exit.error, [⟨"Hel", "content"⟩],
      [SSEvent.opened 42, SSEvent.error "AI服务调用失败" "读取流式响应错误: unexpected EOF"], []) := by
  decide

theorem readerBody_fails (U : String → Option (List Delta)) (u : Upstream)
    (h : failsBeforeStream u = true) : ∃ e, readerBody U u = [ChanOp.sendError e] := by
  cases u with
  | marshalFails msg => exact ⟨_, rfl⟩
  | newRequestFails msg => exact ⟨_, rfl⟩
  | doFails msg => exact ⟨_, rfl⟩
  | response code body =>
    simp [failsBeforeStream] at h
    exact ⟨"AI流式API错误: " ++ body.ReadAll, by simp [readerBody, h]⟩

/-- The finish path is only taken when the reader sent no error. -/
theorem inv_finish_no_error {ss : Session} {toks : List StreamResponse} {errs : List String}
    {s : Sys} {recv : List StreamResponse} (h : Inv ss toks errs s recv)
    (hex : s.exit = some Exit.finish) : errs = [] := by
  obtain ⟨h1, h2, h3, h4, h5, h6, h7, h8, h9, h10, h11, h12, h13⟩ := h
  obtain ⟨hn1, hn2⟩ := h11.1 hex
  obtain ⟨hc, _⟩ := h9 hn1
  obtain ⟨_, hb⟩ := h10 hn2
  have hp : s.pending = [] := by
    rcases h8 with ⟨ps, es, hp, hec, htc⟩ | ⟨hp, hec, htc⟩ | ⟨hp, hec, htc⟩
    · simp [hc] at htc
    · simp [hc] at htc
    · exact hp
  rcases h7 with ⟨h7, _⟩ | ⟨_, h7⟩
  · simp [hex] at h7
  · simpa [hp, hb, sentErrors] using h7.symm

/-- What has been written when the consumer left through the error path. -/
theorem inv_error {ss : Session} {toks : List StreamResponse} {errs : List String}
    {s : Sys} {recv : List StreamResponse} (h : Inv ss toks errs s recv)
    (hex : s.exit = some Exit.error) :
    ∃ e, errs = [e] ∧ s.written = SSEvent.opened ss.conversationID ::
      ((toks.take s.chunkCount).map (tokenEvent ss) ++ [SSEvent.error "AI服务调用失败" e]) := by
  obtain ⟨hr, _, _⟩ := inv_tokenEvents h
  have hne := inv_exit_error h hex
  have hlen := h.errsLen
  cases errs with
  | nil => exact absurd rfl hne
  | cons e es =>
    have hes : es = [] := by
      simp only [List.length_cons] at hlen
      exact List.eq_nil_of_length_eq_zero (by omega)
    subst hes
    refine ⟨e, rfl, ?_⟩
    rw [h.written, ← hr]
    simp [terminalEvents, hex]

/-- C6: when the upstream call fails before the frame stream starts and the
client stays connected, the reader emits no token and one error; the session
keeps making progress until the consumer returns, with only the
connection-opened frame written in the meantime; it returns through the error
path, having written that frame and one error event whose details are the
reader's error text, and `Create` is never called. -/
theorem C6_failure_before_first_token (U : String → Option (List Delta)) (ss : Session)
    (u : Upstream) (sched : List Choice) (s : Sys)
    (hfail : failsBeforeStream u = true)
    (hrun : session U ss u sched = some s) (hconn : s.ctxDone = false) :
    readerTokens U u = [] ∧
    ∃ e, readerErrors U u = [e] ∧
      (s.exit = none → s.written = [SSEvent.opened ss.conversationID] ∧
        ∃ c, c ≠ Choice.cancel ∧ c ≠ Choice.caseDone ∧ (step ss s c).isSome = true) ∧
      sched.length ≤ 2 * (readerScript U u).length + 4 ∧
      (s.exit.isSome = true → s.exit = some Exit.error ∧
        s.written = [SSEvent.opened ss.conversationID, SSEvent.error "AI服务调用失败" e]) ∧
      s.creates = [] := by
  obtain ⟨e, he⟩ := readerBody_fails U u hfail
  have htoks : readerTokens U u = [] := by simp [readerTokens, he, sentTokens]
  have herrs : readerErrors U u = [e] := by simp [readerErrors, he, sentErrors]
  obtain ⟨recv, hinv⟩ := session_inv hrun
  rw [htoks, herrs] at hinv
  have hrecv : recv = [] := by
    have := hinv.conserve
    simp at this
    exact this.1
  subst hrecv
  have hcontent : s.fullContent = "" := by
    rw [hinv.content]; simp [contentTokens, concatContents]
  refine ⟨htoks, e, herrs, ?_, session_length_le hrun, ?_, ?_⟩
  · intro hex
    refine ⟨?_, inv_progress hinv hex⟩
    rw [hinv.written]
    simp [terminalEvents, hex]
  · intro hsome
    have herr : s.exit = some Exit.error := by
      cases hx : s.exit with
      | none => simp [hx] at hsome
      | some x =>
        cases x with
        | disconnect => have := hinv.doneOnly hx; simp [hconn] at this
        | error => rfl
        | finish => have := inv_finish_no_error hinv hx; simp at this
    refine ⟨herr, ?_⟩
    rw [hinv.written]
    simp [terminalEvents, herr]
  · rw [hinv.creates, savedCalls, hcontent]
    simp

theorem refusedRun :
    session sampleUnmarshal sampleSession (Upstream.doFails "connection refused")
      [Choice.reader, Choice.reader, Choice.reader, Choice.caseTokens, Choice.caseErrors] =
      some refusedFinal := by
  decide

theorem C6_witness :
    readerTokens sampleUnmarshal (Upstream.doFails "connection refused") = [] ∧
    ∃ e, readerErrors sampleUnmarshal (Upstream.doFails "connection refused") = [e] ∧
      (refusedFinal.exit = none → refusedFinal.written = [SSEvent.opened 42] ∧
        ∃ c, c ≠ Choice.cancel ∧ c ≠ Choice.caseDone ∧
          (step sampleSession refusedFinal c).isSome = true) ∧
      [Choice.reader, Choice.reader, Choice.reader, Choice.caseTokens,
        Choice.caseErrors].length ≤
        2 * (readerScript sampleUnmarshal (Upstream.doFails "connection refused")).length + 4 ∧
      (refusedFinal.exit.isSome = true → refusedFinal.exit = some Exit.error ∧
        refusedFinal.written = [SSEvent.opened 42, SSEvent.error "AI服务调用失败" e]) ∧
      refusedFinal.creates = [] :=
  C6_failure_before_first_token sampleUnmarshal sampleSession
    (Upstream.doFails "connection refused") _ refusedFinal rfl refusedRun rfl

theorem filter_terminal_tokenEvents (ss : Session) (recv : List StreamResponse) :
    (recv.map (tokenEvent ss)).filter isTerminalEvent = [] := by
  induction recv with
  | nil => simp
  | cons r rs ih => simp [tokenEvent, isTerminalEvent, ih]

theorem filter_terminal_terminalEvents (ss : Session) (errs : List String) (s : Sys) :
    (terminalEvents ss errs s).filter isTerminalEvent = terminalEvents ss errs s := by
  unfold terminalEvents
  split
  · simp [isTerminalEvent]
  · induction errs with
    | nil => simp
    | cons e es ih => simp [isTerminalEvent, ih]
  · simp

/-- C7: in every session the events written are the connection-opened frame,
then the events of the tokens delivered so far, then the terminal part, which is
empty while the consumer runs and when it returned on disconnect, one error
event when it returned through the error path and one finish event when it
returned through the finish path, so exactly one terminal event when it returned
and the client did not disconnect.  The consumer returns on disconnect only when
the client did disconnect; while it has not returned some step other than a
disconnect is enabled, and schedules are bounded, so it does return; once it has
returned nothing more is written. -/
theorem C7_event_sequence_shape (U : String → Option (List Delta)) (ss : Session)
    (u : Upstream) (sched : List Choice) (s : Sys)
    (hrun : session U ss u sched = some s) :
    (∃ term, s.written = SSEvent.opened ss.conversationID ::
        (((readerTokens U u).take s.chunkCount).map (tokenEvent ss) ++ term) ∧
      s.written.filter isTerminalEvent = term ∧
      ((s.exit = none ∨ s.exit = some Exit.disconnect) → term = []) ∧
      (s.exit = some Exit.error → ∃ e, term = [SSEvent.error "AI服务调用失败" e]) ∧
      (s.exit = some Exit.finish →
        term = [SSEvent.finish ss.conversationID s.fullContent s.chunkCount]) ∧
      (s.ctxDone = false → s.exit.isSome = true → term.length = 1)) ∧
    (s.exit = some Exit.disconnect → s.ctxDone = true) ∧
    (s.exit = none →
      ∃ c, c ≠ Choice.cancel ∧ c ≠ Choice.caseDone ∧ (step ss s c).isSome = true) ∧
    sched.length ≤ 2 * (readerScript U u).length + 4 ∧
    (∀ c s1, s.exit.isSome = true → step ss s c = some s1 →
      s1.written = s.written ∧ s1.exit = s.exit) := by
  obtain ⟨recv, hinv⟩ := session_inv hrun
  obtain ⟨hr, _, _⟩ := inv_tokenEvents hinv
  have herr : s.exit = some Exit.error →
      ∃ e, terminalEvents ss (readerErrors U u) s = [SSEvent.error "AI服务调用失败" e] := by
    intro hex
    obtain ⟨e, he, _⟩ := inv_error hinv hex
    exact ⟨e, by simp [terminalEvents, hex, he]⟩
  refine ⟨⟨terminalEvents ss (readerErrors U u) s, ?_, ?_, ?_, herr, ?_, ?_⟩, hinv.doneOnly,
    fun hex => inv_progress hinv hex, session_length_le hrun, ?_⟩
  · rw [hinv.written, ← hr]
  · rw [hinv.written]
    simp [List.filter_cons, isTerminalEvent, filter_terminal_tokenEvents,
      filter_terminal_terminalEvents]
  · intro hex
    rcases hex with hex | hex <;> simp [terminalEvents, hex]
  · intro hex
    simp [terminalEvents, hex]
  · intro hconn hsome
    cases hx : s.exit with
    | none => simp [hx] at hsome
    | some x =>
      cases x with
      | disconnect => have := hinv.doneOnly hx; simp [hconn] at this
      | error =>
        obtain ⟨e, he⟩ := herr hx
        rw [he]; rfl
      | finish => simp [terminalEvents, hx]
  · intro c s1 hsome hs
    have := step_after_exit hsome hs
    exact ⟨this.1, this.2.2.1⟩

theorem C7_witness :
    ∃ term, helloFinal.written = SSEvent.opened 42 ::
        (((readerTokens sampleUnmarshal (Upstream.response 200 helloBody)).take
          helloFinal.chunkCount).map (tokenEvent sampleSession) ++ term) ∧
      helloFinal.written.filter isTerminalEvent = term ∧
      ((helloFinal.exit = none ∨ helloFinal.exit = some Exit.disconnect) → term = []) ∧
      (helloFinal.exit = some Exit.error → ∃ e, term = [SSEvent.error "AI服务调用失败" e]) ∧
      (helloFinal.exit = some Exit.finish →
        term = [SSEvent.finish 42 helloFinal.fullContent helloFinal.chunkCount]) ∧
      (helloFinal.ctxDone = false → helloFinal.exit.isSome = true → term.length = 1) :=
  (C7_event_sequence_shape sampleUnmarshal sampleSession (Upstream.response 200 helloBody)
    helloSched helloFinal helloRun).1

theorem readLoop_nil_EOF (U : String → Option (List Delta)) :
    readLoop U ReadErr.EOF [] = [] := by
  simp [readLoop]

theorem readLoop_insert (U : String → Option (List Delta)) (err : ReadErr)
    (pre post : List String) (l : String)
    (h : ∀ rest, readLoop U err (l :: rest) = readLoop U err rest) :
    readLoop U err (pre ++ l :: post) = readLoop U err (pre ++ post) := by
  rcases readLoop_append U err pre with hp | hp
  · rw [hp, hp]
  · rw [hp, hp, h]

theorem expectedTokens_before_done (U : String → Option (List Delta)) (pre post : List String)
    (l : String) (hl : isDoneFrame l = true) (hpre : ∀ x ∈ pre, isDoneFrame x = false) :
    expectedTokens U (pre ++ l :: post) = pre.flatMap (frameTokens U) := by
  induction pre with
  | nil => simp [expectedTokens, hl]
  | cons x xs ih =>
    have hx : isDoneFrame x = false := hpre x (by simp)
    have hxs : ∀ y ∈ xs, isDoneFrame y = false := fun y hy => hpre y (by simp [hy])
    simp [expectedTokens, hx, ih hxs]

/-- C8: a data frame whose payload is not the sentinel and fails to decode is
skipped: inserted at any position of any body it changes nothing in what the
reader does (the same sends in the same order, the same ending); taken alone it
yields no token and no error, and the lines after it are processed as if it
were not there. -/
theorem C8_malformed_frame_is_skipped (U : String → Option (List Delta))
    (pre post : List String) (last : String) (err : ReadErr) (l : String)
    (hframe : isFrame l = true) (hnd : payload l ≠ "[DONE]") (hbad : U (payload l) = none) :
    readerScript U (Upstream.response 200 ⟨pre ++ l :: post, last, err⟩) =
      readerScript U (Upstream.response 200 ⟨pre ++ post, last, err⟩) ∧
    readerBody U (Upstream.response 200 ⟨[l], "", ReadErr.EOF⟩) = [] ∧
    readLoop U err (l :: post) = readLoop U err post := by
  have h := fun rest => readLoop_cons_malformed U err l rest hframe hnd hbad
  refine ⟨?_, ?_, h post⟩
  · simp [readerScript, readerBody, readLoop_insert U err pre post l h]
  · have h0 : readLoop U ReadErr.EOF [l] = [] := by
      rw [readLoop_cons_malformed U ReadErr.EOF l [] hframe hnd hbad, readLoop_nil_EOF]
    simp [readerBody, h0]

theorem C8_witness :
    readerScript sampleUnmarshal (Upstream.response 200
        ⟨["data: \x7b\"choices\":[\x7b\"delta\":\x7b\"content\":\"Hel\"\x7d\x7d]\x7d\n"] ++
          "data: not json\n" ::
          ["data: \x7b\"choices\":[\x7b\"delta\":\x7b\"content\":\"lo\"\x7d\x7d]\x7d\n"],
         "", ReadErr.EOF⟩) =
      readerScript sampleUnmarshal (Upstream.response 200
        ⟨["data: \x7b\"choices\":[\x7b\"delta\":\x7b\"content\":\"Hel\"\x7d\x7d]\x7d\n"] ++
          ["data: \x7b\"choices\":[\x7b\"delta\":\x7b\"content\":\"lo\"\x7d\x7d]\x7d\n"],
         "", ReadErr.EOF⟩) :=
  (C8_malformed_frame_is_skipped sampleUnmarshal _ _ "" ReadErr.EOF "data: not json\n"
    (by decide) (by decide) (by decide)).1

/-- C9: once the reader meets a data frame whose payload is the sentinel, it
stops: whatever follows the frame and however the body would have ended, it
does what it does on the preceding lines followed by a clean end of body; it
reports no error; and when the frame is the first of its kind the tokens it
emits are those of the preceding lines, in order. -/
theorem C9_done_frame_stops_reader (U : String → Option (List Delta))
    (pre post : List String) (last : String) (err : ReadErr) (l : String)
    (hdone : isDoneFrame l = true) :
    readerScript U (Upstream.response 200 ⟨pre ++ l :: post, last, err⟩) =
      readerScript U (Upstream.response 200 ⟨pre, "", ReadErr.EOF⟩) ∧
    readerErrors U (Upstream.response 200 ⟨pre ++ l :: post, last, err⟩) = [] ∧
    ((∀ x ∈ pre, isDoneFrame x = false) →
      readerTokens U (Upstream.response 200 ⟨pre ++ l :: post, last, err⟩) =
        pre.flatMap (frameTokens U)) := by
  refine ⟨?_, ?_, ?_⟩
  · simp [readerScript, readerBody, readLoop_done_inside U err pre post l hdone]
  · exact readerErrors_normal U _ last err (Or.inr ⟨l, by simp, hdone⟩)
  · intro hpre
    rw [readerTokens_response]
    exact expectedTokens_before_done U pre post l hdone hpre

theorem C9_witness :
    readerScript sampleUnmarshal (Upstream.response 200
        ⟨["data: \x7b\"choices\":[\x7b\"delta\":\x7b\"content\":\"Hel\"\x7d\x7d]\x7d\n"] ++
          "data: [DONE]\n" ::
          ["data: \x7b\"choices\":[\x7b\"delta\":\x7b\"content\":\"lo\"\x7d\x7d]\x7d\n"],
         "", ReadErr.other "connection reset"⟩) =
      readerScript sampleUnmarshal (Upstream.response 200
        ⟨["data: \x7b\"choices\":[\x7b\"delta\":\x7b\"content\":\"Hel\"\x7d\x7d]\x7d\n"],
         "", ReadErr.EOF⟩) :=
  (C9_done_frame_stops_reader sampleUnmarshal _ _ "" (ReadErr.other "connection reset")
    "data: [DONE]\n" (by decide)).1

/-- The claim C10 as stated fails: the line made of two spaces and the sentinel
frame does not begin with "data:", yet the reader takes it for the sentinel, so
that removing it changes the outcome (the read error is then reported); and the
line made of a tab and a content frame does not begin with "data:" either, yet
it yields a token. -/
theorem C10_counterexample :
    (HasPrefix "  data: [DONE]\n" "data:" = false ∧
      readerScript sampleUnmarshal
          (Upstream.response 200 ⟨["  data: [DONE]\n"], "", ReadErr.other "reset"⟩) ≠
        readerScript sampleUnmarshal
          (Upstream.response 200 ⟨[], "", ReadErr.other "reset"⟩)) ∧
    (HasPrefix "\tdata: \x7b\"choices\":[\x7b\"delta\":\x7b\"content\":\"Hel\"\x7d\x7d]\x7d\n"
        "data:" = false ∧
      readerTokens sampleUnmarshal (Upstream.response 200
        ⟨["\tdata: \x7b\"choices\":[\x7b\"delta\":\x7b\"content\":\"Hel\"\x7d\x7d]\x7d\n"], "",
          ReadErr.EOF⟩) = [⟨"Hel", "content"⟩]) := by
  decide

/-- C10, as amended: every line that, once surrounding white space is trimmed,
does not begin with "data:" (blank lines included) is ignored: it is not taken
for the sentinel, alone it yields no token and no error, removing it from any
position of any body changes nothing in what the reader does, and so does
removing all such lines at once. -/
theorem C10_non_frame_lines_are_ignored (U : String → Option (List Delta))
    (lines : List String) (last : String) (err : ReadErr) :
    readerScript U (Upstream.response 200 ⟨lines.filter isFrame, last, err⟩) =
      readerScript U (Upstream.response 200 ⟨lines, last, err⟩) ∧
    ∀ l, isFrame l = false →
      isDoneFrame l = false ∧
      readerBody U (Upstream.response 200 ⟨[l], "", ReadErr.EOF⟩) = [] ∧
      ∀ pre post, readerScript U (Upstream.response 200 ⟨pre ++ l :: post, last, err⟩) =
        readerScript U (Upstream.response 200 ⟨pre ++ post, last, err⟩) := by
  refine ⟨?_, ?_⟩
  · have h : readLoop U err (lines.filter isFrame) = readLoop U err lines := by
      induction lines with
      | nil => simp
      | cons raw rest ih =>
        by_cases hf : isFrame raw = true
        · have hne := trimmed_frame_ne_empty raw hf
          have hf1 : HasPrefix (TrimSpace raw) "data:" = true := hf
          simp only [List.filter_cons, hf, if_true, readLoop, ih]
        · have hf2 : isFrame raw = false := by simpa using hf
          simp [List.filter_cons, hf2, readLoop_cons_skip U err raw rest hf2, ih]
    simp [readerScript, readerBody, h]
  · intro l hl
    refine ⟨by simp [isDoneFrame, hl], ?_, ?_⟩
    · have h0 : readLoop U ReadErr.EOF [l] = [] := by
        rw [readLoop_cons_skip U ReadErr.EOF l [] hl, readLoop_nil_EOF]
      simp [readerBody, h0]
    · intro pre post
      have h := fun rest => readLoop_cons_skip U err l rest hl
      simp [readerScript, readerBody, readLoop_insert U err pre post l h]

theorem C10_witness :
    isDoneFrame ": keep-alive\n" = false ∧
    readerBody sampleUnmarshal (Upstream.response 200 ⟨[": keep-alive\n"], "", ReadErr.EOF⟩) =
      [] :=
  ⟨((C10_non_frame_lines_are_ignored sampleUnmarshal helloBody.lines "" ReadErr.EOF).2
      ": keep-alive\n" (by decide)).1,
   ((C10_non_frame_lines_are_ignored sampleUnmarshal helloBody.lines "" ReadErr.EOF).2
      ": keep-alive\n" (by decide)).2.1⟩

/-! ## The reader, the events and the saved message: further theorems -/

theorem expectedTokens_no_done (U : String → Option (List Delta)) (lines : List String)
    (h : ∀ x ∈ lines, isDoneFrame x = false) :
    expectedTokens U lines = lines.flatMap (frameTokens U) := by
  induction lines with
  | nil => simp [expectedTokens]
  | cons x xs ih =>
    have hx : isDoneFrame x = false := h x (by simp)
    have hxs : ∀ y ∈ xs, isDoneFrame y = false := fun y hy => h y (by simp [hy])
    simp [expectedTokens, hx, ih hxs]

/-- C11: a data frame that decodes, with first choice of delta (content c,
reasoning_content r), makes the reader send a reasoning token carrying r when r
is non-empty, then a content token carrying c when c is non-empty, and nothing
else, before it goes on with the next line; so a frame yields at most two
tokens, and no token the reader ever emits has empty content. -/
theorem C11_frame_tokens (U : String → Option (List Delta)) (err : ReadErr)
    (raw : String) (rest : List String) (d : Delta) (others : List Delta)
    (hframe : isFrame raw = true) (hnd : payload raw ≠ "[DONE]")
    (hdec : U (payload raw) = some (d :: others)) :
    readLoop U err (raw :: rest) =
      (if d.ReasoningContent ≠ "" then
          [ChanOp.sendResponse ⟨d.ReasoningContent, "reasoning"⟩] else []) ++
      (if d.Content ≠ "" then [ChanOp.sendResponse ⟨d.Content, "content"⟩] else []) ++
      readLoop U err rest ∧
    (frameTokens U raw).length ≤ 2 ∧
    (∀ u, ∀ t ∈ readerTokens U u, t.Content ≠ "") := by
  refine ⟨?_, ?_, fun u => readerTokens_content_ne U u⟩
  · rw [readLoop_cons_chunk U err raw rest (d :: others) hframe hnd hdec]
    simp [chunkSends]
  · simp only [frameTokens, frameDelta, hframe, hdec, if_true, deltaTokens]
    split <;> split <;> simp

theorem C11_witness :
    readLoop sampleUnmarshal ReadErr.EOF
        ["data: \x7b\"choices\":[\x7b\"delta\":\x7b\"content\":\"Hel\"\x7d\x7d]\x7d\n"] =
      (if ("" : String) ≠ "" then [ChanOp.sendResponse ⟨"", "reasoning"⟩] else []) ++
      (if ("Hel" : String) ≠ "" then [ChanOp.sendResponse ⟨"Hel", "content"⟩] else []) ++
      readLoop sampleUnmarshal ReadErr.EOF [] :=
  (C11_frame_tokens sampleUnmarshal ReadErr.EOF
    "data: \x7b\"choices\":[\x7b\"delta\":\x7b\"content\":\"Hel\"\x7d\x7d]\x7d\n" []
    ⟨"Hel", ""⟩ [] (by decide) (by decide) (by decide)).1

/-- What has been saved when the consumer left through the finish path. -/
theorem inv_finish_creates {ss : Session} {toks : List StreamResponse} {errs : List String}
    {s : Sys} {recv : List StreamResponse} (h : Inv ss toks errs s recv)
    (hex : s.exit = some Exit.finish) :
    s.fullContent = concatContents (contentTokens toks) ∧
    s.fullReasoningContent = concatContents (reasoningTokens toks) ∧
    s.creates = savedCalls ss s := by
  have hr := (inv_finish h hex).1
  refine ⟨?_, ?_, ?_⟩
  · rw [h.content, hr]
  · rw [h.reasoning, hr]
  · rw [h.creates]; simp [hex]

/-- C12: when the body reaches its end without a sentinel frame, the reader
sends no error; the tokens it emits are those of all the lines; and, the client
staying connected, the session keeps making progress until the consumer
returns, which it does through the finish path: the events written are then the
connection-opened frame, the token events and one finish event carrying the
concatenation of all content emitted, and no error event. -/
theorem C12_end_of_stream_is_normal (U : String → Option (List Delta)) (ss : Session)
    (lines : List String) (last : String) (sched : List Choice) (s : Sys)
    (hnodone : ∀ l ∈ lines, isDoneFrame l = false)
    (hrun : session U ss (Upstream.response 200 ⟨lines, last, ReadErr.EOF⟩) sched = some s)
    (hconn : s.ctxDone = false) :
    sentErrors (readerScript U (Upstream.response 200 ⟨lines, last, ReadErr.EOF⟩)) = [] ∧
    readerTokens U (Upstream.response 200 ⟨lines, last, ReadErr.EOF⟩) =
      lines.flatMap (frameTokens U) ∧
    (s.exit = none →
      ∃ c, c ≠ Choice.cancel ∧ c ≠ Choice.caseDone ∧ (step ss s c).isSome = true) ∧
    sched.length ≤
      2 * (readerScript U (Upstream.response 200 ⟨lines, last, ReadErr.EOF⟩)).length + 4 ∧
    (s.exit.isSome = true →
      s.exit = some Exit.finish ∧
      s.written = SSEvent.opened ss.conversationID ::
        ((lines.flatMap (frameTokens U)).map (tokenEvent ss) ++
          [SSEvent.finish ss.conversationID
            (concatContents (contentTokens (lines.flatMap (frameTokens U))))
            (lines.flatMap (frameTokens U)).length]) ∧
      ∀ e ∈ s.written, ∀ m d, e ≠ SSEvent.error m d) := by
  have herrs := readerErrors_normal U lines last ReadErr.EOF (Or.inl rfl)
  have htoks : readerTokens U (Upstream.response 200 ⟨lines, last, ReadErr.EOF⟩) =
      lines.flatMap (frameTokens U) := by
    rw [readerTokens_response, expectedTokens_no_done U lines hnodone]
  obtain ⟨recv, hinv⟩ := session_inv hrun
  refine ⟨?_, htoks, fun hex => inv_progress hinv hex, session_length_le hrun, ?_⟩
  · rw [readerScript, sentErrors_append]
    have : sentErrors (readerBody U (Upstream.response 200 ⟨lines, last, ReadErr.EOF⟩)) = [] :=
      herrs
    rw [this]
    simp [sentErrors]
  · intro hsome
    have hfin : s.exit = some Exit.finish := by
      cases hx : s.exit with
      | none => simp [hx] at hsome
      | some x =>
        cases x with
        | disconnect => have := hinv.doneOnly hx; simp [hconn] at this
        | error =>
          have := inv_exit_error hinv hx
          rw [herrs] at this
          exact absurd rfl this
        | finish => rfl
    have hw := (inv_finish hinv hfin).2
    rw [htoks] at hw
    refine ⟨hfin, hw, ?_⟩
    intro e he m d hed
    rw [hw, hed] at he
    simp [tokenEvent] at he

theorem plainRun :
    session sampleUnmarshal sampleSession (Upstream.response 200 plainBody) helloSched =
      some helloFinal := by
  decide

theorem C12_witness :
    helloFinal.exit = some Exit.finish ∧
    helloFinal.written = SSEvent.opened 42 ::
      ((plainBody.lines.flatMap (frameTokens sampleUnmarshal)).map (tokenEvent sampleSession) ++
        [SSEvent.finish 42
          (concatContents (contentTokens (plainBody.lines.flatMap (frameTokens sampleUnmarshal))))
          (plainBody.lines.flatMap (frameTokens sampleUnmarshal)).length]) ∧
    ∀ e ∈ helloFinal.written, ∀ m d, e ≠ SSEvent.error m d :=
  (C12_end_of_stream_is_normal sampleUnmarshal sampleSession plainBody.lines plainBody.last
    helloSched helloFinal (by decide) plainRun rfl).2.2.2.2 rfl

/-- The claim C13 as stated fails: status 204 is a 2xx code, and the reader
reports a status failure carrying the body and emits no token, although the
body holds a content frame. -/
theorem C13_counterexample :
    readerScript sampleUnmarshal (Upstream.response 204
        ⟨["data: \x7b\"choices\":[\x7b\"delta\":\x7b\"content\":\"Hel\"\x7d\x7d]\x7d\n"], "",
          ReadErr.EOF⟩) =
      [ChanOp.sendError
        "AI流式API错误: data: \x7b\"choices\":[\x7b\"delta\":\x7b\"content\":\"Hel\"\x7d\x7d]\x7d\n",
       ChanOp.closeErrors, ChanOp.closeResponses] := by
  decide

/-- C13, as amended: the reader reports a status failure exactly when the status
code is not 200: for every other code, 2xx codes other than 200 included, it
sends one error, made of the fixed text and the body, and no token; for code 200
it runs the frame loop over the body and emits the tokens of its frames. -/
theorem C13_status_other_than_200_fails (U : String → Option (List Delta))
    (StatusCode : Nat) (body : Body) :
    (StatusCode ≠ 200 →
      readerBody U (Upstream.response StatusCode body) =
        [ChanOp.sendError ("AI流式API错误: " ++ body.ReadAll)] ∧
      readerTokens U (Upstream.response StatusCode body) = [] ∧
      readerErrors U (Upstream.response StatusCode body) =
        ["AI流式API错误: " ++ body.ReadAll]) ∧
    (StatusCode = 200 →
      readerBody U (Upstream.response StatusCode body) = readLoop U body.err body.lines ∧
      readerTokens U (Upstream.response StatusCode body) = expectedTokens U body.lines) := by
  refine ⟨?_, ?_⟩
  · intro h
    simp [readerTokens, readerErrors, readerBody, h, sentTokens, sentErrors]
  · intro h
    subst h
    refine ⟨by simp [readerBody], ?_⟩
    exact readerTokens_response U body.lines body.last body.err

theorem C13_witness :
    readerBody sampleUnmarshal (Upstream.response 503 ⟨["upstream down\n"], "", ReadErr.EOF⟩) =
      [ChanOp.sendError ("AI流式API错误: " ++
        Body.ReadAll ⟨["upstream down\n"], "", ReadErr.EOF⟩)] ∧
    readerBody sampleUnmarshal (Upstream.response 200 helloBody) =
      readLoop sampleUnmarshal helloBody.err helloBody.lines :=
  ⟨((C13_status_other_than_200_fails sampleUnmarshal 503
      ⟨["upstream down\n"], "", ReadErr.EOF⟩).1 (by decide)).1,
   ((C13_status_other_than_200_fails sampleUnmarshal 200 helloBody).2 rfl).1⟩

/-- C19: on every exit path the operations of the reader are: its token sends,
then at most one error send, then the close of the error queue and the close of
the token queue, each once and as its last two operations. -/
theorem C19_reader_run_shape (U : String → Option (List Delta)) (u : Upstream) :
    readerScript U u =
      (readerTokens U u).map ChanOp.sendResponse ++
        ((readerErrors U u).map ChanOp.sendError ++
          [ChanOp.closeErrors, ChanOp.closeResponses]) ∧
    (readerErrors U u).length ≤ 1 :=
  ⟨readerScript_canon U u, (wellFormed_readerBody U u).2⟩

/-- C14: whenever the `select` takes a token from the queue, the event written
for it has the content of the token, done = false and the conversation
identifier of the session; its type is "reasoning" exactly when the token is a
reasoning token, and is otherwise the label passed by the handler, "message" for
`StreamChat` and "token" for `StreamChatByConversationID`. -/
theorem C14_token_event_fields (ep : EntryPoint) (ss : Session) (s : Sys)
    (response : StreamResponse) (rest : List StreamResponse)
    (hlabel : ss.messageType = entryMessageType ep)
    (hrunning : s.exit = none) (hopen : s.tokensNil = false)
    (hbuf : s.tokBuf = response :: rest) :
    ∃ s1 type, step ss s Choice.caseTokens = some s1 ∧
      s1.written = s.written ++ [SSEvent.token type response.Content false ss.conversationID] ∧
      (type = "reasoning" ↔ response.Type_ = "reasoning") ∧
      (response.Type_ ≠ "reasoning" → type = entryMessageType ep) ∧
      entryMessageType EntryPoint.StreamChat = "message" ∧
      entryMessageType EntryPoint.StreamChatByConversationID = "token" := by
  refine ⟨onToken ss { s with tokBuf := rest } response,
    if response.Type_ = "reasoning" then "reasoning" else ss.messageType, ?_, ?_, ?_, ?_,
    rfl, rfl⟩
  · simp [step, consumerStep, hrunning, hopen, hbuf]
  · simp [onToken]
  · by_cases h : response.Type_ = "reasoning"
    · simp [h]
    · simp only [h, if_false, iff_false, hlabel]
      cases ep <;> decide
  · intro h
    simp [h, hlabel]

theorem C14_witness :
    ∃ s1 type, step sampleSession thinkingBuffered Choice.caseTokens = some s1 ∧
      s1.written = thinkingBuffered.written ++ [SSEvent.token type "hm" false 42] ∧
      (type = "reasoning" ↔ ("reasoning" : String) = "reasoning") ∧
      (("reasoning" : String) ≠ "reasoning" → type = entryMessageType EntryPoint.StreamChat) ∧
      entryMessageType EntryPoint.StreamChat = "message" ∧
      entryMessageType EntryPoint.StreamChatByConversationID = "token" :=
  C14_token_event_fields EntryPoint.StreamChat sampleSession thinkingBuffered
    ⟨"hm", "reasoning"⟩ [] rfl rfl rfl rfl

theorem expectedTokens_carries (U : String → Option (List Delta)) (raw : String) (d : Delta)
    (rest : List String) (h : carries U raw d) :
    expectedTokens U (raw :: rest) = deltaTokens d ++ expectedTokens U rest := by
  obtain ⟨h1, h2, h3⟩ := h
  simp [expectedTokens, isDoneFrame, h1, h2, frameTokens, frameDelta, h3]

/-- The claim C15 as stated fails: in the session of `POST /stream` over the
frames "Hel", "lo" and the sentinel, the two token events have type "message",
and no event of type "content" is written. -/
theorem C15_counterexample :
    sampleSession.messageType = entryMessageType EntryPoint.StreamChat ∧
    session sampleUnmarshal sampleSession (Upstream.response 200 helloBody) helloSched =
      some helloFinal ∧
    helloFinal.written =
      [SSEvent.opened 42, SSEvent.token "message" "Hel" false 42,
       SSEvent.token "message" "lo" false 42, SSEvent.finish 42 "Hello" 2] ∧
    SSEvent.token "content" "Hel" false 42 ∉ helloFinal.written ∧
    SSEvent.token "content" "lo" false 42 ∉ helloFinal.written := by
  decide

/-- C15, as amended: the event written for a content token has as type the label
passed by the handler, "message" or "token", never "content"; and for the
frames carrying "Hel" and "lo" followed by the sentinel frame, the client staying
connected, the session keeps making progress until the consumer returns, and
has then written the connection-opened frame, two events with that label and
contents "Hel" and "lo", and one finish event with content "Hello" and
chunkCount 2, and has called `Create` once, with content "Hello". -/
theorem C15_content_events_carry_label (U : String → Option (List Delta)) (ep : EntryPoint)
    (ss : Session) (l1 l2 l3 : String) (last : String) (err : ReadErr)
    (sched : List Choice) (s : Sys)
    (hlabel : ss.messageType = entryMessageType ep)
    (h1 : carries U l1 ⟨"Hel", ""⟩) (h2 : carries U l2 ⟨"lo", ""⟩)
    (h3 : isDoneFrame l3 = true)
    (hrun : session U ss (Upstream.response 200 ⟨[l1, l2, l3], last, err⟩) sched = some s)
    (hconn : s.ctxDone = false) :
    entryMessageType ep ≠ "content" ∧
    (∀ (t : Sys) (response : StreamResponse) (rest : List StreamResponse),
      t.exit = none → t.tokensNil = false → t.tokBuf = response :: rest →
      response.Type_ = "content" →
      ∃ t1, step ss t Choice.caseTokens = some t1 ∧ t1.written = t.written ++
        [SSEvent.token (entryMessageType ep) response.Content false ss.conversationID]) ∧
    (s.exit = none →
      ∃ c, c ≠ Choice.cancel ∧ c ≠ Choice.caseDone ∧ (step ss s c).isSome = true) ∧
    (s.exit.isSome = true →
      s.written =
        [SSEvent.opened ss.conversationID,
         SSEvent.token (entryMessageType ep) "Hel" false ss.conversationID,
         SSEvent.token (entryMessageType ep) "lo" false ss.conversationID,
         SSEvent.finish ss.conversationID "Hello" 2] ∧
      ∃ call, s.creates = [call] ∧ call.msgReq.Content = "Hello") := by
  have htoks : readerTokens U (Upstream.response 200 ⟨[l1, l2, l3], last, err⟩) =
      [⟨"Hel", "content"⟩, ⟨"lo", "content"⟩] := by
    rw [readerTokens_response, expectedTokens_carries U l1 _ _ h1,
      expectedTokens_carries U l2 _ _ h2]
    simp [expectedTokens, h3, deltaTokens]
  have herrs := readerErrors_normal U [l1, l2, l3] last err (Or.inr ⟨l3, by simp, h3⟩)
  obtain ⟨recv, hinv⟩ := session_inv hrun
  rw [htoks, herrs] at hinv
  refine ⟨by cases ep <;> decide, ?_, fun hex => inv_progress hinv hex, ?_⟩
  · intro t response rest ht1 ht2 ht3 ht4
    refine ⟨onToken ss { t with tokBuf := rest } response, ?_, ?_⟩
    · simp [step, consumerStep, ht1, ht2, ht3]
    · have hne : response.Type_ ≠ "reasoning" := by rw [ht4]; decide
      simp [onToken, hne, hlabel]
  · intro hsome
    have hfin : s.exit = some Exit.finish := by
      cases hx : s.exit with
      | none => simp [hx] at hsome
      | some x =>
        cases x with
        | disconnect => have := hinv.doneOnly hx; simp [hconn] at this
        | error => exact absurd rfl (inv_exit_error hinv hx)
        | finish => rfl
    have hw := (inv_finish hinv hfin).2
    obtain ⟨hc, _, hcr⟩ := inv_finish_creates hinv hfin
    have hhello : concatContents (contentTokens
        [(⟨"Hel", "content"⟩ : StreamResponse), ⟨"lo", "content"⟩]) = "Hello" := by decide
    rw [hhello] at hw hc
    refine ⟨?_, ?_⟩
    · rw [hw]
      simp [tokenEvent, hlabel]
    · have hne : ("Hello" : String) ≠ "" := by decide
      rw [hcr, savedCalls, hc, if_neg hne]
      exact ⟨_, rfl, rfl⟩

theorem C15_witness :
    helloFinal.written =
      [SSEvent.opened 42,
       SSEvent.token (entryMessageType EntryPoint.StreamChat) "Hel" false 42,
       SSEvent.token (entryMessageType EntryPoint.StreamChat) "lo" false 42,
       SSEvent.finish 42 "Hello" 2] ∧
    ∃ call, helloFinal.creates = [call] ∧ call.msgReq.Content = "Hello" :=
  (C15_content_events_carry_label sampleUnmarshal EntryPoint.StreamChat sampleSession
    "data: \x7b\"choices\":[\x7b\"delta\":\x7b\"content\":\"Hel\"\x7d\x7d]\x7d\n"
    "data: \x7b\"choices\":[\x7b\"delta\":\x7b\"content\":\"lo\"\x7d\x7d]\x7d\n"
    "data: [DONE]\n" "" ReadErr.EOF helloSched helloFinal rfl
    ⟨by decide, by decide, by decide⟩ ⟨by decide, by decide, by decide⟩ (by decide)
    (by decide) rfl).2.2.2 rfl

/-- C16: every call of `Create` made by `saveMessage` is made for the user of
the session and carries type "assistant", the conversation identifier of the
session, as content the concatenation in order of the content tokens among the
tokens consumed, as reasoning content the concatenation in order of the
reasoning tokens among them, and as model the field `Model` of the request of
the session as it stands once `StreamChat` has run on it. -/
theorem C16_saved_message_fields (U : String → Option (List Delta)) (cfgModel : String)
    (userID conversationID : Nat) (chatReq : ChatRequest) (messageType : String)
    (u : Upstream) (sched : List Choice) (s : Sys)
    (hrun : session U (processSession cfgModel userID conversationID chatReq messageType) u
      sched = some s) :
    ∀ call ∈ s.creates,
      call.userID = userID ∧
      call.msgReq.Type_ = "assistant" ∧
      call.msgReq.ConversationID = conversationID ∧
      call.msgReq.Content =
        concatContents (contentTokens ((readerTokens U u).take s.chunkCount)) ∧
      call.msgReq.ReasoningContent =
        concatContents (reasoningTokens ((readerTokens U u).take s.chunkCount)) ∧
      call.msgReq.Model = (fillDefaults cfgModel chatReq).Model := by
  obtain ⟨recv, hinv⟩ := session_inv hrun
  obtain ⟨hr, _, _⟩ := inv_tokenEvents hinv
  intro call hcall
  have hc := hinv.creates
  have h1 := hinv.content
  have h2 := hinv.reasoning
  rw [hr] at h1 h2
  rw [hc] at hcall
  split at hcall
  · unfold savedCalls at hcall
    split at hcall
    · simp at hcall
    · simp at hcall
      subst hcall
      exact ⟨rfl, rfl, rfl, h1, h2, rfl⟩
  · simp at hcall

theorem sampleSession_eq :
    processSession "deepseek-chat" 7 42 sampleRequest "message" = sampleSession := by
  decide

theorem C16_witness :
    helloCall.userID = 7 ∧
    helloCall.msgReq.Type_ = "assistant" ∧
    helloCall.msgReq.ConversationID = 42 ∧
    helloCall.msgReq.Content = concatContents (contentTokens
      ((readerTokens sampleUnmarshal (Upstream.response 200 helloBody)).take
        helloFinal.chunkCount)) ∧
    helloCall.msgReq.ReasoningContent = concatContents (reasoningTokens
      ((readerTokens sampleUnmarshal (Upstream.response 200 helloBody)).take
        helloFinal.chunkCount)) ∧
    helloCall.msgReq.Model = (fillDefaults "deepseek-chat" sampleRequest).Model :=
  C16_saved_message_fields sampleUnmarshal "deepseek-chat" 7 42 sampleRequest "message"
    (Upstream.response 200 helloBody) helloSched helloFinal (by decide) helloCall (by decide)

/-- The claim C20 as stated fails: a request passed with no model, no
temperature and no thinking mode comes back from `StreamChat` with all three
set. -/
theorem C20_counterexample :
    fillDefaults "deepseek-chat" sampleRequest ≠ sampleRequest ∧
    sampleRequest.Model = none ∧
    (fillDefaults "deepseek-chat" sampleRequest).Model = some "deepseek-chat" ∧
    (fillDefaults "deepseek-chat" sampleRequest).Temperature = some 0.7 ∧
    (fillDefaults "deepseek-chat" sampleRequest).Thinking = some "enabled" := by
  refine ⟨?_, rfl, rfl, rfl, rfl⟩
  intro h
  have hm : (fillDefaults "deepseek-chat" sampleRequest).Model = sampleRequest.Model := by
    rw [h]
  exact absurd hm (by decide)

/-- C20, as amended: `StreamChat` leaves the messages and the stream flag of the
caller's request as they were, and leaves its model, temperature and thinking
mode as they were when they were set; a field among these three that was not set
holds the default after the call (the configured model, 0.7, "enabled"). -/
theorem C20_caller_request_after_StreamChat (cfgModel : String) (req : ChatRequest) :
    (fillDefaults cfgModel req).Messages = req.Messages ∧
    (fillDefaults cfgModel req).Stream = req.Stream ∧
    (fillDefaults cfgModel req).Model = some (req.Model.getD cfgModel) ∧
    (fillDefaults cfgModel req).Temperature = some (req.Temperature.getD 0.7) ∧
    (fillDefaults cfgModel req).Thinking = some (req.Thinking.getD "enabled") ∧
    (req.Model ≠ none → req.Temperature ≠ none → req.Thinking ≠ none →
      fillDefaults cfgModel req = req) := by
  obtain ⟨ms, m, t, st, th⟩ := req
  cases m <;> cases t <;> cases th <;> simp [fillDefaults]

theorem C20_witness :
    fillDefaults "deepseek-chat" (fillDefaults "gpt-4" sampleRequest) =
      fillDefaults "gpt-4" sampleRequest :=
  (C20_caller_request_after_StreamChat "deepseek-chat" (fillDefaults "gpt-4" sampleRequest)).2.2.2.2.2
    (by decide) (by decide) (by decide)

/-- C18 fails on the code: with a 64-bit `uint`, the identifier 2^63 passes
through `int(conversationID)` and is written as a negative number, not as its
decimal representation; up to 2^63 - 1 the frame is the expected one. -/
theorem C18_opened_frame_wraps :
    openedFrame 64 9223372036854775808 =
      "data: \x7b\"conversationId\":-9223372036854775808\x7d\n\n" ∧
    openedFrame 64 9223372036854775808 ≠
      "data: \x7b\"conversationId\":9223372036854775808\x7d\n\n" ∧
    openedFrame 64 9223372036854775807 =
      "data: \x7b\"conversationId\":9223372036854775807\x7d\n\n" ∧
    openedFrame 64 42 = "data: \x7b\"conversationId\":42\x7d\n\n" ∧
    openedFrame 32 3000000000 = "data: \x7b\"conversationId\":-1294967296\x7d\n\n" := by
  decide

theorem saveMessageLogged_fst (Create : Nat → CreateMessageRequest → Option String)
    (ss : Session) (s : Sys) : (saveMessageLogged Create ss s).1 = saveMessage ss s := by
  unfold saveMessageLogged saveMessage
  split
  · rfl
  · simp only []
    split <;> rfl

theorem consumerStepLogged_fst (Create : Nat → CreateMessageRequest → Option String)
    (ss : Session) (s : Sys) (c : Choice) :
    (consumerStepLogged Create ss s c).map Prod.fst = consumerStep ss s c := by
  cases c with
  | reader => rfl
  | cancel => rfl
  | caseDone =>
    by_cases hx : s.exit.isSome = true
    · simp [consumerStepLogged, consumerStep, hx]
    · by_cases hd : s.ctxDone = true
      · simp [consumerStepLogged, consumerStep, hx, hd, saveMessageLogged_fst]
      · simp [consumerStepLogged, consumerStep, hx, hd]
  | caseTokens =>
    by_cases hc : (s.exit.isSome || s.tokensNil) = true
    · simp [consumerStepLogged, consumerStep, hc]
    · cases hb : s.tokBuf with
      | cons r rest => simp [consumerStepLogged, consumerStep, hc, hb]
      | nil =>
        by_cases hcl : s.tokClosed = true
        · by_cases hn : s.errorsNil = true
          · simp [consumerStepLogged, consumerStep, hc, hb, hcl, hn, sendFinishLogged,
              sendFinish, saveMessageLogged_fst]
          · simp [consumerStepLogged, consumerStep, hc, hb, hcl, hn]
        · simp [consumerStepLogged, consumerStep, hc, hb, hcl]
  | caseErrors =>
    by_cases hc : (s.exit.isSome || s.errorsNil) = true
    · simp [consumerStepLogged, consumerStep, hc]
    · cases hb : s.errBuf with
      | cons e rest =>
        simp [consumerStepLogged, consumerStep, hc, hb, onErrorLogged, onError,
          saveMessageLogged_fst]
      | nil =>
        by_cases hcl : s.errClosed = true
        · by_cases hn : s.tokensNil = true
          · simp [consumerStepLogged, consumerStep, hc, hb, hcl, hn, sendFinishLogged,
              sendFinish, saveMessageLogged_fst]
          · simp [consumerStepLogged, consumerStep, hc, hb, hcl, hn]
        · simp [consumerStepLogged, consumerStep, hc, hb, hcl]

theorem stepLogged_fst (Create : Nat → CreateMessageRequest → Option String)
    (ss : Session) (s : Sys) (c : Choice) :
    (stepLogged Create ss s c).map Prod.fst = step ss s c := by
  cases c with
  | reader => simp [stepLogged, step, Option.map_map, Function.comp_def]
  | cancel =>
    simp only [stepLogged, step]
    split <;> rfl
  | caseDone => exact consumerStepLogged_fst Create ss s Choice.caseDone
  | caseTokens => exact consumerStepLogged_fst Create ss s Choice.caseTokens
  | caseErrors => exact consumerStepLogged_fst Create ss s Choice.caseErrors

theorem runLogged_fst (Create : Nat → CreateMessageRequest → Option String)
    (ss : Session) (sched : List Choice) : ∀ s : Sys,
    (runLogged Create ss s sched).map Prod.fst = run ss s sched := by
  induction sched with
  | nil => intro s; rfl
  | cons c cs ih =>
    intro s
    have h1 := stepLogged_fst Create ss s c
    simp only [runLogged, run]
    cases hl : stepLogged Create ss s c with
    | none =>
      rw [hl] at h1
      simp at h1
      simp [← h1]
    | some r1 =>
      rw [hl] at h1
      simp at h1
      simp only [← h1]
      have h2 := ih r1.1
      cases hr : runLogged Create ss r1.1 cs with
      | none => rw [hr] at h2; simp at h2; simp [← h2]
      | some r2 => rw [hr] at h2; simp at h2; simp [← h2]

/-- C17: whatever `Create` returns, the session reaches the same state under
the same schedule: the events written to the client, the terminal event among
them, the calls of `Create` and the exit taken are the same under two
behaviours of `Create` (only the lines logged may differ); `Create` is called at
most once, so a failed call is not retried; and once the consumer has returned
no step writes an event or calls `Create`. -/
theorem C17_create_failure_is_swallowed
    (Create1 Create2 : Nat → CreateMessageRequest → Option String)
    (U : String → Option (List Delta)) (ss : Session) (u : Upstream) (sched : List Choice)
    (s : Sys) (log1 : List String)
    (hrun : sessionLogged Create1 U ss u sched = some (s, log1)) :
    (∃ log2, sessionLogged Create2 U ss u sched = some (s, log2)) ∧
    session U ss u sched = some s ∧
    s.creates.length ≤ 1 ∧
    (∀ c r, s.exit.isSome = true → stepLogged Create1 ss s c = some r →
      r.1.written = s.written ∧ r.1.creates = s.creates ∧ r.1.exit = s.exit) := by
  have hs : session U ss u sched = some s := by
    have h := runLogged_fst Create1 ss sched (init ss (readerScript U u))
    unfold sessionLogged at hrun
    rw [hrun] at h
    simpa [session] using h.symm
  refine ⟨?_, hs, ?_, ?_⟩
  · have h := runLogged_fst Create2 ss sched (init ss (readerScript U u))
    unfold session at hs
    rw [hs] at h
    unfold sessionLogged
    cases hr : runLogged Create2 ss (init ss (readerScript U u)) sched with
    | none => rw [hr] at h; simp at h
    | some r2 =>
      rw [hr] at h
      simp at h
      exact ⟨r2.2, by rw [← h]⟩
  · obtain ⟨recv, hinv⟩ := session_inv hs
    exact (inv_creates hinv).1
  · intro c r hex hr
    have h := stepLogged_fst Create1 ss s c
    rw [hr] at h
    simp at h
    have := step_after_exit hex h.symm
    exact ⟨this.1, this.2.1, this.2.2.1⟩

theorem C17_witness :
    (∃ log2, sessionLogged workingCreate sampleUnmarshal sampleSession
        (Upstream.response 200 helloBody) helloSched = some (helloFinal, log2)) ∧
    session sampleUnmarshal sampleSession (Upstream.response 200 helloBody) helloSched =
      some helloFinal ∧
    helloFinal.creates.length ≤ 1 :=
  ⟨(C17_create_failure_is_swallowed failingCreate workingCreate sampleUnmarshal sampleSession
      (Upstream.response 200 helloBody) helloSched helloFinal ["保存AI回答失败: db down"]
      (by decide)).1,
   (C17_create_failure_is_swallowed failingCreate workingCreate sampleUnmarshal sampleSession
      (Upstream.response 200 helloBody) helloSched helloFinal ["保存AI回答失败: db down"]
      (by decide)).2.1,
   (C17_create_failure_is_swallowed failingCreate workingCreate sampleUnmarshal sampleSession
      (Upstream.response 200 helloBody) helloSched helloFinal ["保存AI回答失败: db down"]
      (by decide)).2.2.1⟩

/-! ## Requests, the message store, the reader after the consumer, and tokens: theorems -/

theorem fillDefaults_fields (cfgModel : String) (req : ChatRequest) :
    (fillDefaults cfgModel req).Messages = req.Messages ∧
    (fillDefaults cfgModel req).Stream = req.Stream ∧
    (fillDefaults cfgModel req).Model = some (req.Model.getD cfgModel) ∧
    (fillDefaults cfgModel req).Temperature = some (req.Temperature.getD 0.7) ∧
    (fillDefaults cfgModel req).Thinking = some (req.Thinking.getD "enabled") := by
  obtain ⟨ms, m, t, st, th⟩ := req
  cases m <;> cases t <;> cases th <;> simp [fillDefaults]

/-- The claim C21 as stated fails: a body of `POST /stream` with temperature 5
and thinking type "maybe" is sent upstream with these two values. -/
theorem C21_counterexample :
    (streamReq "deepseek-chat" (postChatReq [⟨"user", "hi"⟩]
      { ConversationID := none, Model := none, Temperature := some 5, Message := "hi",
        FixedPromptID := none, Thinking := some "maybe",
        UseFixedPrompt := false })).Temperature = some 5 ∧
    (streamReq "deepseek-chat" (postChatReq [⟨"user", "hi"⟩]
      { ConversationID := none, Model := none, Temperature := some 5, Message := "hi",
        FixedPromptID := none, Thinking := some "maybe",
        UseFixedPrompt := false })).Thinking = some "maybe" ∧
    ¬ ((5 : Rat) ≤ 2) ∧ ("maybe" : String) ≠ "enabled" ∧ ("maybe" : String) ≠ "disabled" ∧
    (streamReq "deepseek-chat" (getChatReq [⟨"user", "hi"⟩] "maybe")).Thinking =
      some "maybe" := by
  refine ⟨rfl, rfl, by norm_num, by decide, by decide, rfl⟩

/-- C21, as amended: the request sent upstream by `POST /stream` carries the
temperature of the body when there is one, whatever its value, and 0.7
otherwise, and the thinking type of the body when there is one, whatever the
string, and "enabled" otherwise; the request sent by `GET /stream/:id` carries
temperature 0.7 and the `thinking` query parameter when it is non-empty,
"enabled" otherwise.  So the request conforms to the data model exactly when the
values supplied by the client do. -/
theorem C21_client_values_pass_through (cfgModel : String) (chatMessages : List Message)
    (req : StreamChatRequest) (thinkingType : String) :
    (streamReq cfgModel (postChatReq chatMessages req)).Temperature =
      some (req.Temperature.getD 0.7) ∧
    (streamReq cfgModel (postChatReq chatMessages req)).Thinking =
      some (req.Thinking.getD "enabled") ∧
    (streamReq cfgModel (getChatReq chatMessages thinkingType)).Temperature = some 0.7 ∧
    (streamReq cfgModel (getChatReq chatMessages thinkingType)).Thinking =
      some (if thinkingType ≠ "" then thinkingType else "enabled") ∧
    (conforms (streamReq cfgModel (postChatReq chatMessages req)) ↔
      ((∀ t, req.Temperature = some t → 0 ≤ t ∧ t ≤ 2) ∧
       (∀ m, req.Thinking = some m → m = "enabled" ∨ m = "disabled"))) ∧
    (conforms (streamReq cfgModel (getChatReq chatMessages thinkingType)) ↔
      (thinkingType = "" ∨ thinkingType = "enabled" ∨ thinkingType = "disabled")) := by
  have hp := fillDefaults_fields cfgModel (postChatReq chatMessages req)
  have hg := fillDefaults_fields cfgModel (getChatReq chatMessages thinkingType)
  have hpt : (streamReq cfgModel (postChatReq chatMessages req)).Temperature =
      some (req.Temperature.getD 0.7) := hp.2.2.2.1
  have hpk : (streamReq cfgModel (postChatReq chatMessages req)).Thinking =
      some (req.Thinking.getD "enabled") := hp.2.2.2.2
  have hgt : (streamReq cfgModel (getChatReq chatMessages thinkingType)).Temperature =
      some 0.7 := by
    have h := hg.2.2.2.1
    have h0 : (getChatReq chatMessages thinkingType).Temperature = none := by
      unfold getChatReq; split <;> rfl
    rw [h0] at h
    exact h
  have hgk : (streamReq cfgModel (getChatReq chatMessages thinkingType)).Thinking =
      some (if thinkingType ≠ "" then thinkingType else "enabled") := by
    have h := hg.2.2.2.2
    have h0 : (getChatReq chatMessages thinkingType).Thinking =
        if thinkingType ≠ "" then some thinkingType else none := by
      unfold getChatReq; split <;> rfl
    rw [h0] at h
    by_cases hq : thinkingType = ""
    · simpa [hq] using h
    · simpa [hq] using h
  refine ⟨hpt, hpk, hgt, hgk, ?_, ?_⟩
  · unfold conforms
    rw [hpt, hpk]
    constructor
    · rintro ⟨h1, h2⟩
      refine ⟨?_, ?_⟩
      · intro t ht
        exact h1 t (by simp [ht])
      · intro m hm
        exact h2 m (by simp [hm])
    · rintro ⟨h1, h2⟩
      refine ⟨?_, ?_⟩
      · intro t ht
        cases hT : req.Temperature with
        | none =>
          rw [hT] at ht
          simp at ht
          subst ht
          norm_num
        | some t0 =>
          rw [hT] at ht
          simp at ht
          subst ht
          exact h1 t0 hT
      · intro m hm
        cases hK : req.Thinking with
        | none =>
          rw [hK] at hm
          simp at hm
          left; exact hm.symm
        | some m0 =>
          rw [hK] at hm
          simp at hm
          subst hm
          exact h2 m0 hK
  · unfold conforms
    rw [hgt, hgk]
    constructor
    · rintro ⟨_, h2⟩
      by_cases hq : thinkingType = ""
      · left; exact hq
      · right
        exact h2 thinkingType (by simp [hq])
    · intro h
      refine ⟨?_, ?_⟩
      · intro t ht
        simp at ht
        subst ht
        norm_num
      · intro m hm
        by_cases hq : thinkingType = ""
        · simp [hq] at hm
          left; exact hm.symm
        · simp [hq] at hm
          subst hm
          rcases h with h | h
          · exact absurd h hq
          · exact h

theorem C21_witness :
    (streamReq "deepseek-chat" (postChatReq [⟨"user", "hi"⟩]
      { ConversationID := none, Model := none, Temperature := some 1, Message := "hi",
        FixedPromptID := none, Thinking := some "disabled",
        UseFixedPrompt := false })).Temperature =
      some ((some (1 : Rat)).getD 0.7) ∧
    (streamReq "deepseek-chat" (getChatReq [⟨"user", "hi"⟩] "disabled")).Thinking =
      some (if ("disabled" : String) ≠ "" then "disabled" else "enabled") :=
  ⟨(C21_client_values_pass_through "deepseek-chat" [⟨"user", "hi"⟩]
      { ConversationID := none, Model := none, Temperature := some 1, Message := "hi",
        FixedPromptID := none, Thinking := some "disabled", UseFixedPrompt := false }
      "disabled").1,
   (C21_client_values_pass_through "deepseek-chat" [⟨"user", "hi"⟩]
      { ConversationID := none, Model := none, Temperature := some 1, Message := "hi",
        FixedPromptID := none, Thinking := some "disabled", UseFixedPrompt := false }
      "disabled").2.2.2.1⟩

/-- C23: the request `StreamChat` marshals and sends has the caller's model when
given and the configured model otherwise, the caller's temperature when given
and 0.7 otherwise, the caller's thinking type when given and "enabled"
otherwise, the stream flag true whatever the caller's was, and the caller's
messages, unchanged and in the same order. -/
theorem C23_upstream_request_defaults (cfgModel : String) (req : ChatRequest) :
    (streamReq cfgModel req).Model = some (req.Model.getD cfgModel) ∧
    (streamReq cfgModel req).Temperature = some (req.Temperature.getD 0.7) ∧
    (streamReq cfgModel req).Thinking = some (req.Thinking.getD "enabled") ∧
    (streamReq cfgModel req).Stream = true ∧
    (streamReq cfgModel req).Messages = req.Messages ∧
    (∀ m, req.Model = some m → (streamReq cfgModel req).Model = some m) ∧
    (req.Model = none → (streamReq cfgModel req).Model = some cfgModel) := by
  have h := fillDefaults_fields cfgModel req
  refine ⟨h.2.2.1, h.2.2.2.1, h.2.2.2.2, rfl, h.1, ?_, ?_⟩
  · intro m hm
    have := h.2.2.1
    rw [hm] at this
    exact this
  · intro hm
    have := h.2.2.1
    rw [hm] at this
    exact this

theorem C23_witness :
    (streamReq "deepseek-chat" sampleRequest).Model = some "deepseek-chat" :=
  (C23_upstream_request_defaults "deepseek-chat" sampleRequest).2.2.2.2.2.2 rfl

/-- C29: in a streaming session every call of `Create` carries a model, which is
the model of the request sent upstream: the model the caller gave when there is
one, the configured model otherwise. -/
theorem C29_saved_model_is_upstream_model (U : String → Option (List Delta))
    (cfgModel : String) (userID conversationID : Nat) (chatReq : ChatRequest)
    (messageType : String) (u : Upstream) (sched : List Choice) (s : Sys)
    (hrun : session U (processSession cfgModel userID conversationID chatReq messageType) u
      sched = some s) :
    ∀ call ∈ s.creates,
      call.msgReq.Model = some (chatReq.Model.getD cfgModel) ∧
      call.msgReq.Model = (streamReq cfgModel chatReq).Model ∧
      call.msgReq.Model ≠ none := by
  obtain ⟨recv, hinv⟩ := session_inv hrun
  have hf := (fillDefaults_fields cfgModel chatReq).2.2.1
  intro call hcall
  have hc := hinv.creates
  rw [hc] at hcall
  have hm : call.msgReq.Model = (fillDefaults cfgModel chatReq).Model := by
    split at hcall
    · unfold savedCalls at hcall
      split at hcall
      · simp at hcall
      · simp at hcall
        subst hcall
        rfl
    · simp at hcall
  refine ⟨by rw [hm, hf], hm, by rw [hm, hf]; simp⟩

theorem C29_witness :
    helloCall.msgReq.Model = some (sampleRequest.Model.getD "deepseek-chat") ∧
    helloCall.msgReq.Model = (streamReq "deepseek-chat" sampleRequest).Model ∧
    helloCall.msgReq.Model ≠ none :=
  C29_saved_model_is_upstream_model sampleUnmarshal "deepseek-chat" 7 42 sampleRequest
    "message" (Upstream.response 200 helloBody) helloSched helloFinal (by decide) helloCall
    (by decide)

theorem buildChatMessages_ok (h : List MessageResponse) (systemPrompt currentMessage : String) :
    buildChatMessages (Except.ok h) systemPrompt currentMessage =
      Except.ok ((if systemPrompt ≠ "" then [(⟨"system", systemPrompt⟩ : Message)] else []) ++
        h.map (fun msg => (⟨msg.Type_, msg.Content⟩ : Message)) ++
        (if currentMessage ≠ "" then [(⟨"user", currentMessage⟩ : Message)] else [])) := by
  simp only [buildChatMessages]
  by_cases h1 : systemPrompt = "" <;> by_cases h2 : currentMessage = "" <;> simp [h1, h2]

/-- C24: when the history lookup succeeds with `h`, `buildChatMessages` returns
the system message when the system prompt is non-empty, then one message per
element of `h`, in order, with the stored type as role and the stored content,
then the user message when the current message is non-empty; the length is that
of `h` plus one for each of the two that is present; when the lookup fails it
returns the error of the lookup and no message. -/
theorem C24_buildChatMessages (h : List MessageResponse) (err : String)
    (systemPrompt currentMessage : String) :
    buildChatMessages (Except.ok h) systemPrompt currentMessage =
      Except.ok ((if systemPrompt ≠ "" then [(⟨"system", systemPrompt⟩ : Message)] else []) ++
        h.map (fun msg => (⟨msg.Type_, msg.Content⟩ : Message)) ++
        (if currentMessage ≠ "" then [(⟨"user", currentMessage⟩ : Message)] else [])) ∧
    ((if systemPrompt ≠ "" then [(⟨"system", systemPrompt⟩ : Message)] else []) ++
        h.map (fun msg => (⟨msg.Type_, msg.Content⟩ : Message)) ++
        (if currentMessage ≠ "" then [(⟨"user", currentMessage⟩ : Message)] else [])).length =
      h.length + (if systemPrompt ≠ "" then 1 else 0) +
        (if currentMessage ≠ "" then 1 else 0) ∧
    buildChatMessages (Except.error err) systemPrompt currentMessage = Except.error err := by
  refine ⟨buildChatMessages_ok h systemPrompt currentMessage, ?_, rfl⟩
  · by_cases h1 : systemPrompt = "" <;> by_cases h2 : currentMessage = "" <;>
      simp [h1, h2]

theorem countOwned_eq_zero_iff (db : DB) (conversationID userID : Nat) :
    countOwned db conversationID userID = 0 ↔
      ∀ c ∈ db.conversations,
        ¬ ((conversationID = 0 ∨ c.ID = conversationID) ∧ (userID = 0 ∨ c.UserID = userID)) := by
  unfold countOwned
  rw [List.length_eq_zero, List.filter_eq_nil_iff]
  simp

theorem countOwned_of_set (db : DB) (conversationID userID : Nat)
    (hcid : conversationID ≠ 0) (huid : userID ≠ 0) :
    countOwned db conversationID userID = 0 ↔
      ∀ c ∈ db.conversations, ¬ (c.ID = conversationID ∧ c.UserID = userID) := by
  rw [countOwned_eq_zero_iff]
  simp [hcid, huid]

/-- The method `MessageService.Create` where both fields of the struct condition
are set. -/
theorem Create_with_both_fields_set (w : Nat) (faults : Faults) (db : DB) (userID : Nat)
    (req : CreateMessageRequest) (hcid : req.ConversationID ≠ 0) (huid : userID ≠ 0) :
    ((∀ c ∈ db.conversations, ¬ (c.ID = req.ConversationID ∧ c.UserID = userID)) →
      (∃ err, MessageService.Create w faults db userID req = (Except.error err, db)) ∧
      (faults.count = none →
        MessageService.Create w faults db userID req =
          (Except.error "无权向该会话发送消息", db))) ∧
    (∀ err, (MessageService.Create w faults db userID req).1 = Except.error err →
      (MessageService.Create w faults db userID req).2 = db) ∧
    ((∃ c ∈ db.conversations, c.ID = req.ConversationID ∧ c.UserID = userID) →
      faults = noFaults →
      ∃ row, MessageService.Create w faults db userID req =
          (Except.ok (toResponse row),
            { db with messages := db.messages ++ [row], seq := db.seq + 1 }) ∧
        row.ConversationID = req.ConversationID ∧ row.Content = req.Content ∧
        row.ReasoningContent = req.ReasoningContent ∧ row.Type_ = req.Type_ ∧
        row.Model = req.Model ∧ row.ParentID = req.ParentID) := by
  refine ⟨?_, ?_, ?_⟩
  · intro hno
    have h0 := (countOwned_of_set db req.ConversationID userID hcid huid).2 hno
    refine ⟨?_, ?_⟩
    · cases hc : faults.count with
      | some e =>
        exact ⟨"验证会话归属权失败: " ++ e, by simp [MessageService.Create, hc]⟩
      | none => exact ⟨"无权向该会话发送消息", by simp [MessageService.Create, hc, h0]⟩
    · intro hc
      simp [MessageService.Create, hc, h0]
  · intro err herr
    cases hc : faults.count with
    | some e => simp [MessageService.Create, hc]
    | none =>
      by_cases h0 : countOwned db req.ConversationID userID = 0
      · simp [MessageService.Create, hc, h0]
      · cases hp : faults.pluck with
        | some e => simp [MessageService.Create, hc, h0, NextSort, hp]
        | none =>
          cases hk : faults.create with
          | some e => simp [MessageService.Create, hc, h0, NextSort, hp, hk]
          | none => simp [MessageService.Create, hc, h0, NextSort, hp, hk] at herr
  · rintro ⟨c, hc, hid, huid2⟩ hf
    subst hf
    have hne : countOwned db req.ConversationID userID ≠ 0 := by
      intro h0
      exact (countOwned_of_set db req.ConversationID userID hcid huid).1 h0 c hc ⟨hid, huid2⟩
    refine ⟨{ ID := db.seq, ConversationID := req.ConversationID, Content := req.Content,
              ReasoningContent := req.ReasoningContent,
              Sort_ := wrapInt w ((maxSort (rowsOf db req.ConversationID)).getD 0 + 1),
              Type_ := req.Type_, Model := req.Model, ParentID := req.ParentID },
      ?_, rfl, rfl, rfl, rfl, rfl, rfl⟩
    simp [MessageService.Create, noFaults, hne, NextSort]

/-- C22: the ownership check of `MessageService.Create` refuses user 8, who asks
for a message in conversation 42 of user 7, and leaves the database as it was;
but at identifier 0 it counts the conversations of the user whatever their
identifier: user 7, who owns conversation 42 only, asks for a message in
conversation 0, which no one owns; the count is 1, the call succeeds and a row
of conversation 0 is appended to the messages. -/
theorem C22_create_in_conversation_zero :
    MessageService.Create 64 noFaults sampleDB 8
        { ConversationID := 42, Content := "mine", ReasoningContent := "", Type_ := "user",
          Model := none } =
      (Except.error "无权向该会话发送消息", sampleDB) ∧
    (∀ c ∈ sampleDB.conversations, ¬ (c.ID = 0 ∧ c.UserID = 7)) ∧
    countOwned sampleDB 0 7 = 1 ∧
    MessageService.Create 64 noFaults sampleDB 7
        { ConversationID := 0, Content := "zero", ReasoningContent := "", Type_ := "user",
          Model := none } =
      (Except.ok
          { ID := 3, ConversationID := 0, Content := "zero", ReasoningContent := "",
            Sort_ := 1, Type_ := "user", Model := none, ParentID := none },
        { sampleDB with
          messages := sampleDB.messages ++
            [{ ID := 3, ConversationID := 0, Content := "zero", ReasoningContent := "",
               Sort_ := 1, Type_ := "user", Model := none, ParentID := none }],
          seq := 4 }) := by
  refine ⟨rfl, by decide, rfl, rfl⟩

theorem wrapInt_of_fits (w : Nat) (x : Int) (hw : 0 < w) (h : fitsInt w x) :
    wrapInt w x = x := by
  obtain ⟨hlo, hhi⟩ := h
  unfold wrapInt
  have hpow : (2 : Int) ^ w = 2 ^ (w - 1) + 2 ^ (w - 1) := by
    obtain ⟨k, rfl⟩ : ∃ k, w = k + 1 := ⟨w - 1, by omega⟩
    simp [pow_succ]
    ring
  rw [Int.emod_eq_of_lt (by omega) (by omega)]
  omega

theorem orderedInsert_append_last {α : Type} (r : α → α → Prop) [DecidableRel r] (a x : α)
    (l : List α) (h : r a x) :
    List.orderedInsert r a (l ++ [x]) = List.orderedInsert r a l ++ [x] := by
  induction l with
  | nil => simp [List.orderedInsert, h]
  | cons b l ih =>
    by_cases hab : r a b
    · simp [List.orderedInsert, hab]
    · simp [List.orderedInsert, hab, ih]

theorem insertionSort_append_last {α : Type} (r : α → α → Prop) [DecidableRel r] (x : α)
    (l : List α) (h : ∀ a ∈ l, r a x) :
    List.insertionSort r (l ++ [x]) = List.insertionSort r l ++ [x] := by
  induction l with
  | nil => simp [List.insertionSort]
  | cons b l ih =>
    have hb : r b x := h b (by simp)
    have hl : ∀ a ∈ l, r a x := fun a ha => h a (by simp [ha])
    have hstep : List.insertionSort r (b :: l ++ [x]) =
        List.orderedInsert r b (List.insertionSort r (l ++ [x])) := rfl
    rw [hstep, ih hl, orderedInsert_append_last r b x _ hb]
    rfl

theorem le_maxSort (rows : List RepoMessage) :
    ∀ m ∈ rows, m.Sort_ ≤ (maxSort rows).getD 0 := by
  induction rows with
  | nil => simp
  | cons a rows ih =>
    intro m hm
    simp only [maxSort]
    cases hms : maxSort rows with
    | none =>
      cases rows with
      | nil =>
        simp at hm
        subst hm
        simp
      | cons b rows2 =>
        simp only [maxSort] at hms
        split at hms <;> simp at hms
    | some x =>
      rw [hms] at ih
      simp only [Option.getD_some] at ih ⊢
      rcases List.mem_cons.1 hm with rfl | hm2
      · exact le_max_left _ _
      · exact le_trans (ih m hm2) (le_max_right _ _)

/-- When the sum `maxSort + 1` leaves the type `int`, the new row gets the
smallest value of `sort` and the history read after the append starts with it:
the store does not return the appended message in order. -/
theorem history_after_overflow :
    ∃ row,
      MessageService.Create 64 noFaults fullSortDB 7
          { ConversationID := 42, Content := "again", ReasoningContent := "", Type_ := "user",
            Model := none } =
        (Except.ok (toResponse row),
          { fullSortDB with messages := fullSortDB.messages ++ [row], seq := 3 }) ∧
      row.Sort_ = -9223372036854775808 ∧
      (MessageService.FindByConversationID noFaults
          { fullSortDB with messages := fullSortDB.messages ++ [row], seq := 3 } 7 42).toOption.map
          (fun h => h.map (fun m => m.Content)) = some ["again", "hi"] :=
  ⟨{ ID := 2, ConversationID := 42, Content := "again", ReasoningContent := "",
     Sort_ := -9223372036854775808, Type_ := "user", Model := none, ParentID := none },
    rfl, rfl, by decide⟩

/-- C26: in `POST /stream`, when the ownership check of the message service
passes, the message is not empty, the database answers every query and the sum
`maxSort + 1` is a value of the type `int` (the case in which the store returns
every appended message in order), the handler first appends the user message to
the messages, then reads the history, which is the history of before followed by
that message; the list of messages it sends on is the system message when a
system prompt applies, the messages of the history of before, and then two user
messages carrying the current input, the one read back and the one appended as
current message; its length is that of the history of before plus two, plus one
when a system prompt applies. -/
theorem C26_user_message_twice (w : Nat)
    (FindByID : Nat → Nat → Except String FixedPromptResponse)
    (db : DB) (userID conversationID : Nat) (req : StreamChatRequest)
    (hw : 0 < w)
    (hpass : countOwned db conversationID userID ≠ 0)
    (hroom : fitsInt w ((maxSort (rowsOf db conversationID)).getD 0 + 1))
    (hmsg : req.Message ≠ "") :
    ∃ h row chatReq,
      MessageService.FindByConversationID noFaults db userID conversationID = Except.ok h ∧
      StreamChatFrom w noFaults noFaults FindByID db userID conversationID req =
        Prepared.ready { db with messages := db.messages ++ [row], seq := db.seq + 1 }
          conversationID chatReq ∧
      row.ConversationID = conversationID ∧ row.Type_ = "user" ∧
      row.Content = req.Message ∧
      MessageService.FindByConversationID noFaults
          { db with messages := db.messages ++ [row], seq := db.seq + 1 } userID
          conversationID = Except.ok (h ++ [toResponse row]) ∧
      chatReq.Messages =
        (if resolveSystemPrompt FindByID userID req ≠ "" then
            [(⟨"system", resolveSystemPrompt FindByID userID req⟩ : Message)] else []) ++
          h.map (fun msg => (⟨msg.Type_, msg.Content⟩ : Message)) ++
          [⟨"user", req.Message⟩, ⟨"user", req.Message⟩] ∧
      chatReq.Messages.length =
        (if resolveSystemPrompt FindByID userID req ≠ "" then 1 else 0) + h.length + 2 := by
  have hne := hpass
  have hsum := wrapInt_of_fits w _ hw hroom
  let row : RepoMessage :=
    { ID := db.seq, ConversationID := conversationID, Content := req.Message,
      ReasoningContent := "", Sort_ := (maxSort (rowsOf db conversationID)).getD 0 + 1,
      Type_ := "user", Model := none, ParentID := none }
  let db1 : DB := { db with messages := db.messages ++ [row], seq := db.seq + 1 }
  have hcreate : MessageService.Create w noFaults db userID
      { ConversationID := conversationID, Content := req.Message, ReasoningContent := "",
        Type_ := "user", Model := none } = (Except.ok (toResponse row), db1) := by
    simp [MessageService.Create, noFaults, hne, NextSort, hsum, row, db1]
  have hrows : rowsOf db1 conversationID = rowsOf db conversationID ++ [row] := by
    simp [rowsOf, db1, List.filter_append, row]
  have hsorted : (rowsOf db1 conversationID).insertionSort (fun a b => a.Sort_ ≤ b.Sort_) =
      (rowsOf db conversationID).insertionSort (fun a b => a.Sort_ ≤ b.Sort_) ++ [row] := by
    rw [hrows]
    apply insertionSort_append_last
    intro a ha
    have := le_maxSort (rowsOf db conversationID) a ha
    show a.Sort_ ≤ (maxSort (rowsOf db conversationID)).getD 0 + 1
    omega
  have hne1 : countOwned db1 conversationID userID ≠ 0 := hne
  have hbefore : MessageService.FindByConversationID noFaults db userID conversationID =
      Except.ok (((rowsOf db conversationID).insertionSort
        (fun a b => a.Sort_ ≤ b.Sort_)).map toResponse) := by
    simp [MessageService.FindByConversationID, noFaults, hne]
  have hafter : MessageService.FindByConversationID noFaults db1 userID conversationID =
      Except.ok (((rowsOf db conversationID).insertionSort
        (fun a b => a.Sort_ ≤ b.Sort_)).map toResponse ++ [toResponse row]) := by
    simp [MessageService.FindByConversationID, noFaults, hne1, hsorted]
  have hbuild := buildChatMessages_ok
    (((rowsOf db conversationID).insertionSort
      (fun a b => a.Sort_ ≤ b.Sort_)).map toResponse ++ [toResponse row])
    (resolveSystemPrompt FindByID userID req) req.Message
  refine ⟨_, row, postChatReq
    ((if resolveSystemPrompt FindByID userID req ≠ "" then
        [(⟨"system", resolveSystemPrompt FindByID userID req⟩ : Message)] else []) ++
      (((rowsOf db conversationID).insertionSort
        (fun a b => a.Sort_ ≤ b.Sort_)).map toResponse ++ [toResponse row]).map
        (fun msg => (⟨msg.Type_, msg.Content⟩ : Message)) ++
      (if req.Message ≠ "" then [(⟨"user", req.Message⟩ : Message)] else [])) req,
    hbefore, ?_, rfl, rfl, rfl, hafter, ?_, ?_⟩
  · simp only [StreamChatFrom, hcreate, hafter, hbuild]
  · simp [postChatReq, hmsg, toResponse, row]
  · by_cases hs : resolveSystemPrompt FindByID userID req = "" <;>
      (simp [postChatReq, hmsg, hs] <;> try omega)

theorem C26_witness :
    ∃ h row chatReq,
      MessageService.FindByConversationID noFaults sampleDB 7 42 = Except.ok h ∧
      StreamChatFrom 64 noFaults noFaults (fun _ _ => Except.error "not found") sampleDB 7 42
          { ConversationID := some 42, Model := none, Temperature := none,
            Message := "again", FixedPromptID := none, Thinking := none,
            UseFixedPrompt := false } =
        Prepared.ready
          { sampleDB with messages := sampleDB.messages ++ [row], seq := sampleDB.seq + 1 }
          42 chatReq ∧
      row.ConversationID = 42 ∧ row.Type_ = "user" ∧ row.Content = "again" ∧
      MessageService.FindByConversationID noFaults
          { sampleDB with messages := sampleDB.messages ++ [row], seq := sampleDB.seq + 1 }
          7 42 = Except.ok (h ++ [toResponse row]) ∧
      chatReq.Messages =
        (if resolveSystemPrompt (fun _ _ => Except.error "not found") 7
              { ConversationID := some 42, Model := none, Temperature := none,
                Message := "again", FixedPromptID := none, Thinking := none,
                UseFixedPrompt := false } ≠ "" then
            [(⟨"system", resolveSystemPrompt (fun _ _ => Except.error "not found") 7
              { ConversationID := some 42, Model := none, Temperature := none,
                Message := "again", FixedPromptID := none, Thinking := none,
                UseFixedPrompt := false }⟩ : Message)] else []) ++
          h.map (fun msg => (⟨msg.Type_, msg.Content⟩ : Message)) ++
          [⟨"user", "again"⟩, ⟨"user", "again"⟩] ∧
      chatReq.Messages.length =
        (if resolveSystemPrompt (fun _ _ => Except.error "not found") 7
              { ConversationID := some 42, Model := none, Temperature := none,
                Message := "again", FixedPromptID := none, Thinking := none,
                UseFixedPrompt := false } ≠ "" then 1 else 0) + h.length + 2 :=
  C26_user_message_twice 64 (fun _ _ => Except.error "not found") sampleDB 7 42
    { ConversationID := some 42, Model := none, Temperature := none, Message := "again",
      FixedPromptID := none, Thinking := none, UseFixedPrompt := false }
    (by decide) (by decide) ⟨by decide, by decide⟩ (by decide)

theorem readStrings_lines_eq_nil (cs : List Char) :
    (readStrings cs).1 = [] ↔ '\n' ∉ cs := by
  induction cs with
  | nil => simp [readStrings]
  | cons c cs ih =>
    by_cases hc : c = '\n'
    · simp [readStrings, hc]
    · have hc2 : ¬ '\n' = c := fun h => hc h.symm
      cases hl : (readStrings cs).1 with
      | nil =>
        have := ih.1 hl
        simp [readStrings, hc, hl, hc2, this]
      | cons l ls =>
        have : '\n' ∈ cs := by
          by_contra hn
          have := ih.2 hn
          rw [hl] at this
          simp at this
        simp [readStrings, hc, hl, this]

theorem readStrings_upToLastNewline (cs : List Char) :
    readStrings (upToLastNewline cs) = ((readStrings cs).1, "") := by
  induction cs with
  | nil => simp [readStrings, upToLastNewline]
  | cons c cs ih =>
    by_cases hc : c = '\n'
    · subst hc
      simp [upToLastNewline, readStrings, ih]
    · have hc2 : ¬ '\n' = c := fun h => hc h.symm
      by_cases hmem : '\n' ∈ cs
      · have hne : (readStrings cs).1 ≠ [] := fun h => (readStrings_lines_eq_nil cs).1 h hmem
        cases hl : (readStrings cs).1 with
        | nil => exact absurd hl hne
        | cons l ls =>
          simp [upToLastNewline, hmem, readStrings, hc, ih, hl]
      · have hnil := (readStrings_lines_eq_nil cs).2 hmem
        simp [upToLastNewline, hmem, hc2, readStrings, hc, hnil]

/-- C27: the reader works on the lines ended by a newline only: for all bytes
received and every end of the reading, it does what it does on the bytes up to
the last newline; the bytes after the last newline never count, whatever they
are; so a last line without newline is dropped at end of stream even when it is
a data frame that decodes to non-empty content, which yields its token as soon
as the newline is there. -/
theorem C27_only_terminated_lines (U : String → Option (List Delta)) (data : String)
    (err : ReadErr) :
    readerScript U (Upstream.response 200 (bodyOf data err)) =
      readerScript U (Upstream.response 200 (bodyOf ⟨upToLastNewline data.data⟩ err)) ∧
    (∀ lines last, readerScript U (Upstream.response 200 ⟨lines, last, err⟩) =
      readerScript U (Upstream.response 200 ⟨lines, "", err⟩)) ∧
    readerTokens sampleUnmarshal (Upstream.response 200
      (bodyOf "data: \x7b\"choices\":[\x7b\"delta\":\x7b\"content\":\"Hel\"\x7d\x7d]\x7d"
        ReadErr.EOF)) = [] ∧
    readerTokens sampleUnmarshal (Upstream.response 200
      (bodyOf "data: \x7b\"choices\":[\x7b\"delta\":\x7b\"content\":\"Hel\"\x7d\x7d]\x7d\n"
        ReadErr.EOF)) = [⟨"Hel", "content"⟩] := by
  refine ⟨?_, ?_, by decide, by decide⟩
  · simp [readerScript, readerBody, bodyOf, readStrings_upToLastNewline]
  · intro lines last
    simp [readerScript, readerBody]

theorem floodRun :
    session sampleUnmarshal sampleSession (Upstream.response 200 floodBody) floodSched =
      some floodFinal := by
  decide

theorem cap_readerStep {s s1 : Sys} (h : s.tokBuf.length ≤ responsesCap)
    (hs : readerStep s = some s1) : s1.tokBuf.length ≤ responsesCap := by
  unfold readerStep at hs
  split at hs
  · simp at hs
  · split at hs
    · simp at hs
    · split at hs
      · rename_i hlt
        simp at hs
        subst hs
        simp
        omega
      · simp at hs
  · split at hs
    · simp at hs
    · split at hs
      · simp at hs; subst hs; exact h
      · simp at hs
  · split at hs
    · simp at hs
    · simp at hs; subst hs; exact h
  · split at hs
    · simp at hs
    · simp at hs; subst hs; exact h

theorem cap_step {ss : Session} {s s1 : Sys} {c : Choice}
    (h : s.tokBuf.length ≤ responsesCap) (hs : step ss s c = some s1) :
    s1.tokBuf.length ≤ responsesCap := by
  cases c with
  | reader => exact cap_readerStep h hs
  | cancel =>
    simp [step] at hs
    obtain ⟨_, rfl⟩ := hs
    exact h
  | caseDone =>
    simp [step, consumerStep, saveMessage_eq] at hs
    obtain ⟨_, _, rfl⟩ := hs
    exact h
  | caseTokens =>
    by_cases hc : (s.exit.isSome || s.tokensNil) = true
    · simp [step, consumerStep, hc] at hs
    · cases hb : s.tokBuf with
      | cons r rest =>
        simp [step, consumerStep, hc, hb, onToken] at hs
        subst hs
        rw [hb] at h
        simp at h ⊢
        omega
      | nil =>
        by_cases hcl : s.tokClosed = true
        · by_cases hn : s.errorsNil = true
          · simp [step, consumerStep, hc, hb, hcl, hn, sendFinish, saveMessage_eq] at hs
            subst hs
            simp [hb]
          · simp [step, consumerStep, hc, hb, hcl, hn] at hs
            subst hs
            simp [hb]
        · simp [step, consumerStep, hc, hb, hcl] at hs
  | caseErrors =>
    by_cases hc : (s.exit.isSome || s.errorsNil) = true
    · simp [step, consumerStep, hc] at hs
    · cases hb : s.errBuf with
      | cons e rest =>
        simp [step, consumerStep, hc, hb, onError, saveMessage_eq] at hs
        subst hs
        exact h
      | nil =>
        by_cases hcl : s.errClosed = true
        · by_cases hn : s.tokensNil = true
          · simp [step, consumerStep, hc, hb, hcl, hn, sendFinish, saveMessage_eq] at hs
            subst hs
            exact h
          · simp [step, consumerStep, hc, hb, hcl, hn] at hs
            subst hs
            exact h
        · simp [step, consumerStep, hc, hb, hcl] at hs

theorem cap_run {ss : Session} (sched : List Choice) : ∀ {s s1 : Sys},
    s.tokBuf.length ≤ responsesCap → run ss s sched = some s1 →
    s1.tokBuf.length ≤ responsesCap := by
  induction sched with
  | nil =>
    intro s s1 h hr
    simp [run] at hr
    subst hr
    exact h
  | cons c cs ih =>
    intro s s1 h hr
    simp only [run] at hr
    cases hst : step ss s c with
    | none => simp [hst] at hr
    | some s2 =>
      simp only [hst] at hr
      exact ih (cap_step h hst) hr

theorem session_cap {U : String → Option (List Delta)} {ss : Session} {u : Upstream}
    {sched : List Choice} {s : Sys} (h : session U ss u sched = some s) :
    s.tokBuf.length ≤ responsesCap :=
  cap_run sched (by simp [init]) h

/-- The reader can proceed whenever a token it has to send finds room in the
queue. -/
theorem inv_reader_enabled {ss : Session} {toks : List StreamResponse} {errs : List String}
    {s : Sys} {recv : List StreamResponse} (h : Inv ss toks errs s recv)
    (hp : s.pending ≠ [])
    (hroom : sentTokens s.pending ≠ [] → s.tokBuf.length < responsesCap) :
    (readerStep s).isSome = true := by
  obtain ⟨h1, h2, h3, h4, h5, h6, h7, h8, h9, h10, h11, h12, h13⟩ := h
  rcases h8 with ⟨ps, es, hpe, hec, htc⟩ | ⟨hpe, hec, htc⟩ | ⟨hpe, hec, htc⟩
  · cases ps with
    | cons r ps =>
      have hp2 : s.pending = ChanOp.sendResponse r :: canon ps es := by simpa [canon] using hpe
      have hlt := hroom (by simp [hp2, sentTokens])
      simp [readerStep, hp2, htc, hlt]
    | nil =>
      cases es with
      | cons e es =>
        have hp2 : s.pending = ChanOp.sendError e :: canon [] es := by simpa [canon] using hpe
        have heb : s.errBuf = [] := by
          rcases h7 with ⟨_, _, h7, _⟩ | ⟨_, h7b⟩
          · simp [hp2, sentErrors] at h7
          · have hlen := congrArg List.length h7b
            simp [hp2, sentErrors, sentErrors_canon] at hlen
            exact List.eq_nil_of_length_eq_zero (by omega)
        simp [readerStep, hp2, hec, heb, errorsCap]
      | nil =>
        have hp2 : s.pending = [ChanOp.closeErrors, ChanOp.closeResponses] := by
          simpa [canon] using hpe
        simp [readerStep, hp2, hec]
  · simp [readerStep, hpe, htc]
  · exact absurd hpe hp

/-- The reader is blocked when it has a token to send and the queue is full. -/
theorem inv_reader_blocked {ss : Session} {toks : List StreamResponse} {errs : List String}
    {s : Sys} {recv : List StreamResponse} (h : Inv ss toks errs s recv)
    (hp : sentTokens s.pending ≠ []) (hfull : s.tokBuf.length = responsesCap) :
    readerStep s = none := by
  rcases h.shape with ⟨ps, es, hpe, hec, htc⟩ | ⟨hpe, hec, htc⟩ | ⟨hpe, hec, htc⟩
  · cases ps with
    | cons r ps =>
      have hp2 : s.pending = ChanOp.sendResponse r :: canon ps es := by simpa [canon] using hpe
      simp [readerStep, hp2, htc, hfull]
    | nil =>
      rw [hpe, sentTokens_canon] at hp
      exact absurd rfl hp
  · simp [hpe, sentTokens] at hp
  · simp [hpe, sentTokens] at hp

/-- The claim C25 as stated fails: the upstream sends 101 content frames, the
client goes away at once and the consumer returns on the disconnect; the reader
fills the queue with 100 tokens and has a 101st to send; no step of the system is
enabled any more, so the reader stays blocked on that send and never closes the
queues. -/
theorem C25_counterexample :
    session sampleUnmarshal sampleSession (Upstream.response 200 floodBody) floodSched =
      some floodFinal ∧
    floodFinal.exit = some Exit.disconnect ∧
    floodFinal.tokBuf.length = responsesCap ∧
    floodFinal.pending = [ChanOp.sendResponse ⟨"Hel", "content"⟩, ChanOp.closeErrors,
      ChanOp.closeResponses] ∧
    step sampleSession floodFinal Choice.reader = none ∧
    step sampleSession floodFinal Choice.cancel = none ∧
    step sampleSession floodFinal Choice.caseDone = none ∧
    step sampleSession floodFinal Choice.caseTokens = none ∧
    step sampleSession floodFinal Choice.caseErrors = none := by
  decide

/-- C25, as amended: once the consumer has returned, on disconnect or otherwise,
the tokens buffered and the tokens the reader has still to send are together the
tokens the consumer has not received, and their number no longer changes.  When
they are at most 100, the capacity of the queue, the reader is never blocked: as
long as it has an operation left it can perform it, so it goes on to close both
queues.  When they are more than 100, the reader never finishes: it can send
while the queue has room, and once the queue is full no step of the system but a
disconnect is enabled, so it stays blocked on its send. -/
theorem C25_reader_after_consumer_returned (U : String → Option (List Delta)) (ss : Session)
    (u : Upstream) (sched : List Choice) (t : Sys)
    (hrun : session U ss u sched = some t) (hret : t.exit.isSome = true) :
    t.tokBuf.length + (sentTokens t.pending).length =
      (readerTokens U u).length - t.chunkCount ∧
    (∀ c t1, step ss t c = some t1 → t1.chunkCount = t.chunkCount ∧ t1.exit = t.exit) ∧
    ((readerTokens U u).length - t.chunkCount ≤ responsesCap →
      t.pending ≠ [] → (step ss t Choice.reader).isSome = true) ∧
    (responsesCap < (readerTokens U u).length - t.chunkCount →
      t.pending ≠ [] ∧
      (t.tokBuf.length < responsesCap → (step ss t Choice.reader).isSome = true) ∧
      (t.tokBuf.length = responsesCap → ∀ c, c ≠ Choice.cancel → step ss t c = none)) := by
  obtain ⟨recv, hinv⟩ := session_inv hrun
  obtain ⟨_, _, hdrop⟩ := inv_tokenEvents hinv
  have hcap := session_cap hrun
  have hcount : t.tokBuf.length + (sentTokens t.pending).length =
      (readerTokens U u).length - t.chunkCount := by
    have := congrArg List.length hdrop
    simp at this
    omega
  refine ⟨hcount, ?_, ?_, ?_⟩
  · intro c t1 hs
    have := step_after_exit hret hs
    exact ⟨this.2.2.2.2, this.2.2.1⟩
  · intro hle hp
    apply inv_reader_enabled hinv hp
    intro hne
    have : 0 < (sentTokens t.pending).length := List.length_pos.2 hne
    omega
  · intro hgt
    have hpos : 0 < (sentTokens t.pending).length := by omega
    have hne : sentTokens t.pending ≠ [] := List.length_pos.1 hpos
    have hp : t.pending ≠ [] := by
      intro h0
      rw [h0] at hne
      exact hne rfl
    refine ⟨hp, ?_, ?_⟩
    · intro hlt
      exact inv_reader_enabled hinv hp (fun _ => hlt)
    · intro hfull c hc
      cases c with
      | reader => exact inv_reader_blocked hinv hne hfull
      | cancel => exact absurd rfl hc
      | caseDone => simp [step, consumerStep, hret]
      | caseTokens => simp [step, consumerStep, hret]
      | caseErrors => simp [step, consumerStep, hret]

theorem C25_witness :
    floodFinal.tokBuf.length + (sentTokens floodFinal.pending).length =
      (readerTokens sampleUnmarshal (Upstream.response 200 floodBody)).length -
        floodFinal.chunkCount ∧
    thinkingFinal.tokBuf.length + (sentTokens thinkingFinal.pending).length =
      (readerTokens sampleUnmarshal (Upstream.response 200 thinkingBody)).length -
        thinkingFinal.chunkCount ∧
    (step sampleSession thinkingFinal Choice.reader).isSome = true :=
  ⟨(C25_reader_after_consumer_returned sampleUnmarshal sampleSession
      (Upstream.response 200 floodBody) floodSched floodFinal floodRun rfl).1,
   (C25_reader_after_consumer_returned sampleUnmarshal sampleSession
      (Upstream.response 200 thinkingBody) thinkingSched thinkingFinal thinkingRun rfl).1,
   (C25_reader_after_consumer_returned sampleUnmarshal sampleSession
      (Upstream.response 200 thinkingBody) thinkingSched thinkingFinal thinkingRun rfl).2.2.1
      (by decide) (by decide)⟩

/-- C28: `ChatCompletion` puts the configured model into the request of the
service when the model is absent, and this leaves `req.Model` of the handler as
it was; when the completion succeeds, whatever the two calls of `Create` return,
`SendMessage` ends by dereferencing `req.Model`: with a model supplied the
answer is the success response carrying that model, and with no model supplied
the answer is the nil dereference, in every case. -/
theorem C28_success_response_dereferences_model (cfgModel : String)
    (chatMessages : List Message) (Temperature : Option Rat) (result : CompletionResult)
    (createUser createAssistant : Option String) (userID conversationID : Nat)
    (Model : Option String) (message : String) :
    (ChatCompletionDefaults cfgModel (sendChatReq chatMessages Model Temperature)).Model =
      some (Model.getD cfgModel) ∧
    ((SendMessageFrom (Except.ok result) createUser createAssistant userID conversationID
        Model message).2 = Answer.nilDereference ↔ Model = none) ∧
    (∀ m, Model = some m →
      (SendMessageFrom (Except.ok result) createUser createAssistant userID conversationID
        Model message).2 = Answer.success "chat.completion" m result.Choices result.Usage) := by
  have hans : (SendMessageFrom (Except.ok result) createUser createAssistant userID
      conversationID Model message).2 = successResponse Model result := by
    simp only [SendMessageFrom]
    cases createUser with
    | some e => rfl
    | none =>
      cases hch : result.Choices with
      | nil => simp
      | cons first rest => cases createAssistant <;> simp
  refine ⟨?_, ?_, ?_⟩
  · cases Model <;> cases Temperature <;> simp [ChatCompletionDefaults, sendChatReq]
  · rw [hans]
    cases Model <;> simp [successResponse]
  · intro m hm
    rw [hans, hm]
    rfl

theorem C28_witness :
    (SendMessageFrom (Except.ok ⟨[⟨⟨"assistant", "Hello"⟩, "stop"⟩], ⟨3, 2, 5⟩⟩) none none 7 42
        (some "gpt-4") "hi").2 =
      Answer.success "chat.completion" "gpt-4" [⟨⟨"assistant", "Hello"⟩, "stop"⟩] ⟨3, 2, 5⟩ :=
  (C28_success_response_dereferences_model "deepseek-chat" [⟨"user", "hi"⟩] none
    ⟨[⟨⟨"assistant", "Hello"⟩, "stop"⟩], ⟨3, 2, 5⟩⟩ none none 7 42 (some "gpt-4") "hi").2.2
    "gpt-4" rfl

theorem Unix_add_hours (t n : Int) : Unix (t + n * Hour) = Unix t + n * 3600 := by
  unfold Unix Hour
  have h : t + n * (3600 * 1000000000) = t + (n * 3600) * 1000000000 := by ring
  rw [h, Int.add_mul_ediv_right _ _ (by norm_num)]

/-- C30: with the clock held at `t`, and both signatures succeeding,
`GenerateJWT` returns as access token the signature of the claims with `exp` the
second of `t` plus 24 hours, as refresh token the signature of the claims with
`exp` the second of `t` plus 7 days, and as `ExpiresAt` the instant `t` plus 7
days, which is the expiry of the refresh token and lies 6 days after that of the
access token. -/
theorem C30_token_expiries (sign : Claims → Except String String) (t : Int) (user : User)
    (accessToken refreshToken : String)
    (haccess : sign { userId := user.ID, email := user.Email, exp := Unix t + 24 * 3600,
                      iat := Unix t } = Except.ok accessToken)
    (hrefresh : sign { userId := user.ID, email := user.Email, exp := Unix t + 7 * 24 * 3600,
                       iat := Unix t } = Except.ok refreshToken) :
    GenerateJWT sign t t t user =
      Except.ok { AccessToken := accessToken, RefreshToken := refreshToken,
                  ExpiresAt := t + 7 * 24 * Hour, TokenType := "Bearer" } ∧
    Unix (t + 24 * Hour) = Unix t + 24 * 3600 ∧
    Unix (t + 7 * 24 * Hour) = Unix t + 7 * 24 * 3600 ∧
    (t + 7 * 24 * Hour) - (t + 24 * Hour) = 6 * 24 * Hour := by
  have h1 : Unix (t + 24 * Hour) = Unix t + 24 * 3600 := Unix_add_hours t 24
  have h2 : Unix (t + 7 * 24 * Hour) = Unix t + 7 * 24 * 3600 := by
    have := Unix_add_hours t (7 * 24)
    simpa using this
  refine ⟨?_, h1, h2, by ring⟩
  simp only [GenerateJWT, h1, h2, haccess, hrefresh]

theorem C30_witness :
    GenerateJWT sampleSign 1700000000123456789 1700000000123456789 1700000000123456789
        ⟨7, "a@b.c"⟩ =
      Except.ok { AccessToken := "signed:1700086400", RefreshToken := "signed:1700604800",
                  ExpiresAt := 1700000000123456789 + 7 * 24 * Hour, TokenType := "Bearer" } :=
  (C30_token_expiries sampleSign 1700000000123456789 ⟨7, "a@b.c"⟩ "signed:1700086400"
    "signed:1700604800" rfl rfl).1

end AIChat
